import Mathlib

/-!
# Bitmap: header codec, pixel codec and pixel transforms

A shallow embedding of the Go package `bmp` (files `header.go`, `io.go`,
`rotate.go`, `mirror.go`, `crop.go`, `filter.go`) and theorems about it.

Conventions of the embedding:

* a file is the list of its bytes, read from the current position;
* `byte`/`uint8` is `Fin 256` (arithmetic wraps modulo 256, as in Go);
* `uint16`/`uint32` header fields are `Nat`, `int32` header fields are `Int`;
  the ranges of the Go types are stated by `BMPHeader.InRange` and
  `DIBHeader.InRange`;
* an `int` that only counts loop iterations and indexes slices (the width and
  height of the rotate, mirror, filter and row loops) is a `Nat`; where the
  source subtracts or compares `int`s that can be negative or can exceed 64
  bits (crop options, blur offsets) the values are `Int`, and `wrapInt` reduces
  the result of an operation to 64 bits (`int` is 64 bits wide);
* a Go `error` result is `Except.error (Fault.err msg)`, a run-time panic
  (index or slice bounds out of range, negative `make` length, division by
  zero) is `Except.error (Fault.panic msg)`; the message of an `error` keeps the
  fixed text of the source and drops the formatted operands;
* slices are lists whose capacity is their length; every index and slice
  expression is checked. Memory limits of `make` are not modelled.
-/

namespace Bitmap

/-- Go `byte`. -/
abbrev Byte := Fin 256

/-- Failure of a Go function: a returned `error`, or a run-time panic. -/
inductive Fault where
  | err (msg : String)
  | panic (msg : String)
  deriving DecidableEq, Repr

/-- Result of a Go function that returns `(value, error)`. -/
abbrev Result (α : Type) := Except Fault α

/-! ## Little-endian fixed-width integers (`encoding/binary`) -/

/-- Low eight bits of a natural number. -/
def toByte (n : Nat) : Byte := ⟨n % 256, Nat.mod_lt _ (by decide)⟩

/-- `binary.Write(w, binary.LittleEndian, v)` for `v : uint16`. -/
def putU16 (n : Nat) : List Byte := [toByte n, toByte (n / 256)]

/-- `binary.Write(w, binary.LittleEndian, v)` for `v : uint32`. -/
def putU32 (n : Nat) : List Byte :=
  [toByte n, toByte (n / 256), toByte (n / 65536), toByte (n / 16777216)]

/-- `binary.Write(w, binary.LittleEndian, v)` for `v : int32` (two's complement). -/
def putI32 (i : Int) : List Byte := putU32 (i % 4294967296).toNat

/-- Value of a `uint32` bit pattern read as `int32`. -/
def asI32 (n : Nat) : Int := if n < 2147483648 then (n : Int) else (n : Int) - 4294967296

/-- `binary.Read(r, binary.LittleEndian, &v)` for `v : uint16`: the value and the
rest of the stream, or the reader's end-of-file error. -/
def getU16 : List Byte → Result (Nat × List Byte)
  | b0 :: b1 :: rest => .ok (b0.val + 256 * b1.val, rest)
  | [] => .error (.err "EOF")
  | _ => .error (.err "unexpected EOF")

/-- `binary.Read(r, binary.LittleEndian, &v)` for `v : uint32`. -/
def getU32 : List Byte → Result (Nat × List Byte)
  | b0 :: b1 :: b2 :: b3 :: rest =>
      .ok (b0.val + 256 * b1.val + 65536 * b2.val + 16777216 * b3.val, rest)
  | [] => .error (.err "EOF")
  | _ => .error (.err "unexpected EOF")

/-- `binary.Read(r, binary.LittleEndian, &v)` for `v : int32`. -/
def getI32 (bs : List Byte) : Result (Int × List Byte) :=
  match getU32 bs with
  | .ok (n, rest) => .ok (asI32 n, rest)
  | .error e => .error e

/-- `binary.Read(r, binary.LittleEndian, &v)` for `v : [9]int32`: the 36 bytes
are read in one piece, then decoded element by element. -/
def getEndpoints (bs : List Byte) : Result (List Int × List Byte) :=
  if bs.length = 0 then .error (.err "EOF")
  else if bs.length < 36 then .error (.err "unexpected EOF")
  else do
    let (e0, r) ← getI32 bs
    let (e1, r) ← getI32 r
    let (e2, r) ← getI32 r
    let (e3, r) ← getI32 r
    let (e4, r) ← getI32 r
    let (e5, r) ← getI32 r
    let (e6, r) ← getI32 r
    let (e7, r) ← getI32 r
    let (e8, r) ← getI32 r
    pure ([e0, e1, e2, e3, e4, e5, e6, e7, e8], r)

/-! ## Headers (`header.go`) -/

/-- The 14-byte primary header (`type BMPHeader struct`). -/
structure BMPHeader where
  Signature : Byte × Byte
  FileSize : Nat
  Reserved : Nat
  DataOffset : Nat
  deriving DecidableEq, Repr

/-- The secondary header (`type DIBHeader struct`), versions 3, 4 and 5. -/
structure DIBHeader where
  DibHeaderSize : Nat
  Width : Int
  Height : Int
  Planes : Nat
  BitCount : Nat
  Compression : Nat
  ImageSize : Nat
  XPixelsPerM : Int
  YPixelsPerM : Int
  ColorsUsed : Nat
  ColorsImp : Nat
  RedMask : Nat
  GreenMask : Nat
  BlueMask : Nat
  AlphaMask : Nat
  ColorSpace : Nat
  Endpoints : List Int
  GammaRed : Nat
  GammaGreen : Nat
  GammaBlue : Nat
  Intent : Nat
  ProfileData : Nat
  ProfileSize : Nat
  Reserved : Nat
  deriving DecidableEq, Repr

/-- Range of Go `uint16`. -/
def isU16 (n : Nat) : Prop := n < 65536

/-- Range of Go `uint32`. -/
def isU32 (n : Nat) : Prop := n < 4294967296

/-- Range of Go `int32`. -/
def isI32 (i : Int) : Prop := -2147483648 ≤ i ∧ i < 2147483648

instance (n : Nat) : Decidable (isU16 n) := by unfold isU16; infer_instance
instance (n : Nat) : Decidable (isU32 n) := by unfold isU32; infer_instance
instance (i : Int) : Decidable (isI32 i) := by unfold isI32; infer_instance

/-- Every field of the primary header is a value of its Go type. -/
def BMPHeader.InRange (h : BMPHeader) : Prop :=
  isU32 h.FileSize ∧ isU32 h.Reserved ∧ isU32 h.DataOffset

/-- Every field of the secondary header is a value of its Go type
(`Endpoints` is a `[9]int32`). -/
def DIBHeader.InRange (d : DIBHeader) : Prop :=
  isU32 d.DibHeaderSize ∧ isI32 d.Width ∧ isI32 d.Height ∧ isU16 d.Planes ∧
  isU16 d.BitCount ∧ isU32 d.Compression ∧ isU32 d.ImageSize ∧
  isI32 d.XPixelsPerM ∧ isI32 d.YPixelsPerM ∧ isU32 d.ColorsUsed ∧ isU32 d.ColorsImp ∧
  isU32 d.RedMask ∧ isU32 d.GreenMask ∧ isU32 d.BlueMask ∧ isU32 d.AlphaMask ∧
  isU32 d.ColorSpace ∧ (d.Endpoints.length = 9 ∧ ∀ e ∈ d.Endpoints, isI32 e) ∧
  isU32 d.GammaRed ∧ isU32 d.GammaGreen ∧ isU32 d.GammaBlue ∧
  isU32 d.Intent ∧ isU32 d.ProfileData ∧ isU32 d.ProfileSize ∧ isU32 d.Reserved

instance (h : BMPHeader) : Decidable h.InRange := by
  unfold BMPHeader.InRange; infer_instance

instance (d : DIBHeader) : Decidable d.InRange := by
  unfold DIBHeader.InRange; infer_instance

/-- The Go composite literal `DIBHeader{DibHeaderSize: size}`: every other field
has its zero value. -/
def DIBHeader.ofSize (size : Nat) : DIBHeader :=
  { DibHeaderSize := size, Width := 0, Height := 0, Planes := 0, BitCount := 0,
    Compression := 0, ImageSize := 0, XPixelsPerM := 0, YPixelsPerM := 0,
    ColorsUsed := 0, ColorsImp := 0, RedMask := 0, GreenMask := 0, BlueMask := 0,
    AlphaMask := 0, ColorSpace := 0, Endpoints := [0, 0, 0, 0, 0, 0, 0, 0, 0],
    GammaRed := 0, GammaGreen := 0, GammaBlue := 0, Intent := 0, ProfileData := 0,
    ProfileSize := 0, Reserved := 0 }

/-- `binary.Read(file, binary.LittleEndian, &bmpHeader)`: the 14 bytes of the
struct are read in one piece. -/
def getBMPHeader : List Byte → Result (BMPHeader × List Byte)
  | s0 :: s1 :: f0 :: f1 :: f2 :: f3 :: r0 :: r1 :: r2 :: r3 ::
      o0 :: o1 :: o2 :: o3 :: rest =>
      .ok ({ Signature := (s0, s1),
             FileSize := f0.val + 256 * f1.val + 65536 * f2.val + 16777216 * f3.val,
             Reserved := r0.val + 256 * r1.val + 65536 * r2.val + 16777216 * r3.val,
             DataOffset := o0.val + 256 * o1.val + 65536 * o2.val + 16777216 * o3.val },
           rest)
  | [] => .error (.err "EOF")
  | _ => .error (.err "unexpected EOF")

/-- `file.Read(buf)` on a regular file for a buffer `buf` of `n` bytes holding
`old`: as many bytes as the file still has, at most `n`, overwrite the start of
the buffer; reading nothing into a non-empty buffer is `io.EOF`. Returns the
buffer and the rest of the file. -/
def fileRead (file : List Byte) (old : List Byte) : Result (List Byte × List Byte) :=
  let got := file.take old.length
  if old.length ≠ 0 ∧ got.length = 0 then .error (.err "EOF")
  else .ok (got ++ old.drop got.length, file.drop old.length)

/-- Wraps the reader's error of one field the way `readHeaders` does. -/
def field {α : Type} (name : String) (r : Result α) : Result α :=
  match r with
  | .ok a => .ok a
  | .error _ => .error (.err ("error reading " ++ name))

/-- The ten reads of the mandatory version-3 fields in `readHeaders`, from the
in-memory `buffer`, assigned to `dibHeader`. -/
def readV3Fields (dibHeader : DIBHeader) (buffer : List Byte) :
    Result (DIBHeader × List Byte) := do
  let (width, buffer) ← field "Width" (getI32 buffer)
  let (height, buffer) ← field "Height" (getI32 buffer)
  let (planes, buffer) ← field "Planes" (getU16 buffer)
  let (bitCount, buffer) ← field "BitCount" (getU16 buffer)
  let (compression, buffer) ← field "Compression" (getU32 buffer)
  let (imageSize, buffer) ← field "ImageSize" (getU32 buffer)
  let (xPixelsPerM, buffer) ← field "XPixelsPerM" (getI32 buffer)
  let (yPixelsPerM, buffer) ← field "YPixelsPerM" (getI32 buffer)
  let (colorsUsed, buffer) ← field "ColorsUsed" (getU32 buffer)
  let (colorsImp, buffer) ← field "ColorsImp" (getU32 buffer)
  pure ({ dibHeader with
            Width := width, Height := height, Planes := planes, BitCount := bitCount,
            Compression := compression, ImageSize := imageSize,
            XPixelsPerM := xPixelsPerM, YPixelsPerM := yPixelsPerM,
            ColorsUsed := colorsUsed, ColorsImp := colorsImp }, buffer)

/-- The nine reads of the version-4 fields in `readHeaders`. -/
def readV4Fields (dibHeader : DIBHeader) (buffer : List Byte) :
    Result (DIBHeader × List Byte) := do
  let (redMask, buffer) ← field "RedMask" (getU32 buffer)
  let (greenMask, buffer) ← field "GreenMask" (getU32 buffer)
  let (blueMask, buffer) ← field "BlueMask" (getU32 buffer)
  let (alphaMask, buffer) ← field "AlphaMask" (getU32 buffer)
  let (colorSpace, buffer) ← field "ColorSpace" (getU32 buffer)
  let (endpoints, buffer) ← field "ColorSpaceEndpoints" (getEndpoints buffer)
  let (gammaRed, buffer) ← field "GammaRed" (getU32 buffer)
  let (gammaGreen, buffer) ← field "GammaGreen" (getU32 buffer)
  let (gammaBlue, buffer) ← field "GammaBlue" (getU32 buffer)
  pure ({ dibHeader with
            RedMask := redMask, GreenMask := greenMask, BlueMask := blueMask,
            AlphaMask := alphaMask, ColorSpace := colorSpace, Endpoints := endpoints,
            GammaRed := gammaRed, GammaGreen := gammaGreen, GammaBlue := gammaBlue },
        buffer)

/-- The four reads of the version-5 fields in `readHeaders`. -/
def readV5Fields (dibHeader : DIBHeader) (buffer : List Byte) :
    Result (DIBHeader × List Byte) := do
  let (intent, buffer) ← field "Intent" (getU32 buffer)
  let (profileData, buffer) ← field "ProfileData" (getU32 buffer)
  let (profileSize, buffer) ← field "ProfileSize" (getU32 buffer)
  let (reserved, buffer) ← field "Reserved" (getU32 buffer)
  pure ({ dibHeader with
            Intent := intent, ProfileData := profileData, ProfileSize := profileSize,
            Reserved := reserved }, buffer)

/-- `readHeaders(file)` of `header.go`, on the bytes of the file from its start. -/
def readHeaders (file : List Byte) : Result (BMPHeader × DIBHeader) := do
  let (bmpHeader, file) ← field "BMP header" (getBMPHeader file)
  -- Read DIB header size (first 4 bytes of DIB header)
  let (dibHeaderSize, file) ← field "DIB header size" (getU32 file)
  let dibHeader := DIBHeader.ofSize dibHeaderSize
  -- Validate supported header sizes
  if dibHeaderSize ≠ 40 ∧ dibHeaderSize ≠ 108 ∧ dibHeaderSize ≠ 124 then
    throw (.err "unsupported BMP format")
  else
    -- Read the full DIB header as bytes (the first 4 bytes are already read)
    let (dibHeaderBytes, _) ← field "full DIB header"
      (fileRead file (List.replicate (dibHeaderSize - 4) 0))
    let buffer := dibHeaderBytes
    -- Read mandatory BMP v3 fields
    let (dibHeader, buffer) ← readV3Fields dibHeader buffer
    -- Stop reading extra fields if DibHeaderSize == 40 (BMP v3)
    if dibHeaderSize = 40 then
      return (bmpHeader, dibHeader)
    else
      -- Read BMP v4 fields (if present)
      let (dibHeader, buffer) ←
        if dibHeaderSize ≥ 108 then readV4Fields dibHeader buffer
        else pure (dibHeader, buffer)
      -- Stop reading extra fields if DibHeaderSize == 108 (BMP v4)
      if dibHeaderSize = 108 then
        return (bmpHeader, dibHeader)
      else
        -- Read BMP v5 fields (if present)
        let (dibHeader, _) ←
          if dibHeaderSize = 124 then readV5Fields dibHeader buffer
          else pure (dibHeader, buffer)
        return (bmpHeader, dibHeader)

/-- `writeHeaders(file, bmpHeader, dibHeader)` of `io.go`: the bytes appended to
the file. The two headers are passed by value. -/
def writeHeaders (bmpHeader : BMPHeader) (dibHeader : DIBHeader) : List Byte :=
  -- Write BMP Header (Only first 14 bytes)
  let out := [bmpHeader.Signature.1, bmpHeader.Signature.2]
  let out := out ++ putU32 bmpHeader.FileSize
  let out := out ++ putU32 bmpHeader.Reserved
  let out := out ++ putU32 bmpHeader.DataOffset
  -- Write DIB Header
  let out := out ++ putU32 dibHeader.DibHeaderSize
  let out := out ++ putI32 dibHeader.Width
  let out := out ++ putI32 dibHeader.Height
  let out := out ++ putU16 dibHeader.Planes
  let out := out ++ putU16 dibHeader.BitCount
  let out := out ++ putU32 dibHeader.Compression
  -- Handle ImageSize correctly for BMP v3
  let dibHeader :=
    if dibHeader.DibHeaderSize = 40 ∧ dibHeader.Compression = 0 then
      { dibHeader with ImageSize := 0 }
    else dibHeader
  let out := out ++ putU32 dibHeader.ImageSize
  let out := out ++ putI32 dibHeader.XPixelsPerM
  let out := out ++ putI32 dibHeader.YPixelsPerM
  let out := out ++ putU32 dibHeader.ColorsUsed
  let out := out ++ putU32 dibHeader.ColorsImp
  let out :=
    if dibHeader.DibHeaderSize ≥ 108 then
      out ++ putU32 dibHeader.RedMask ++ putU32 dibHeader.GreenMask ++
        putU32 dibHeader.BlueMask ++ putU32 dibHeader.AlphaMask ++
        putU32 dibHeader.ColorSpace ++ dibHeader.Endpoints.flatMap putI32 ++
        putU32 dibHeader.GammaRed ++ putU32 dibHeader.GammaGreen ++
        putU32 dibHeader.GammaBlue
    else out
  let out :=
    if dibHeader.DibHeaderSize = 124 then
      out ++ putU32 dibHeader.Intent ++ putU32 dibHeader.ProfileData ++
        putU32 dibHeader.ProfileSize ++ putU32 dibHeader.Reserved
    else out
  out

deriving instance DecidableEq for Except

/-- Bytes of the ten version-3 fields after the size, as `writeHeaders` emits
them for the declared image size `imageSize`. -/
def v3Bytes (d : DIBHeader) (imageSize : Nat) : List Byte :=
  putI32 d.Width ++ (putI32 d.Height ++ (putU16 d.Planes ++
    (putU16 d.BitCount ++ (putU32 d.Compression ++ (putU32 imageSize ++
    (putI32 d.XPixelsPerM ++ (putI32 d.YPixelsPerM ++ (putU32 d.ColorsUsed ++
    putU32 d.ColorsImp))))))))

/-- Bytes of the version-4 fields as `writeHeaders` emits them. -/
def v4Bytes (d : DIBHeader) : List Byte :=
  putU32 d.RedMask ++ (putU32 d.GreenMask ++ (putU32 d.BlueMask ++
    (putU32 d.AlphaMask ++ (putU32 d.ColorSpace ++ (d.Endpoints.flatMap putI32 ++
    (putU32 d.GammaRed ++ (putU32 d.GammaGreen ++ putU32 d.GammaBlue)))))))

/-- Bytes of the version-5 fields as `writeHeaders` emits them. -/
def v5Bytes (d : DIBHeader) : List Byte :=
  putU32 d.Intent ++ (putU32 d.ProfileData ++ (putU32 d.ProfileSize ++ putU32 d.Reserved))

/-- The header that `readHeaders` finds in the bytes `writeHeaders` produced
for `d`: the fields that are not serialised for the declared size keep their
zero values, and a version-3 uncompressed header has `ImageSize` 0. -/
def DIBHeader.stored (d : DIBHeader) : DIBHeader :=
  if d.DibHeaderSize = 40 then
    { DIBHeader.ofSize 40 with
        Width := d.Width, Height := d.Height, Planes := d.Planes, BitCount := d.BitCount,
        Compression := d.Compression,
        ImageSize := if d.Compression = 0 then 0 else d.ImageSize,
        XPixelsPerM := d.XPixelsPerM, YPixelsPerM := d.YPixelsPerM,
        ColorsUsed := d.ColorsUsed, ColorsImp := d.ColorsImp }
  else if d.DibHeaderSize = 108 then
    { d with Intent := 0, ProfileData := 0, ProfileSize := 0, Reserved := 0 }
  else d

/-- A primary header: signature "BM", pixel data at offset 54. -/
def sampleBMP : BMPHeader :=
  { Signature := (66, 77), FileSize := 70, Reserved := 0, DataOffset := 54 }

/-- A version-3 uncompressed 2 x 2 header that declares 16 bytes of image data. -/
def sampleDIBv3 : DIBHeader :=
  { DIBHeader.ofSize 40 with
      Width := 2, Height := 2, Planes := 1, BitCount := 24, ImageSize := 16 }

/-- A version-5 header with non-zero version-4 and version-5 fields and a
negative resolution. -/
def sampleDIBv5 : DIBHeader :=
  { DIBHeader.ofSize 124 with
      Width := 2, Height := 2, Planes := 1, BitCount := 24, ImageSize := 16,
      XPixelsPerM := -1, YPixelsPerM := 2835, RedMask := 16711680, GreenMask := 65280,
      BlueMask := 255, AlphaMask := 4278190080, ColorSpace := 1934772034,
      Endpoints := [1, -2, 3, -4, 5, -6, 7, -8, 2147483647],
      GammaRed := 1, GammaGreen := 2, GammaBlue := 3,
      Intent := 4, ProfileData := 5, ProfileSize := 6, Reserved := 7 }

/-! ## Slices and loops -/

/-- A pixel of a 24-bit image (`type Pixel struct`). -/
structure Pixel where
  Blue : Byte
  Green : Byte
  Red : Byte
  deriving DecidableEq, Repr

/-- The zero value of `Pixel`, the content of a fresh `make([]Pixel, n)`. -/
def Pixel.zero : Pixel := { Blue := 0, Green := 0, Red := 0 }

/-- `for i := 0; i < n; i++ { s = body(i, s) }`, stopping at the first failure. -/
def forUp {σ : Type} (n : Nat) (body : Nat → σ → Result σ) (s : σ) : Result σ :=
  (List.range n).foldlM (fun s i => body i s) s

/-- `for i := n - 1; i >= 0; i-- { s = body(i, s) }`: the `k`-th iteration
(from 0) runs the body at `n - 1 - k`. -/
def forDown {σ : Type} (n : Nat) (body : Nat → σ → Result σ) (s : σ) : Result σ :=
  forUp n (fun k s => body (n - 1 - k) s) s

/-- The index expression `xs[i]` as a value. -/
def index {α : Type} (xs : List α) (i : Nat) : Result α :=
  match xs[i]? with
  | some a => .ok a
  | none => .error (.panic "index out of range")

/-- The assignment `xs[i] = a`. -/
def assign {α : Type} (xs : List α) (i : Nat) (a : α) : Result (List α) :=
  if i < xs.length then .ok (xs.set i a) else .error (.panic "index out of range")

/-- The bit-clear operator `x &^ y` (AND NOT) on non-negative integers: the
bits of `x` without those it shares with `y`. -/
def bitClear (x y : Nat) : Nat := x ^^^ (x &&& y)

/-! ## Rotation (`rotate.go`) -/

/-- `ApplyRotate(pixels, width, height, angle)` for non-negative `width` and
`height`; returns the rotated grid, the new width and the new height. -/
def ApplyRotate (pixels : List Pixel) (width height : Nat) (angle : Int) :
    Result (List Pixel × Nat × Nat) :=
  if angle = 90 then do
    let newWidth := height
    let newHeight := width
    let rotatedPixels := List.replicate (newWidth * newHeight) Pixel.zero
    let rotatedPixels ← forUp height (fun y rotatedPixels =>
      forUp width (fun x rotatedPixels => do
        let newX := height - y - 1
        let newY := x
        let p ← index pixels (y * width + x)
        assign rotatedPixels (newY * newWidth + newX) p) rotatedPixels) rotatedPixels
    pure (rotatedPixels, newWidth, newHeight)
  else if angle = 180 then do
    let newWidth := width
    let newHeight := height
    let rotatedPixels := List.replicate (newWidth * newHeight) Pixel.zero
    let rotatedPixels ← forUp height (fun y rotatedPixels =>
      forUp width (fun x rotatedPixels => do
        let newX := width - x - 1
        let newY := height - y - 1
        let p ← index pixels (y * width + x)
        assign rotatedPixels (newY * newWidth + newX) p) rotatedPixels) rotatedPixels
    pure (rotatedPixels, newWidth, newHeight)
  else if angle = 270 then do
    let newWidth := height
    let newHeight := width
    let rotatedPixels := List.replicate (newWidth * newHeight) Pixel.zero
    let rotatedPixels ← forUp height (fun y rotatedPixels =>
      forUp width (fun x rotatedPixels => do
        let newX := y
        let newY := width - x - 1
        let p ← index pixels (y * width + x)
        assign rotatedPixels (newY * newWidth + newX) p) rotatedPixels) rotatedPixels
    pure (rotatedPixels, newWidth, newHeight)
  else
    .error (.err "not a valid angle value")

/-- `ParseRotationValue(rotation)`. -/
def ParseRotationValue (rotation : String) : Result Int :=
  if rotation = "right" ∨ rotation = "90" ∨ rotation = "-270" then .ok 90
  else if rotation = "left" ∨ rotation = "270" ∨ rotation = "-90" then .ok 270
  else if rotation = "180" ∨ rotation = "-180" then .ok 180
  else .error (.err "not a valid angle value")

/-! ## Mirroring (`mirror.go`) -/

/-- `ApplyMirror(pixels, width, height, mode)` for non-negative `width` and
`height`. -/
def ApplyMirror (pixels : List Pixel) (width height : Nat) (mode : String) :
    Result (List Pixel) :=
  let mirror := List.replicate pixels.length Pixel.zero
  if mode = "horizontal" ∨ mode = "h" ∨ mode = "horizontally" ∨ mode = "hor" then
    forUp height (fun y mirror =>
      forUp width (fun x mirror => do
        let srcIndex := y * width + x
        let dstIndex := y * width + (width - 1 - x)
        let p ← index pixels srcIndex
        assign mirror dstIndex p) mirror) mirror
  else if mode = "vertical" ∨ mode = "v" ∨ mode = "vertically" ∨ mode = "ver" then
    forUp height (fun y mirror =>
      forUp width (fun x mirror => do
        let srcIndex := y * width + x
        let dstIndex := (height - 1 - y) * width + x
        let p ← index pixels srcIndex
        assign mirror dstIndex p) mirror) mirror
  else
    .error (.err "invalid mirror mode")

/-- The nested loop shared by `ApplyRotate` and `ApplyMirror`: for every row
`y < height` and column `x < width`, in row-major order,
`dst[f y x] = src[g y x]`. -/
def scatter (height width : Nat) (f g : Nat → Nat → Nat) (src dst : List Pixel) :
    Result (List Pixel) :=
  forUp height (fun y dst =>
    forUp width (fun x dst => do
      let p ← index src (g y x)
      assign dst (f y x) p) dst) dst

/-! ## Pixel rows (`io.go`) -/

/-- The row loop of `ReadPixels` (from "Get image dimensions" on) for
non-negative `width` and `height`; `file` holds the bytes from the data offset.
The row buffer `buf` is allocated once and reused by every `file.Read`. -/
def readPixelRows (width height : Nat) (file : List Byte) : Result (List Pixel) := do
  let pixels := List.replicate (width * height) Pixel.zero
  -- Calculate row size and padding
  let rowSize := ((width * 3) + 3) / 4 * 4
  let buf : List Byte := List.replicate rowSize 0
  -- Read pixel data (BMP stores pixels bottom-up)
  let (_, _, pixels) ← forDown height (fun y (state : List Byte × List Byte × List Pixel) => do
    let (file, buf, pixels) := state
    let (buf, file) ←
      match fileRead file buf with
      | .ok r => pure r
      | .error _ => throw (.err "error reading pixel data")
    -- Extract RGB values from buf and assign to pixels slice
    let pixels ← forUp width (fun x pixels => do
      let bufIndex := x * 3
      let pixelIndex := y * width + x
      let blue ← index buf bufIndex
      let green ← index buf (bufIndex + 1)
      let red ← index buf (bufIndex + 2)
      assign pixels pixelIndex { Blue := blue, Green := green, Red := red }) pixels
    pure (file, buf, pixels)) (file, buf, pixels)
  pure pixels

/-- `copy(dst[off:], src)`: panics when `off` exceeds the length of `dst`,
otherwise overwrites as many elements as both slices have. -/
def copyFrom {α : Type} (dst : List α) (off : Nat) (src : List α) : Result (List α) :=
  if off ≤ dst.length then
    let n := min (dst.length - off) src.length
    .ok (dst.take off ++ src.take n ++ dst.drop (off + n))
  else .error (.panic "slice bounds out of range")

/-- The row loop of `WritePixels` (after `writeHeaders`) for non-negative
`width` and `height`: the bytes written after the headers. The row buffer is
allocated once and reused for every row. -/
def writePixelRows (width height : Nat) (pixels : List Pixel) : Result (List Byte) := do
  let rowSize := bitClear ((width * 3) + 3) 3 -- Align to 4-byte boundary
  let padding := rowSize - (width * 3)
  let paddingBytes : List Byte := List.replicate padding 0
  let rowBuffer : List Byte := List.replicate rowSize 0
  let (_, out) ← forDown height (fun y (state : List Byte × List Byte) => do
    let (rowBuffer, out) := state
    let rowBuffer ← forUp width (fun x rowBuffer => do
      let idx := y * width + x
      let offset := x * 3
      let p ← index pixels idx
      let rowBuffer ← assign rowBuffer offset p.Blue
      let p ← index pixels idx
      let rowBuffer ← assign rowBuffer (offset + 1) p.Green
      let p ← index pixels idx
      assign rowBuffer (offset + 2) p.Red) rowBuffer
    let rowBuffer ← copyFrom rowBuffer (width * 3) paddingBytes
    pure (rowBuffer, out ++ rowBuffer)) (rowBuffer, [])
  pure out

/-- Bytes of one file row: `3 * width` rounded up to a multiple of 4. -/
def stride (width : Nat) : Nat := ((width * 3) + 3) / 4 * 4

/-- The pixel at index `i` of a grid (the zero pixel outside the grid). -/
def pixelAt (pixels : List Pixel) (i : Nat) : Pixel := pixels.getD i Pixel.zero

/-- The file row of the logical row `y`: the pixels of the row in column order,
each as Blue, Green, Red, then zero bytes up to the stride. -/
def rowBytes (width : Nat) (pixels : List Pixel) (y : Nat) : List Byte :=
  (List.range width).flatMap (fun x =>
    [(pixelAt pixels (y * width + x)).Blue, (pixelAt pixels (y * width + x)).Green,
      (pixelAt pixels (y * width + x)).Red]) ++
  List.replicate (stride width - width * 3) 0

/-- The pixel data of a file: the rows from the logical bottom row `height - 1`
to the logical top row 0. -/
def fileRows (width height : Nat) (pixels : List Pixel) : List Byte :=
  (List.range height).flatMap (fun k => rowBytes width pixels (height - 1 - k))

/-- The pixel whose Blue, Green and Red bytes are at offset `off` of `file`. -/
def pixelOfBytes (file : List Byte) (off : Nat) : Pixel :=
  { Blue := file.getD off 0, Green := file.getD (off + 1) 0, Red := file.getD (off + 2) 0 }

/-! ## Filters (`filter.go`) -/

/-- `applyPixelation(pixels, width, height, blockSize)` for non-negative `width`
and `height` and positive `blockSize` (the only call passes 20). The loop
`for y := 0; y < height; y += blockSize` runs at `y = k * blockSize` for the
`⌈height / blockSize⌉` values of `k`, and `for dy := 0; dy < blockSize &&
(y+dy) < height; dy++` runs `min blockSize (height - y)` times. The slice is
updated in place. -/
def applyPixelation (pixels : List Pixel) (width height blockSize : Nat) :
    Result (List Pixel) :=
  forUp ((height + blockSize - 1) / blockSize) (fun ky pixels =>
    let y := ky * blockSize
    forUp ((width + blockSize - 1) / blockSize) (fun kx pixels => do
      let x := kx * blockSize
      -- Collect block colors
      let (sumR, sumG, sumB, count) ←
        forUp (min blockSize (height - y)) (fun dy acc =>
          forUp (min blockSize (width - x)) (fun dx (acc : Nat × Nat × Nat × Nat) => do
            let (sumR, sumG, sumB, count) := acc
            let idx := (y + dy) * width + (x + dx)
            let p ← index pixels idx
            pure (sumR + p.Red.val, sumG + p.Green.val, sumB + p.Blue.val, count + 1)) acc)
          (0, 0, 0, 0)
      -- Calculate the average color of the block
      if count = 0 then throw (.panic "integer divide by zero")
      else
        let avgR := toByte (sumR / count)
        let avgG := toByte (sumG / count)
        let avgB := toByte (sumB / count)
        -- Apply the averaged color to all pixels in the block
        forUp (min blockSize (height - y)) (fun dy pixels =>
          forUp (min blockSize (width - x)) (fun dx pixels =>
            let idx := (y + dy) * width + (x + dx)
            assign pixels idx { Red := avgR, Green := avgG, Blue := avgB }) pixels)
          pixels) pixels) pixels

/-- `applyBlur(pixels, width, height, kernelSize)` for non-negative `width`,
`height` and `kernelSize`. The loop `for dy := -radius; dy <= radius; dy++` runs
`2 * radius + 1` times, the `i`-th time (from 0) at `dy = i - radius`. -/
def applyBlur (pixels : List Pixel) (width height kernelSize : Nat) :
    Result (List Pixel) :=
  let blurredPixels := List.replicate pixels.length Pixel.zero
  let radius := kernelSize / 2
  forUp height (fun y blurredPixels =>
    forUp width (fun x blurredPixels => do
      -- Iterate over the surrounding pixels in the kernel
      let (sumR, sumG, sumB, count) ←
        forUp (2 * radius + 1) (fun i acc =>
          let dy : Int := (i : Int) - (radius : Int)
          forUp (2 * radius + 1) (fun j (acc : Nat × Nat × Nat × Nat) =>
            let (sumR, sumG, sumB, count) := acc
            let dx : Int := (j : Int) - (radius : Int)
            let neighborX : Int := (x : Int) + dx
            let neighborY : Int := (y : Int) + dy
            -- Ensure the neighboring pixel is within bounds
            if neighborX ≥ 0 ∧ neighborX < (width : Int) ∧
                neighborY ≥ 0 ∧ neighborY < (height : Int) then do
              let idx := neighborY * (width : Int) + neighborX
              let pixel ← index pixels idx.toNat
              pure (sumR + pixel.Red.val, sumG + pixel.Green.val,
                sumB + pixel.Blue.val, count + 1)
            else pure acc) acc)
          (0, 0, 0, 0)
      -- Apply the averaged color to the current pixel
      if count = 0 then throw (.panic "integer divide by zero")
      else
        let newIndex := y * width + x
        assign blurredPixels newIndex
          { Red := toByte (sumR / count), Green := toByte (sumG / count),
            Blue := toByte (sumB / count) }) blurredPixels) blurredPixels

/-- `ApplyFilter(pixels, width, height, filterType)`. A loop
`for i := range pixels` that updates `pixels[i]` alone is a `map`. The
grayscale level `uint8(0.299*float64(r) + 0.587*float64(g) + 0.114*float64(b))`
is a `float64` computation; it enters as the function `luma r g b` of the red,
green and blue channel. -/
def ApplyFilter (luma : Byte → Byte → Byte → Byte) (pixels : List Pixel)
    (width height : Nat) (filterType : String) : Result (List Pixel) :=
  if filterType = "pixelate" then applyPixelation pixels width height 20
  else if filterType = "blur" then applyBlur pixels width height 25
  else if filterType = "blue" then
    .ok (pixels.map (fun p => { p with Red := 0, Green := 0 }))
  else if filterType = "red" then
    .ok (pixels.map (fun p => { p with Green := 0, Blue := 0 }))
  else if filterType = "green" then
    .ok (pixels.map (fun p => { p with Red := 0, Blue := 0 }))
  else if filterType = "grayscale" then
    .ok (pixels.map (fun p =>
      let gray := luma p.Red p.Green p.Blue
      { Red := gray, Green := gray, Blue := gray }))
  else if filterType = "negative" then
    .ok (pixels.map (fun p =>
      { Red := 255 - p.Red, Green := 255 - p.Green, Blue := 255 - p.Blue }))
  else .error (.err "invalid filter type")

/-! ## Cropping (`crop.go`) -/

/-- The value of a Go `int` (64 bits) after an arithmetic operation whose exact
result is `x`: `x` reduced modulo `2^64` into `[-2^63, 2^63)`. -/
def wrapInt (x : Int) : Int :=
  (x + 9223372036854775808) % 18446744073709551616 - 9223372036854775808

/-- `strings.Split(s, "-")` for the separator `sep`, on the characters of `s`. -/
def splitOn (sep : Char) : List Char → List (List Char)
  | [] => [[]]
  | c :: cs =>
    if c = sep then [] :: splitOn sep cs
    else
      match splitOn sep cs with
      | [] => [[c]]
      | t :: ts => (c :: t) :: ts

/-- Value of a string of decimal digits. -/
def decimalValue (digits : List Char) : Nat :=
  digits.foldl (fun acc c => 10 * acc + (c.toNat - 48)) 0

/-- The optional sign of a numeral: whether it is negative, and what follows
the sign. -/
def signAndDigits (s : List Char) : Bool × List Char :=
  match s with
  | '+' :: rest => (false, rest)
  | '-' :: rest => (true, rest)
  | _ => (false, s)

/-- `strconv.Atoi(s)` with a 64-bit `int`: an optional sign, then one or more
decimal digits, the value within `[-2^63, 2^63)`; anything else is an error
(which of the two `*NumError` kinds is not distinguished further). -/
def Atoi (s : List Char) : Result Int :=
  let (neg, digits) := signAndDigits s
  if digits = [] then .error (.err "strconv.Atoi: invalid syntax")
  else if ¬ digits.all Char.isDigit then .error (.err "strconv.Atoi: invalid syntax")
  else
    let n := decimalValue digits
    if neg then
      if n > 9223372036854775808 then .error (.err "strconv.Atoi: value out of range")
      else .ok (-(n : Int))
    else
      if n ≥ 9223372036854775808 then .error (.err "strconv.Atoi: value out of range")
      else .ok (n : Int)

/-- The first loop of `ApplyCrop`: split the value on "-" and convert every
token, failing at the first token that is not an integer. -/
def parseOptions (options : String) : Result (List Int) :=
  (splitOn '-' options.toList).mapM Atoi

/-- `parseAndValidateOptions(options, height, width)`; returns
`(offsetX, offsetY, cropWidth, cropHeight)`. -/
def parseAndValidateOptions (options : List Int) (height width : Int) :
    Result (Int × Int × Int × Int) :=
  if options.length ≠ 2 ∧ options.length ≠ 4 then
    .error (.err "invalid number of options")
  else
    let (offsetX, offsetY, cropWidth, cropHeight) :=
      match options with
      | [o0, o1] => (o0, o1, wrapInt (width - o0), wrapInt (height - o1))
      | [o0, o1, o2, o3] => (o0, o1, o2, o3)
      | _ => (0, 0, 0, 0)
    -- Validate crop dimensions
    if offsetX < 0 ∨ offsetY < 0 ∨ offsetX ≥ width ∨ offsetY ≥ height then
      .error (.err "crop offset is out of bounds")
    -- Ensure crop area is within bounds
    else if wrapInt (offsetX + cropWidth) > width ∨ wrapInt (offsetY + cropHeight) > height then
      .error (.err "crop dimensions exceed image bounds")
    else .ok (offsetX, offsetY, cropWidth, cropHeight)

/-- The slice expression `xs[lo:hi]` (the capacity of a slice is its length). -/
def slice {α : Type} (xs : List α) (lo hi : Int) : Result (List α) :=
  if 0 ≤ lo ∧ lo ≤ hi ∧ hi ≤ (xs.length : Int) then
    .ok ((xs.drop lo.toNat).take (hi - lo).toNat)
  else .error (.panic "slice bounds out of range")

/-- `copy(dst[lo:hi], src)`: the slice expression is checked, then as many
elements as both slices have are overwritten. -/
def copyInto {α : Type} (dst : List α) (lo hi : Int) (src : List α) : Result (List α) :=
  if 0 ≤ lo ∧ lo ≤ hi ∧ hi ≤ (dst.length : Int) then
    let n := min (hi - lo).toNat src.length
    .ok (dst.take lo.toNat ++ src.take n ++ dst.drop (lo.toNat + n))
  else .error (.panic "slice bounds out of range")

/-- The body of the copy loop of `ApplyCrop` for the row `y` of the cropped
grid; all `int` arithmetic is 64-bit. -/
def cropRow (pixels : List Pixel) (width offsetX offsetY cropWidth : Int) (y : Nat)
    (croppedPixels : List Pixel) : Result (List Pixel) := do
  let y : Int := (y : Int)
  let rowStart := wrapInt (wrapInt (wrapInt (offsetY + y) * width) + offsetX)
  let rowEnd := wrapInt (rowStart + cropWidth)
  let rowLimit := wrapInt (wrapInt (wrapInt (offsetY + y) + 1) * width)
  let rowEnd := if rowEnd > rowLimit then rowLimit else rowEnd -- Prevents out-of-bounds panic
  let src ← slice pixels rowStart rowEnd
  copyInto croppedPixels (wrapInt (y * cropWidth)) (wrapInt (wrapInt (y + 1) * cropWidth)) src

/-- `ApplyCrop(pixels, width, height, options)`; returns the cropped grid, its
width and its height. -/
def ApplyCrop (pixels : List Pixel) (width height : Int) (options : String) :
    Result (List Pixel × Int × Int) := do
  let optionSliceInt ← parseOptions options
  let (offsetX, offsetY, cropWidth, cropHeight) ←
    parseAndValidateOptions optionSliceInt height width
  -- Create new slice for cropped pixels
  let len := wrapInt (cropWidth * cropHeight)
  if len < 0 then throw (.panic "makeslice: len out of range")
  else
    let croppedPixels := List.replicate len.toNat Pixel.zero
    -- Copy the cropped part
    let croppedPixels ← forUp cropHeight.toNat
      (cropRow pixels width offsetX offsetY cropWidth) croppedPixels
    pure (croppedPixels, cropWidth, cropHeight)

/-! ## Sample data -/

/-- A pixel with three different channel values derived from `n`. -/
def samplePixel (n : Nat) : Pixel :=
  { Blue := toByte n, Green := toByte (n + 100), Red := toByte (n + 200) }

/-- A grid 3 pixels wide and 2 pixels high with six different pixels. -/
def sampleGrid : List Pixel := (List.range 6).map samplePixel

/-! ## Header validation and the public readers (`header.go`, `io.go`) -/

/-- `validateFile(bmpHeader, dibHeader, filename, fileInfo)` with
`fileSize = fileInfo.Size()`. `14 + dibHeader.DibHeaderSize` is a `uint32` sum,
the expected size is computed in `int64`. -/
def validateFile (bmpHeader : BMPHeader) (dibHeader : DIBHeader) (fileSize : Int) :
    Result Unit :=
  -- Ensure that it is a valid BMP file
  if bmpHeader.Signature ≠ (66, 77) then .error (.err "is not a valid BMP file")
  -- Ensure that the bit count is 24
  else if dibHeader.BitCount ≠ 24 then .error (.err "is not a valid 24-bit BMP file")
  -- Ensure compression is set to 0 (uncompressed)
  else if dibHeader.Compression ≠ 0 then
    .error (.err "is a compressed BMP file, which is not supported")
  else
    -- Validate the correctness of data offset
    let expectedDataOffset : Int := (((14 + dibHeader.DibHeaderSize) % 4294967296 : Nat) : Int)
    if (bmpHeader.DataOffset : Int) ≠ expectedDataOffset then
      .error (.err "unexpected pixel data offset")
    else
      -- Validate file size consistency
      let expectedSize :=
        wrapInt ((bmpHeader.DataOffset : Int) +
          wrapInt (wrapInt (dibHeader.Width * dibHeader.Height) * 3))
      if fileSize < expectedSize then
        .error (.err "is corrupted or incomplete (file size too small)")
      else .ok ()

/-- `ReadHeaders(filename)` on the bytes of the file (opening the file and
`file.Stat` succeed). -/
def ReadHeaders (file : List Byte) : Result (BMPHeader × DIBHeader) :=
  -- 14 bytes (BMP header) + 40 bytes (DIB header)
  if file.length < 54 then .error (.err "not a valid BMP file")
  else do
    let (bmpHeader, dibHeader) ← readHeaders file
    -- Check the validity of the provided file
    validateFile bmpHeader dibHeader (file.length : Int)
    pure (bmpHeader, dibHeader)

/-- `ReadPixels(filename, bmpHeader, dibHeader)` on the bytes of the file
(opening the file succeeds; `file.Seek` to the data offset leaves the bytes
from that offset on, none when the offset is past the end). `make` panics on a
negative length; Go's `/` on `int` truncates toward zero. The row loop does not
run when `height <= 0`; when `height > 0`, a non-negative `width * height` makes
`width` non-negative and the loop is `readPixelRows`. -/
def ReadPixels (file : List Byte) (bmpHeader : BMPHeader) (dibHeader : DIBHeader) :
    Result (List Pixel) :=
  -- Ensure the image is within reasonable size limits
  if dibHeader.Width > 65536 ∨ dibHeader.Height > 65536 then
    .error (.err "image is too large to process")
  else
    -- Seek to the start of the pixel data
    let data := file.drop bmpHeader.DataOffset
    -- Get image dimensions
    let width := dibHeader.Width
    let height := dibHeader.Height
    let len := wrapInt (width * height)
    if len < 0 then .error (.panic "makeslice: len out of range")
    else
      let rowSize := wrapInt (Int.tdiv (wrapInt (wrapInt (width * 3) + 3)) 4 * 4)
      if rowSize < 0 then .error (.panic "makeslice: len out of range")
      else if height ≤ 0 then .ok (List.replicate len.toNat Pixel.zero)
      else readPixelRows width.toNat height.toNat data

/-- The `uint32` stored little-endian at offset `off` of `file`, when the file
has four bytes there. -/
def leU32At (file : List Byte) (off : Nat) : Option Nat :=
  match file.drop off with
  | b0 :: b1 :: b2 :: b3 :: _ =>
      some (b0.val + 256 * b1.val + 65536 * b2.val + 16777216 * b3.val)
  | _ => none

/-! ## The `float64` grayscale level (`filter.go`) -/

/-- Number of binary digits of `n` (0 for 0) for `n < 2^64`, by bisection. -/
def bitLength64 (n : Nat) : Nat :=
  let s32 := if n < 4294967296 then 0 else 32
  let n := n / 2 ^ s32
  let s16 := if n < 65536 then 0 else 16
  let n := n / 2 ^ s16
  let s8 := if n < 256 then 0 else 8
  let n := n / 2 ^ s8
  let s4 := if n < 16 then 0 else 4
  let n := n / 2 ^ s4
  let s2 := if n < 4 then 0 else 2
  let n := n / 2 ^ s2
  let s1 := if n < 2 then 0 else 1
  let n := n / 2 ^ s1
  s32 + s16 + s8 + s4 + s2 + s1 + n

/-- Number of binary digits of `n` (0 for 0), for `n` below `2 ^ (64 * fuel)`:
64 digits at a time, then `bitLength64`. -/
def bitLength : Nat → Nat → Nat
  | 0, _ => 0
  | fuel + 1, n =>
    if n < 18446744073709551616 then bitLength64 n
    else bitLength fuel (n / 18446744073709551616) + 64

/-- The integer nearest to `num / den`, a tie going to the even neighbour. -/
def roundHalfEven (num den : Nat) : Nat :=
  let q := num / den
  let r := num % den
  if 2 * r > den then q + 1
  else if 2 * r = den then (if q % 2 = 0 then q else q + 1)
  else q

/-- A non-negative rational `num / den` as the pair `(num, den)`, `den > 0`. -/
abbrev Q := Nat × Nat

/-- Exact product of two rationals. -/
def Q.mul (a b : Q) : Q := (a.1 * b.1, a.2 * b.2)

/-- Exact sum of two rationals. -/
def Q.add (a b : Q) : Q := (a.1 * b.2 + b.1 * a.2, a.2 * b.2)

/-- The largest integer not above a rational. -/
def Q.floor (a : Q) : Nat := a.1 / a.2

/-- The `float64` nearest to the positive rational `a` (IEEE 754 binary64,
round to nearest, ties to even): `a` is scaled by a power of two into
`[2^52, 2^53)`, rounded to an integer and scaled back. The exponent range is
not limited (the values of the grayscale computation lie in `[2^-4, 2^8)`). -/
def roundF64 (a : Q) : Q :=
  if a.1 = 0 then (0, 1)
  else
    let bn := bitLength 64 a.1
    let bd := bitLength 64 a.2
    -- `2^(bn - bd - 1) < a < 2^(bn - bd + 1)`
    let ge : Bool :=
      if bd ≤ bn then decide (a.2 * 2 ^ (bn - bd) ≤ a.1) else decide (a.2 ≤ a.1 * 2 ^ (bd - bn))
    -- `e = floor (log2 a)`
    let e : Int := if ge then (bn : Int) - (bd : Int) else (bn : Int) - (bd : Int) - 1
    let shift : Int := e - 52
    let m := roundHalfEven (a.1 * 2 ^ (-shift).toNat) (a.2 * 2 ^ shift.toNat)
    (m * 2 ^ shift.toNat, 2 ^ (-shift).toNat)

/-- How an implementation evaluates `x*y + z`: the Go specification lets it
fuse the product and the sum into one operation with a single rounding. The
first sum of the grayscale level has a product on both sides. -/
structure Fusion where
  /-- the first sum is not fused (0), fused with its left product (1) or with
  its right product (2) -/
  first : Fin 3
  /-- the second sum is fused with its product -/
  second : Bool
  deriving DecidableEq, Repr

/-- The sequence `uint8(0.299*float64(r) + 0.587*float64(g) + 0.114*float64(b))`:
the constants are the nearest `float64`, every product and sum is rounded to
`float64` (once per operation, or once per fused operation), and the conversion
to `uint8` truncates. -/
def luma64 (mode : Fusion) (r g b : Byte) : Byte :=
  let c299 := roundF64 (299, 1000)
  let c587 := roundF64 (587, 1000)
  let c114 := roundF64 (114, 1000)
  let fr : Q := (r.val, 1)
  let fg : Q := (g.val, 1)
  let fb : Q := (b.val, 1)
  let sum1 :=
    if mode.first = 1 then roundF64 (Q.add (Q.mul c299 fr) (roundF64 (Q.mul c587 fg)))
    else if mode.first = 2 then roundF64 (Q.add (roundF64 (Q.mul c299 fr)) (Q.mul c587 fg))
    else roundF64 (Q.add (roundF64 (Q.mul c299 fr)) (roundF64 (Q.mul c587 fg)))
  let sum2 :=
    if mode.second then roundF64 (Q.add sum1 (Q.mul c114 fb))
    else roundF64 (Q.add sum1 (roundF64 (Q.mul c114 fb)))
  toByte (Q.floor sum2)

/-- Evaluation without fused operations (the gc compiler on amd64). -/
def Fusion.none : Fusion := { first := 0, second := false }

/-! ## A file whose last row is cut short -/

/-- Primary header of a 60-byte file with the pixel data at offset 54. -/
def truncatedBMP : BMPHeader :=
  { Signature := (66, 77), FileSize := 60, Reserved := 0, DataOffset := 54 }

/-- A version-3 uncompressed 24-bit header of width 1 and height 2 (two file
rows of 4 bytes each). -/
def truncatedDIB : DIBHeader :=
  { DIBHeader.ofSize 40 with Width := 1, Height := 2, Planes := 1, BitCount := 24 }

/-- The 54 header bytes followed by 6 bytes of pixel data: the first file row
`10 20 30` with its padding byte, and only two bytes `40 50` of the second. -/
def truncatedFile : List Byte :=
  writeHeaders truncatedBMP truncatedDIB ++ [10, 20, 30, 0, 40, 50]

/-! ## The means of "pixelate" and "blur" as sums over the original grid -/

/-- The pixel whose channels are the integer means `sum / n`, converted to 8 bits
as `uint8(sumR / count)` does. -/
def meanPixel (sumR sumG sumB n : Nat) : Pixel :=
  { Red := toByte (sumR / n), Green := toByte (sumG / n), Blue := toByte (sumB / n) }

/-- The sum `S` of the channel `chan` of `g` over the block of side `b` that
holds `(x, y)`: all `(x', y')` with `b * (x / b) <= x' < min (b * (x / b) + b) w`
and `b * (y / b) <= y' < min (b * (y / b) + b) h`. -/
def specBlockSum (b : Nat) (chan : Pixel → Byte) (g : List Pixel) (w h x y : Nat) : Nat :=
  ∑ y' ∈ Finset.Ico (b * (y / b)) (min (b * (y / b) + b) h),
    ∑ x' ∈ Finset.Ico (b * (x / b)) (min (b * (x / b) + b) w),
      (chan (pixelAt g (y' * w + x'))).val

/-- The number `n` of pixels in the block of side `b` that holds `(x, y)`. -/
def specBlockCount (b : Nat) (w h x y : Nat) : Nat :=
  ∑ _y' ∈ Finset.Ico (b * (y / b)) (min (b * (y / b) + b) h),
    ∑ _x' ∈ Finset.Ico (b * (x / b)) (min (b * (x / b) + b) w), 1

/-- The sum `S` of the channel `chan` of `g` over all `(x + dx, y + dy)` with
`-radius <= dx, dy <= radius` that lie inside `[0, w) x [0, h)`. -/
def specWindowSum (radius : Nat) (chan : Pixel → Byte) (g : List Pixel) (w h x y : Nat) :
    Nat :=
  ∑ dy ∈ Finset.Icc (-(radius : Int)) (radius : Int),
    ∑ dx ∈ Finset.Icc (-(radius : Int)) (radius : Int),
      if (x : Int) + dx ≥ 0 ∧ (x : Int) + dx < (w : Int) ∧
          (y : Int) + dy ≥ 0 ∧ (y : Int) + dy < (h : Int) then
        (chan (pixelAt g (((y : Int) + dy) * (w : Int) + ((x : Int) + dx)).toNat)).val
      else 0

/-- The number `n` of positions `(x + dx, y + dy)` with `-radius <= dx, dy <=
radius` that lie inside `[0, w) x [0, h)`. -/
def specWindowCount (radius : Nat) (w h x y : Nat) : Nat :=
  ∑ dy ∈ Finset.Icc (-(radius : Int)) (radius : Int),
    ∑ dx ∈ Finset.Icc (-(radius : Int)) (radius : Int),
      if (x : Int) + dx ≥ 0 ∧ (x : Int) + dx < (w : Int) ∧
          (y : Int) + dy ≥ 0 ∧ (y : Int) + dy < (h : Int) then 1
      else 0

/-- The pixel of means over the block of side `b` that holds `(x, y)`: each
channel is `S / n` for the sum `S` of that channel over the block and the number
`n` of pixels in the block. -/
def specBlockMean (b : Nat) (g : List Pixel) (w h x y : Nat) : Pixel :=
  meanPixel (specBlockSum b Pixel.Red g w h x y) (specBlockSum b Pixel.Green g w h x y)
    (specBlockSum b Pixel.Blue g w h x y) (specBlockCount b w h x y)

/-! ## The option loop of `main` (`main.go`) -/

/-- One ordered command-line option (`type Option struct` of `args.go`): its name,
such as "--rotate", and the value after the "=". -/
structure CliOption where
  Name : String
  Value : String
  deriving DecidableEq, Repr

/-- The conversion `int32(x)` of an `int`: the low 32 bits, read as signed. -/
def toI32 (x : Int) : Int := asI32 (x % 4294967296).toNat

/-- The call `ApplyRotate(pixels, width, height, angle)` for an `int` width and
height of either sign, as `main` passes the `int32` header fields. The fresh
slice has `newWidth * newHeight = width * height` elements and `make` panics on a
negative length; the two loops run only when `height > 0` and `width > 0`, and
then the call is `ApplyRotate` on natural numbers. -/
def ApplyRotateInt (pixels : List Pixel) (width height angle : Int) :
    Result (List Pixel × Int × Int) :=
  if angle = 90 ∨ angle = 180 ∨ angle = 270 then
    let len := wrapInt (width * height)
    if len < 0 then .error (.panic "makeslice: len out of range")
    else if width ≤ 0 ∨ height ≤ 0 then
      .ok (List.replicate len.toNat Pixel.zero,
        if angle = 180 then (width, height) else (height, width))
    else
      match ApplyRotate pixels width.toNat height.toNat angle with
      | .ok (rotatedPixels, newWidth, newHeight) =>
          .ok (rotatedPixels, (newWidth : Int), (newHeight : Int))
      | .error e => .error e
  else .error (.err "not a valid angle value")

/-- The body of the option loop of `main` for one option, on the pixel grid and
the secondary header; `utils.HandleError` on an error ends the program, which is
the error result here.

`ApplyMirror` and `ApplyFilter` run their loops over `y < height`, `x < width`
only when both are positive, so they are called with the natural numbers
`Width.toNat` and `Height.toNat`. In the case "--rotate" the statement
`angle, err := ParseRotationValue(...)` declares a new `err` for the case clause,
the error of `ApplyRotate` is assigned to that variable and the check after the
`switch` reads the outer one: an error of `ApplyRotate` is not checked, and the
loop goes on with the returned `nil, 0, 0`. -/
def applyOption (luma : Byte → Byte → Byte → Byte) (state : List Pixel × DIBHeader)
    (opt : CliOption) : Result (List Pixel × DIBHeader) :=
  let (pixels, dibHeader) := state
  if opt.Name = "--mirror" then do
    let pixels ← ApplyMirror pixels dibHeader.Width.toNat dibHeader.Height.toNat opt.Value
    pure (pixels, dibHeader)
  else if opt.Name = "--filter" then do
    let pixels ←
      ApplyFilter luma pixels dibHeader.Width.toNat dibHeader.Height.toNat opt.Value
    pure (pixels, dibHeader)
  else if opt.Name = "--rotate" then do
    let angle ← ParseRotationValue opt.Value
    let (pixels, newWidth, newHeight) ←
      match ApplyRotateInt pixels dibHeader.Width dibHeader.Height angle with
      | .ok r => (pure r : Result (List Pixel × Int × Int))
      | .error (.err _) => pure ([], 0, 0)
      | .error (.panic msg) => throw (.panic msg)
    -- Update image properties after rotating
    pure (pixels, { dibHeader with Width := toI32 newWidth, Height := toI32 newHeight })
  else if opt.Name = "--crop" then do
    let (pixels, croppedWidth, croppedHeight) ←
      ApplyCrop pixels dibHeader.Width dibHeader.Height opt.Value
    -- Update image properties after cropping
    pure (pixels,
      { dibHeader with
          Width := toI32 croppedWidth, Height := toI32 croppedHeight,
          ImageSize := (wrapInt (wrapInt (croppedWidth * croppedHeight) * 3) %
            4294967296).toNat })
  else .error (.err "undefined option")

/-- The loop `for _, opt := range orderedOptions` of `main`: a left fold of
`applyOption` that stops at the first failure. -/
def processOptions (luma : Byte → Byte → Byte → Byte) (orderedOptions : List CliOption)
    (state : List Pixel × DIBHeader) : Result (List Pixel × DIBHeader) :=
  orderedOptions.foldlM (applyOption luma) state

/-- A version-3 uncompressed 24-bit header for the 3 x 2 sample grid. -/
def sampleDIB32 : DIBHeader :=
  { DIBHeader.ofSize 40 with Width := 3, Height := 2, Planes := 1, BitCount := 24 }

/-- A sequence of options: rotate right, crop the left column, mirror, negate. -/
def sampleOptions : List CliOption :=
  [{ Name := "--rotate", Value := "right" }, { Name := "--crop", Value := "0-0-1-3" },
   { Name := "--mirror", Value := "v" }, { Name := "--filter", Value := "negative" }]

/-! ## A file with a negative width -/

/-- A version-3 uncompressed 24-bit header of width -1 and height 1. -/
def negativeDIB : DIBHeader :=
  { DIBHeader.ofSize 40 with Width := -1, Height := 1, Planes := 1, BitCount := 24 }

/-- Primary header of a 54-byte file with the pixel data at offset 54. -/
def negativeBMP : BMPHeader :=
  { Signature := (66, 77), FileSize := 54, Reserved := 0, DataOffset := 54 }

/-- The 54 header bytes of `negativeBMP` and `negativeDIB`, and no pixel data. -/
def negativeFile : List Byte := writeHeaders negativeBMP negativeDIB

/-! ## Theorems: header codec -/

theorem getU16_putU16 (n : Nat) (h : isU16 n) (rest : List Byte) :
    getU16 (putU16 n ++ rest) = .ok (n, rest) := by
  unfold isU16 at h
  simp only [putU16, toByte, getU16, List.cons_append, List.nil_append]
  congr 2
  omega

theorem getU32_putU32 (n : Nat) (h : isU32 n) (rest : List Byte) :
    getU32 (putU32 n ++ rest) = .ok (n, rest) := by
  unfold isU32 at h
  simp only [putU32, toByte, getU32, List.cons_append, List.nil_append]
  congr 2
  omega

theorem getI32_putI32 (i : Int) (h : isI32 i) (rest : List Byte) :
    getI32 (putI32 i ++ rest) = .ok (i, rest) := by
  unfold isI32 at h
  have hr : isU32 (i % 4294967296).toNat := by unfold isU32; omega
  simp only [getI32, putI32, getU32_putU32 _ hr]
  congr 2
  unfold asI32
  split <;> omega

theorem ok_bind {α β : Type} (a : α) (f : α → Result β) :
    (Except.ok a >>= f) = f a := rfl

theorem error_bind {α β : Type} (e : Fault) (f : α → Result β) :
    ((Except.error e : Result α) >>= f) = Except.error e := rfl

theorem pure_eq_ok {α : Type} (a : α) : (pure a : Result α) = Except.ok a := rfl

theorem field_ok {α : Type} (name : String) (a : α) : field name (.ok a) = .ok a := rfl

theorem fileRead_exact (file old : List Byte) (hlen : file.length = old.length) :
    fileRead file old = .ok (file, []) := by
  unfold fileRead
  have h1 : List.take old.length file = file := by
    rw [← hlen]; exact List.take_length file
  have h2 : List.drop old.length file = [] := by
    rw [← hlen]; exact List.drop_length file
  simp only [h1, h2]
  have h3 : ¬ (old.length ≠ 0 ∧ file.length = 0) := by omega
  rw [if_neg h3]
  have h4 : List.drop file.length old = [] := by
    rw [hlen]; exact List.drop_length old
  rw [h4, List.append_nil]

theorem length_nine {α : Type} (l : List α) (h : l.length = 9) :
    ∃ a b c d e f g i j, l = [a, b, c, d, e, f, g, i, j] := by
  match l, h with
  | [a, b, c, d, e, f, g, i, j], _ => exact ⟨a, b, c, d, e, f, g, i, j, rfl⟩

theorem putU16_length (n : Nat) : (putU16 n).length = 2 := rfl

theorem putU32_length (n : Nat) : (putU32 n).length = 4 := rfl

theorem putI32_length (i : Int) : (putI32 i).length = 4 := rfl

theorem v3Bytes_length (d : DIBHeader) (imageSize : Nat) :
    (v3Bytes d imageSize).length = 36 := by
  simp only [v3Bytes, List.length_append, putU16_length, putU32_length, putI32_length]

theorem flatMap_putI32_length (es : List Int) :
    (es.flatMap putI32).length = 4 * es.length := by
  induction es with
  | nil => rfl
  | cons e es ih =>
    rw [List.flatMap_cons, List.length_append, ih, putI32_length, List.length_cons]
    omega

theorem v4Bytes_length (d : DIBHeader) (h : d.Endpoints.length = 9) :
    (v4Bytes d).length = 68 := by
  simp only [v4Bytes, List.length_append, putU32_length, flatMap_putI32_length, h]

theorem v5Bytes_length (d : DIBHeader) : (v5Bytes d).length = 16 := by
  simp only [v5Bytes, List.length_append, putU32_length]

theorem readV3Fields_put (d0 d : DIBHeader) (hd : d.InRange) (imageSize : Nat)
    (hi : isU32 imageSize) (rest : List Byte) :
    readV3Fields d0 (v3Bytes d imageSize ++ rest)
    = .ok ({ d0 with
              Width := d.Width, Height := d.Height, Planes := d.Planes,
              BitCount := d.BitCount, Compression := d.Compression, ImageSize := imageSize,
              XPixelsPerM := d.XPixelsPerM, YPixelsPerM := d.YPixelsPerM,
              ColorsUsed := d.ColorsUsed, ColorsImp := d.ColorsImp }, rest) := by
  obtain ⟨-, hw, hh, hp, hb, hc, -, hx, hy, hcu, hci, -⟩ := hd
  simp only [v3Bytes, List.append_assoc, readV3Fields, getI32_putI32 _ hw,
    getI32_putI32 _ hh, getU16_putU16 _ hp,
    getU16_putU16 _ hb, getU32_putU32 _ hc, getU32_putU32 _ hi, getI32_putI32 _ hx,
    getI32_putI32 _ hy, getU32_putU32 _ hcu, getU32_putU32 _ hci, field_ok, ok_bind,
    pure_eq_ok]

theorem getEndpoints_put (es : List Int) (hlen : es.length = 9)
    (hes : ∀ e ∈ es, isI32 e) (rest : List Byte) :
    getEndpoints (es.flatMap putI32 ++ rest) = .ok (es, rest) := by
  have hl : (es.flatMap putI32 ++ rest).length = 36 + rest.length := by
    rw [List.length_append, flatMap_putI32_length, hlen]
  obtain ⟨a, b, c, d, e, f, g, i, j, rfl⟩ := length_nine es hlen
  have ha := hes a (by simp)
  have hb := hes b (by simp)
  have hc := hes c (by simp)
  have hd := hes d (by simp)
  have he := hes e (by simp)
  have hf := hes f (by simp)
  have hg := hes g (by simp)
  have hi := hes i (by simp)
  have hj := hes j (by simp)
  unfold getEndpoints
  rw [hl, if_neg (by omega), if_neg (by omega)]
  simp only [List.flatMap_cons, List.flatMap_nil, List.append_assoc, List.nil_append,
    getI32_putI32 _ ha, getI32_putI32 _ hb, getI32_putI32 _ hc, getI32_putI32 _ hd,
    getI32_putI32 _ he, getI32_putI32 _ hf, getI32_putI32 _ hg, getI32_putI32 _ hi,
    getI32_putI32 _ hj, ok_bind, pure_eq_ok]

theorem readV4Fields_put (d0 d : DIBHeader) (hd : d.InRange) (rest : List Byte) :
    readV4Fields d0 (v4Bytes d ++ rest)
    = .ok ({ d0 with
              RedMask := d.RedMask, GreenMask := d.GreenMask, BlueMask := d.BlueMask,
              AlphaMask := d.AlphaMask, ColorSpace := d.ColorSpace,
              Endpoints := d.Endpoints, GammaRed := d.GammaRed,
              GammaGreen := d.GammaGreen, GammaBlue := d.GammaBlue }, rest) := by
  obtain ⟨-, -, -, -, -, -, -, -, -, -, -, hr, hg, hb, ha, hcs, ⟨hel, hes⟩, hgr, hgg, hgb, -⟩ := hd
  simp only [v4Bytes, List.append_assoc, readV4Fields, getU32_putU32 _ hr,
    getU32_putU32 _ hg, getU32_putU32 _ hb,
    getU32_putU32 _ ha, getU32_putU32 _ hcs, getEndpoints_put _ hel hes,
    getU32_putU32 _ hgr, getU32_putU32 _ hgg, getU32_putU32 _ hgb, field_ok, ok_bind,
    pure_eq_ok]

theorem readV5Fields_put (d0 d : DIBHeader) (hd : d.InRange) (rest : List Byte) :
    readV5Fields d0 (v5Bytes d ++ rest)
    = .ok ({ d0 with
              Intent := d.Intent, ProfileData := d.ProfileData,
              ProfileSize := d.ProfileSize, Reserved := d.Reserved }, rest) := by
  obtain ⟨-, -, -, -, -, -, -, -, -, -, -, -, -, -, -, -, -, -, -, -, hi, hpd, hps, hr⟩ := hd
  simp only [v5Bytes, List.append_assoc, readV5Fields, getU32_putU32 _ hi,
    getU32_putU32 _ hpd, getU32_putU32 _ hps, getU32_putU32 _ hr, field_ok, ok_bind,
    pure_eq_ok]

theorem getBMPHeader_put (h : BMPHeader) (hh : h.InRange) (rest : List Byte) :
    getBMPHeader ([h.Signature.1, h.Signature.2] ++ (putU32 h.FileSize ++
      (putU32 h.Reserved ++ (putU32 h.DataOffset ++ rest)))) = .ok (h, rest) := by
  obtain ⟨hf, hr, ho⟩ := hh
  unfold isU32 at hf hr ho
  obtain ⟨sig, fs, rs, off⟩ := h
  simp only [putU32, toByte, getBMPHeader, List.cons_append, List.nil_append]
  simp only at hf hr ho
  congr 2
  congr 1
  · omega
  · omega
  · omega

/-- The bytes of `writeHeaders` as one right-nested concatenation. -/
theorem writeHeaders_eq (h : BMPHeader) (d : DIBHeader) :
    writeHeaders h d =
      [h.Signature.1, h.Signature.2] ++ (putU32 h.FileSize ++ (putU32 h.Reserved ++
      (putU32 h.DataOffset ++ (putU32 d.DibHeaderSize ++
      (v3Bytes d (if d.DibHeaderSize = 40 ∧ d.Compression = 0 then 0 else d.ImageSize) ++
      ((if d.DibHeaderSize ≥ 108 then v4Bytes d else []) ++
       (if d.DibHeaderSize = 124 then v5Bytes d else []))))))) := by
  unfold writeHeaders v3Bytes v4Bytes v5Bytes
  by_cases h1 : d.DibHeaderSize = 40 ∧ d.Compression = 0
  · by_cases h2 : d.DibHeaderSize ≥ 108
    · by_cases h3 : d.DibHeaderSize = 124
      · simp only [if_pos h1, if_pos h2, if_pos h3, List.append_assoc, List.append_nil,
          List.cons_append, List.nil_append]
      · simp only [if_pos h1, if_pos h2, if_neg h3, List.append_assoc, List.append_nil,
          List.cons_append, List.nil_append]
    · by_cases h3 : d.DibHeaderSize = 124
      · simp only [if_pos h1, if_neg h2, if_pos h3, List.append_assoc, List.append_nil,
          List.cons_append, List.nil_append]
      · simp only [if_pos h1, if_neg h2, if_neg h3, List.append_assoc, List.append_nil,
          List.cons_append, List.nil_append]
  · by_cases h2 : d.DibHeaderSize ≥ 108
    · by_cases h3 : d.DibHeaderSize = 124
      · simp only [if_neg h1, if_pos h2, if_pos h3, List.append_assoc, List.append_nil,
          List.cons_append, List.nil_append]
      · simp only [if_neg h1, if_pos h2, if_neg h3, List.append_assoc, List.append_nil,
          List.cons_append, List.nil_append]
    · by_cases h3 : d.DibHeaderSize = 124
      · simp only [if_neg h1, if_neg h2, if_pos h3, List.append_assoc, List.append_nil,
          List.cons_append, List.nil_append]
      · simp only [if_neg h1, if_neg h2, if_neg h3, List.append_assoc, List.append_nil,
          List.cons_append, List.nil_append]

theorem readHeaders_writeHeaders_stored (h : BMPHeader) (d : DIBHeader)
    (hh : h.InRange) (hd : d.InRange)
    (hs : d.DibHeaderSize = 40 ∨ d.DibHeaderSize = 108 ∨ d.DibHeaderSize = 124) :
    readHeaders (writeHeaders h d) = .ok (h, d.stored) := by
  have hsz : isU32 d.DibHeaderSize := hd.1
  have him : isU32 (if d.DibHeaderSize = 40 ∧ d.Compression = 0 then 0 else d.ImageSize) := by
    split
    · unfold isU32; omega
    · exact hd.2.2.2.2.2.2.1
  have hel : d.Endpoints.length = 9 := hd.2.2.2.2.2.2.2.2.2.2.2.2.2.2.2.2.1.1
  rw [writeHeaders_eq]
  unfold readHeaders
  rw [getBMPHeader_put h hh]
  simp only [ok_bind, getU32_putU32 _ hsz, field_ok]
  rcases hs with hs | hs | hs
  · have h108 : ¬ d.DibHeaderSize ≥ 108 := by omega
    have h124 : ¬ d.DibHeaderSize = 124 := by omega
    have hok : ¬ (d.DibHeaderSize ≠ 40 ∧ d.DibHeaderSize ≠ 108 ∧ d.DibHeaderSize ≠ 124) := by
      omega
    rw [if_neg h108, if_neg h124, if_neg hok, List.append_nil, List.append_nil,
      fileRead_exact _ _ (by rw [v3Bytes_length, List.length_replicate, hs])]
    simp only [field_ok, ok_bind]
    rw [← List.append_nil (v3Bytes _ _), readV3Fields_put _ d hd _ him]
    simp only [ok_bind, if_pos hs, pure_eq_ok]
    simp [DIBHeader.stored, DIBHeader.ofSize, hs]
  · have h40 : ¬ d.DibHeaderSize = 40 := by omega
    have h108 : d.DibHeaderSize ≥ 108 := by omega
    have h124 : ¬ d.DibHeaderSize = 124 := by omega
    have hok : ¬ (d.DibHeaderSize ≠ 40 ∧ d.DibHeaderSize ≠ 108 ∧ d.DibHeaderSize ≠ 124) := by
      omega
    rw [if_pos h108, if_neg h124, if_neg hok, List.append_nil,
      fileRead_exact _ _ (by
        rw [List.length_append, v3Bytes_length, v4Bytes_length d hel,
          List.length_replicate, hs])]
    simp only [field_ok, ok_bind]
    rw [readV3Fields_put _ d hd _ him]
    simp only [ok_bind, if_neg h40, if_pos h108]
    rw [← List.append_nil (v4Bytes _), readV4Fields_put _ d hd]
    simp only [ok_bind, if_pos hs, pure_eq_ok]
    cases d
    simp only at hs
    simp [DIBHeader.stored, DIBHeader.ofSize, hs]
  · have h40 : ¬ d.DibHeaderSize = 40 := by omega
    have h108 : d.DibHeaderSize ≥ 108 := by omega
    have h108n : ¬ d.DibHeaderSize = 108 := by omega
    have hok : ¬ (d.DibHeaderSize ≠ 40 ∧ d.DibHeaderSize ≠ 108 ∧ d.DibHeaderSize ≠ 124) := by
      omega
    rw [if_pos h108, if_pos hs, if_neg hok,
      fileRead_exact _ _ (by
        rw [List.length_append, List.length_append, v3Bytes_length, v4Bytes_length d hel,
          v5Bytes_length, List.length_replicate, hs])]
    simp only [field_ok, ok_bind]
    rw [readV3Fields_put _ d hd _ him]
    simp only [ok_bind, if_neg h40, if_pos h108]
    rw [readV4Fields_put _ d hd]
    simp only [ok_bind, if_neg h108n, if_pos hs, pure_eq_ok]
    rw [← List.append_nil (v5Bytes _), readV5Fields_put _ d hd]
    simp only [ok_bind, pure_eq_ok]
    cases d
    simp only at hs
    simp [DIBHeader.stored, DIBHeader.ofSize, hs]

/-- C1 (as stated) fails: a version-3 uncompressed header with a non-zero
`ImageSize` is in range and has a supported size, yet decoding the bytes written
for it does not return it (the written `ImageSize` is 0). -/
theorem readHeaders_writeHeaders_not_exact :
    ¬ ∀ (h : BMPHeader) (d : DIBHeader), h.InRange → d.InRange →
        (d.DibHeaderSize = 40 ∨ d.DibHeaderSize = 108 ∨ d.DibHeaderSize = 124) →
        readHeaders (writeHeaders h d) = .ok (h, d) := by
  intro hall
  have hx := hall sampleBMP sampleDIBv3 (by decide) (by decide) (by decide)
  revert hx
  decide

/-- C1 (amended): for every primary header `h` and secondary header `d` whose
fields are values of their Go types and whose `DibHeaderSize` is 40, 108 or 124,
`readHeaders` on the bytes of `writeHeaders h d` succeeds and returns `h` and the
stored form of `d` (`ImageSize` 0 for a version-3 uncompressed header, zero in the
fields the declared size does not serialise, every other field equal); it
returns `(h, d)` itself exactly when `d` is its own stored form. -/
theorem readHeaders_writeHeaders (h : BMPHeader) (d : DIBHeader)
    (hh : h.InRange) (hd : d.InRange)
    (hs : d.DibHeaderSize = 40 ∨ d.DibHeaderSize = 108 ∨ d.DibHeaderSize = 124) :
    readHeaders (writeHeaders h d) = .ok (h, d.stored) ∧
      (readHeaders (writeHeaders h d) = .ok (h, d) ↔ d.stored = d) := by
  have hr := readHeaders_writeHeaders_stored h d hh hd hs
  refine ⟨hr, ?_⟩
  rw [hr]
  constructor
  · intro he
    injection he with he
    exact (Prod.mk.inj he).2
  · intro he
    rw [he]

/-- C1 witness: a version-5 header with non-zero version-4 and version-5 fields
is decoded exactly. -/
theorem readHeaders_writeHeaders_witness :
    sampleBMP.InRange ∧ sampleDIBv5.InRange ∧
      (readHeaders (writeHeaders sampleBMP sampleDIBv5) = .ok (sampleBMP, sampleDIBv5.stored) ∧
        (readHeaders (writeHeaders sampleBMP sampleDIBv5) = .ok (sampleBMP, sampleDIBv5) ↔
          sampleDIBv5.stored = sampleDIBv5)) :=
  ⟨by decide, by decide,
    readHeaders_writeHeaders sampleBMP sampleDIBv5 (by decide) (by decide) (by decide)⟩

/-! ## Theorems: loops and slices -/

theorem forUp_zero {σ : Type} (body : Nat → σ → Result σ) (s : σ) :
    forUp 0 body s = .ok s := rfl

theorem forUp_succ {σ : Type} (n : Nat) (body : Nat → σ → Result σ) (s : σ) :
    forUp (n + 1) body s = (forUp n body s >>= body n) := by
  unfold forUp
  rw [List.range_succ, List.foldlM_append]
  congr 1
  funext s'
  rw [List.foldlM_cons]
  simp only [List.foldlM_nil]
  exact bind_pure _

/-- Invariant rule for `forUp`: an invariant that holds initially and is preserved
by every successful iteration holds at the end, and the loop does not fail. -/
theorem forUp_inv {σ : Type} (n : Nat) (body : Nat → σ → Result σ) (P : Nat → σ → Prop)
    (s : σ) (h0 : P 0 s)
    (hstep : ∀ i s, i < n → P i s → ∃ s', body i s = .ok s' ∧ P (i + 1) s') :
    ∃ s', forUp n body s = .ok s' ∧ P n s' := by
  induction n with
  | zero => exact ⟨s, rfl, h0⟩
  | succ n ih =>
    obtain ⟨s1, hs1, hP1⟩ := ih (fun i s hi hP => hstep i s (Nat.lt_succ_of_lt hi) hP)
    obtain ⟨s2, hs2, hP2⟩ := hstep n s1 (Nat.lt_succ_self n) hP1
    exact ⟨s2, by rw [forUp_succ, hs1, ok_bind, hs2], hP2⟩

theorem index_eq_ok {α : Type} (xs : List α) (i : Nat) (h : i < xs.length) :
    index xs i = .ok (xs.get ⟨i, h⟩) := by
  unfold index
  rw [List.getElem?_eq_getElem h]
  rfl

theorem assign_eq_ok {α : Type} (xs : List α) (i : Nat) (a : α) (h : i < xs.length) :
    assign xs i a = .ok (xs.set i a) := by
  unfold assign
  rw [if_pos h]

theorem getElem?_set_other {α : Type} (xs : List α) (i j : Nat) (a : α) (h : i ≠ j) :
    (xs.set i a)[j]? = xs[j]? := by
  simp [List.getElem?_set, h]

theorem getElem?_set_same {α : Type} (xs : List α) (i : Nat) (a : α) (h : i < xs.length) :
    (xs.set i a)[i]? = some a := by
  simp [List.getElem?_set, h]

/-- Specification of the nested loop `scatter`: when every source index and every
destination index is in range and the destination map is injective on the
grid, the loop succeeds, keeps the length, puts `src[g y x]` at `f y x` and
leaves every other position as it was. -/
theorem scatter_spec (height width : Nat) (f g : Nat → Nat → Nat) (src dst : List Pixel)
    (hg : ∀ y x, y < height → x < width → g y x < src.length)
    (hf : ∀ y x, y < height → x < width → f y x < dst.length)
    (hinj : ∀ y x y' x', y < height → x < width → y' < height → x' < width →
      f y x = f y' x' → y = y' ∧ x = x') :
    ∃ r, scatter height width f g src dst = .ok r ∧ r.length = dst.length ∧
      (∀ y x, y < height → x < width → r[f y x]? = src[g y x]?) ∧
      (∀ i, (∀ y x, y < height → x < width → f y x ≠ i) → r[i]? = dst[i]?) := by
  have hout := forUp_inv height
    (fun y dst => forUp width (fun x dst => do
      let p ← index src (g y x)
      assign dst (f y x) p) dst)
    (fun y r => r.length = dst.length ∧
      (∀ y' x', y' < y → x' < width → r[f y' x']? = src[g y' x']?) ∧
      (∀ i, (∀ y' x', y' < y → x' < width → f y' x' ≠ i) → r[i]? = dst[i]?))
    dst ⟨rfl, fun _ _ hy _ => absurd hy (Nat.not_lt_zero _), fun _ _ => rfl⟩ ?_
  · obtain ⟨r, hr, hlen, hset, hkeep⟩ := hout
    exact ⟨r, hr, hlen, hset, hkeep⟩
  · intro y r0 hy ⟨hlen0, hset0, hkeep0⟩
    have hin := forUp_inv width
      (fun x dst => do
        let p ← index src (g y x)
        assign dst (f y x) p)
      (fun x r => r.length = dst.length ∧
        (∀ y' x', (y' < y ∧ x' < width ∨ y' = y ∧ x' < x) → r[f y' x']? = src[g y' x']?) ∧
        (∀ i, (∀ y' x', (y' < y ∧ x' < width ∨ y' = y ∧ x' < x) → f y' x' ≠ i) →
          r[i]? = dst[i]?))
      r0 ⟨hlen0, ?_, ?_⟩ ?_
    · obtain ⟨r, hr, hlen, hset, hkeep⟩ := hin
      refine ⟨r, hr, hlen, ?_, ?_⟩
      · intro y' x' hy' hx'
        apply hset
        rcases Nat.lt_succ_iff_lt_or_eq.mp hy' with h | h
        · exact Or.inl ⟨h, hx'⟩
        · exact Or.inr ⟨h, hx'⟩
      · intro i hi
        apply hkeep
        intro y' x' h
        rcases h with ⟨h1, h2⟩ | ⟨h1, h2⟩
        · exact hi y' x' (Nat.lt_succ_of_lt h1) h2
        · exact hi y' x' (by omega) h2
    · intro y' x' h
      rcases h with ⟨h1, h2⟩ | ⟨_, h2⟩
      · exact hset0 y' x' h1 h2
      · exact absurd h2 (Nat.not_lt_zero _)
    · intro i hi
      apply hkeep0
      intro y' x' h1 h2
      exact hi y' x' (Or.inl ⟨h1, h2⟩)
    · intro x r hx ⟨hlen, hset, hkeep⟩
      have hgx := hg y x hy hx
      have hfx : f y x < r.length := by rw [hlen]; exact hf y x hy hx
      refine ⟨r.set (f y x) (src.get ⟨g y x, hgx⟩), ?_, ?_, ?_, ?_⟩
      · simp only [index_eq_ok src _ hgx, ok_bind, assign_eq_ok r _ _ hfx]
      · rw [List.length_set, hlen]
      · intro y' x' h
        by_cases hsame : y' = y ∧ x' = x
        · obtain ⟨rfl, rfl⟩ := hsame
          rw [getElem?_set_same _ _ _ hfx, List.getElem?_eq_getElem hgx]
          rfl
        · have hne : f y x ≠ f y' x' := by
            intro he
            have hy'' : y' < height := by rcases h with ⟨h1, _⟩ | ⟨h1, _⟩ <;> omega
            have hx'' : x' < width := by rcases h with ⟨_, h2⟩ | ⟨_, h2⟩ <;> omega
            obtain ⟨e1, e2⟩ := hinj y x y' x' hy hx hy'' hx'' he
            exact hsame ⟨e1.symm, e2.symm⟩
          rw [getElem?_set_other _ _ _ _ hne]
          apply hset
          rcases h with ⟨h1, h2⟩ | ⟨h1, h2⟩
          · exact Or.inl ⟨h1, h2⟩
          · refine Or.inr ⟨h1, ?_⟩
            rcases Nat.lt_succ_iff_lt_or_eq.mp h2 with h3 | h3
            · exact h3
            · exact absurd ⟨h1, h3⟩ hsame
      · intro i hi
        have hne : f y x ≠ i := hi y x (Or.inr ⟨rfl, Nat.lt_succ_self x⟩)
        rw [getElem?_set_other _ _ _ _ hne]
        apply hkeep
        intro y' x' h
        apply hi
        rcases h with ⟨h1, h2⟩ | ⟨h1, h2⟩
        · exact Or.inl ⟨h1, h2⟩
        · exact Or.inr ⟨h1, Nat.lt_succ_of_lt h2⟩

/-! ## Theorems: grid indices -/

theorem idx_lt (x y w h : Nat) (hx : x < w) (hy : y < h) : y * w + x < h * w := by
  have h1 : (y + 1) * w ≤ h * w := Nat.mul_le_mul_right w hy
  rw [Nat.succ_mul] at h1
  omega

theorem idx_lt' (x y w h : Nat) (hx : x < w) (hy : y < h) : y * w + x < w * h := by
  rw [Nat.mul_comm w h]
  exact idx_lt x y w h hx hy

theorem idx_inj (a b a' b' n : Nat) (hb : b < n) (hb' : b' < n)
    (h : a * n + b = a' * n + b') : a = a' ∧ b = b' := by
  have hn : 0 < n := by omega
  have h1 : (a * n + b) / n = a := by
    rw [Nat.mul_comm, Nat.mul_add_div hn, Nat.div_eq_of_lt hb, Nat.add_zero]
  have h2 : (a' * n + b') / n = a' := by
    rw [Nat.mul_comm, Nat.mul_add_div hn, Nat.div_eq_of_lt hb', Nat.add_zero]
  have ha : a = a' := by rw [← h1, ← h2, h]
  subst ha
  exact ⟨rfl, by omega⟩

/-- Two grids of the same dimensions that agree at every position are equal. -/
theorem grid_ext (a b : List Pixel) (w h : Nat) (ha : a.length = w * h)
    (hb : b.length = w * h)
    (hxy : ∀ x y, x < w → y < h → a[y * w + x]? = b[y * w + x]?) : a = b := by
  apply List.ext_getElem?
  intro i
  by_cases hi : i < w * h
  · have hw : 0 < w := by
      rcases Nat.eq_zero_or_pos w with h0 | h0
      · rw [h0, Nat.zero_mul] at hi; omega
      · exact h0
    have hx : i % w < w := Nat.mod_lt _ hw
    have hy : i / w < h := by
      rw [Nat.div_lt_iff_lt_mul hw, Nat.mul_comm]; exact hi
    have hi' : i / w * w + i % w = i := by
      rw [Nat.mul_comm]; exact Nat.div_add_mod i w
    have := hxy (i % w) (i / w) hx hy
    rw [hi'] at this
    exact this
  · rw [List.getElem?_eq_none (by omega), List.getElem?_eq_none (by omega)]

theorem getElem?_grid (g : List Pixel) (w h : Nat) (hlen : g.length = w * h) (x y : Nat)
    (hx : x < w) (hy : y < h) : ∃ p, g[y * w + x]? = some p := by
  have hi : y * w + x < g.length := by rw [hlen]; exact idx_lt' x y w h hx hy
  exact ⟨g[y * w + x], List.getElem?_eq_getElem hi⟩

/-! ## Theorems: rotation -/

theorem ApplyRotate_90_eq (g : List Pixel) (w h : Nat) :
    ApplyRotate g w h 90 =
      (scatter h w (fun y x => x * h + (h - y - 1)) (fun y x => y * w + x) g
        (List.replicate (h * w) Pixel.zero) >>= fun r => pure (r, h, w)) := rfl

theorem ApplyRotate_180_eq (g : List Pixel) (w h : Nat) :
    ApplyRotate g w h 180 =
      (scatter h w (fun y x => (h - y - 1) * w + (w - x - 1)) (fun y x => y * w + x) g
        (List.replicate (w * h) Pixel.zero) >>= fun r => pure (r, w, h)) := rfl

theorem ApplyRotate_270_eq (g : List Pixel) (w h : Nat) :
    ApplyRotate g w h 270 =
      (scatter h w (fun y x => (w - x - 1) * h + y) (fun y x => y * w + x) g
        (List.replicate (h * w) Pixel.zero) >>= fun r => pure (r, h, w)) := rfl

/-- Rotation by 90 degrees: new dimensions `(h, w)`, source `(x, y)` lands at
column `h - 1 - y` of row `x`. -/
theorem rotate90_spec (g : List Pixel) (w h : Nat) (hlen : g.length = w * h) :
    ∃ r, ApplyRotate g w h 90 = .ok (r, h, w) ∧ r.length = h * w ∧
      ∀ x y, x < w → y < h → r[x * h + (h - 1 - y)]? = g[y * w + x]? := by
  obtain ⟨r, hr, hl, hset, -⟩ := scatter_spec h w (fun y x => x * h + (h - y - 1))
    (fun y x => y * w + x) g (List.replicate (h * w) Pixel.zero)
    (fun y x hy hx => by rw [hlen]; exact idx_lt' x y w h hx hy)
    (fun y x hy hx => by
      rw [List.length_replicate, Nat.mul_comm h w]
      exact idx_lt (h - y - 1) x h w (by omega) hx)
    (fun y x y' x' hy hx hy' hx' he => by
      obtain ⟨e1, e2⟩ := idx_inj x (h - y - 1) x' (h - y' - 1) h (by omega) (by omega) he
      exact ⟨by omega, e1⟩)
  refine ⟨r, by rw [ApplyRotate_90_eq, hr]; rfl, by rw [hl, List.length_replicate], ?_⟩
  intro x y hx hy
  have := hset y x hy hx
  simp only at this
  rw [show h - 1 - y = h - y - 1 by omega]
  exact this

/-- Rotation by 180 degrees: dimensions `(w, h)`, source `(x, y)` lands at
column `w - 1 - x` of row `h - 1 - y`. -/
theorem rotate180_spec (g : List Pixel) (w h : Nat) (hlen : g.length = w * h) :
    ∃ r, ApplyRotate g w h 180 = .ok (r, w, h) ∧ r.length = w * h ∧
      ∀ x y, x < w → y < h → r[(h - 1 - y) * w + (w - 1 - x)]? = g[y * w + x]? := by
  obtain ⟨r, hr, hl, hset, -⟩ := scatter_spec h w
    (fun y x => (h - y - 1) * w + (w - x - 1))
    (fun y x => y * w + x) g (List.replicate (w * h) Pixel.zero)
    (fun y x hy hx => by rw [hlen]; exact idx_lt' x y w h hx hy)
    (fun y x hy hx => by
      rw [List.length_replicate]
      exact idx_lt' (w - x - 1) (h - y - 1) w h (by omega) (by omega))
    (fun y x y' x' hy hx hy' hx' he => by
      obtain ⟨e1, e2⟩ := idx_inj (h - y - 1) (w - x - 1) (h - y' - 1) (w - x' - 1) w
        (by omega) (by omega) he
      exact ⟨by omega, by omega⟩)
  refine ⟨r, by rw [ApplyRotate_180_eq, hr]; rfl, by rw [hl, List.length_replicate], ?_⟩
  intro x y hx hy
  have := hset y x hy hx
  simp only at this
  rw [show h - 1 - y = h - y - 1 by omega, show w - 1 - x = w - x - 1 by omega]
  exact this

/-- Rotation by 270 degrees: new dimensions `(h, w)`, source `(x, y)` lands at
column `y` of row `w - 1 - x`. -/
theorem rotate270_spec (g : List Pixel) (w h : Nat) (hlen : g.length = w * h) :
    ∃ r, ApplyRotate g w h 270 = .ok (r, h, w) ∧ r.length = h * w ∧
      ∀ x y, x < w → y < h → r[(w - 1 - x) * h + y]? = g[y * w + x]? := by
  obtain ⟨r, hr, hl, hset, -⟩ := scatter_spec h w (fun y x => (w - x - 1) * h + y)
    (fun y x => y * w + x) g (List.replicate (h * w) Pixel.zero)
    (fun y x hy hx => by rw [hlen]; exact idx_lt' x y w h hx hy)
    (fun y x hy hx => by
      rw [List.length_replicate, Nat.mul_comm h w]
      exact idx_lt y (w - x - 1) h w hy (by omega))
    (fun y x y' x' hy hx hy' hx' he => by
      obtain ⟨e1, e2⟩ := idx_inj (w - x - 1) y (w - x' - 1) y' h hy hy' he
      exact ⟨e2, by omega⟩)
  refine ⟨r, by rw [ApplyRotate_270_eq, hr]; rfl, by rw [hl, List.length_replicate], ?_⟩
  intro x y hx hy
  have := hset y x hy hx
  simp only at this
  rw [show w - 1 - x = w - x - 1 by omega]
  exact this

/-- C3: for a grid `g` of length `w * h` and every position `x < w`, `y < h`,
`ApplyRotate` succeeds with a result of length `w * h`; angle 90 returns the
dimensions `(h, w)` and puts source pixel `(x, y)` at index `x * h + (h - 1 - y)`
(new column `h - 1 - y`, new row `x`, new width `h`); angle 180 returns `(w, h)`
and puts it at `(h - 1 - y) * w + (w - 1 - x)`; angle 270 returns `(h, w)` and
puts it at `(w - 1 - x) * h + y`. -/
theorem ApplyRotate_places (g : List Pixel) (w h : Nat) (hlen : g.length = w * h) :
    (∃ r, ApplyRotate g w h 90 = .ok (r, h, w) ∧ r.length = w * h ∧
      ∀ x y, x < w → y < h →
        ∃ p, g[y * w + x]? = some p ∧ r[x * h + (h - 1 - y)]? = some p) ∧
    (∃ r, ApplyRotate g w h 180 = .ok (r, w, h) ∧ r.length = w * h ∧
      ∀ x y, x < w → y < h →
        ∃ p, g[y * w + x]? = some p ∧ r[(h - 1 - y) * w + (w - 1 - x)]? = some p) ∧
    (∃ r, ApplyRotate g w h 270 = .ok (r, h, w) ∧ r.length = w * h ∧
      ∀ x y, x < w → y < h →
        ∃ p, g[y * w + x]? = some p ∧ r[(w - 1 - x) * h + y]? = some p) := by
  obtain ⟨r1, hr1, hl1, hs1⟩ := rotate90_spec g w h hlen
  obtain ⟨r2, hr2, hl2, hs2⟩ := rotate180_spec g w h hlen
  obtain ⟨r3, hr3, hl3, hs3⟩ := rotate270_spec g w h hlen
  refine ⟨⟨r1, hr1, by rw [hl1, Nat.mul_comm], ?_⟩, ⟨r2, hr2, hl2, ?_⟩,
    ⟨r3, hr3, by rw [hl3, Nat.mul_comm], ?_⟩⟩
  · intro x y hx hy
    obtain ⟨p, hp⟩ := getElem?_grid g w h hlen x y hx hy
    exact ⟨p, hp, by rw [hs1 x y hx hy, hp]⟩
  · intro x y hx hy
    obtain ⟨p, hp⟩ := getElem?_grid g w h hlen x y hx hy
    exact ⟨p, hp, by rw [hs2 x y hx hy, hp]⟩
  · intro x y hx hy
    obtain ⟨p, hp⟩ := getElem?_grid g w h hlen x y hx hy
    exact ⟨p, hp, by rw [hs3 x y hx hy, hp]⟩

/-- C3 witness: the 3 x 2 sample grid. -/
theorem ApplyRotate_places_witness :
    sampleGrid.length = 3 * 2 ∧
    ((∃ r, ApplyRotate sampleGrid 3 2 90 = .ok (r, 2, 3) ∧ r.length = 3 * 2 ∧
      ∀ x y, x < 3 → y < 2 →
        ∃ p, sampleGrid[y * 3 + x]? = some p ∧ r[x * 2 + (2 - 1 - y)]? = some p) ∧
    (∃ r, ApplyRotate sampleGrid 3 2 180 = .ok (r, 3, 2) ∧ r.length = 3 * 2 ∧
      ∀ x y, x < 3 → y < 2 →
        ∃ p, sampleGrid[y * 3 + x]? = some p ∧
          r[(2 - 1 - y) * 3 + (3 - 1 - x)]? = some p) ∧
    (∃ r, ApplyRotate sampleGrid 3 2 270 = .ok (r, 2, 3) ∧ r.length = 3 * 2 ∧
      ∀ x y, x < 3 → y < 2 →
        ∃ p, sampleGrid[y * 3 + x]? = some p ∧ r[(3 - 1 - x) * 2 + y]? = some p)) :=
  ⟨rfl, ApplyRotate_places sampleGrid 3 2 rfl⟩

/-- C4: for every `w`, `h` and grid `g` of length `w * h`, four successive
calls of `ApplyRotate` with angle 90, each on the grid, width and height returned
by the previous call, succeed and return `g` with the dimensions `(w, h)`. -/
theorem ApplyRotate_90_four_times (g : List Pixel) (w h : Nat) (hlen : g.length = w * h) :
    (do
      let (r1, w1, h1) ← ApplyRotate g w h 90
      let (r2, w2, h2) ← ApplyRotate r1 w1 h1 90
      let (r3, w3, h3) ← ApplyRotate r2 w2 h2 90
      ApplyRotate r3 w3 h3 90) = .ok (g, w, h) := by
  obtain ⟨r1, hr1, hl1, hs1⟩ := rotate90_spec g w h hlen
  obtain ⟨r2, hr2, hl2, hs2⟩ := rotate90_spec r1 h w hl1
  obtain ⟨r3, hr3, hl3, hs3⟩ := rotate90_spec r2 w h hl2
  obtain ⟨r4, hr4, hl4, hs4⟩ := rotate90_spec r3 h w hl3
  have he : r4 = g := by
    apply grid_ext r4 g w h hl4 hlen
    intro x y hx hy
    have e4 := hs4 y (w - 1 - x) hy (by omega)
    have e3 := hs3 (w - 1 - x) (h - 1 - y) (by omega) (by omega)
    have e2 := hs2 (h - 1 - y) x (by omega) hx
    have e1 := hs1 x y hx hy
    rw [show w - 1 - (w - 1 - x) = x by omega] at e4
    rw [show h - 1 - (h - 1 - y) = y by omega] at e3
    rw [e4, e3, e2, e1]
  simp only [hr1, ok_bind, hr2, hr3, hr4, he]

/-- C4 witness: the 3 x 2 sample grid. -/
theorem ApplyRotate_90_four_times_witness :
    sampleGrid.length = 3 * 2 ∧
    (do
      let (r1, w1, h1) ← ApplyRotate sampleGrid 3 2 90
      let (r2, w2, h2) ← ApplyRotate r1 w1 h1 90
      let (r3, w3, h3) ← ApplyRotate r2 w2 h2 90
      ApplyRotate r3 w3 h3 90) = .ok (sampleGrid, 3, 2) :=
  ⟨rfl, ApplyRotate_90_four_times sampleGrid 3 2 rfl⟩

/-! ## Theorems: mirroring -/

theorem ApplyMirror_horizontal_eq (g : List Pixel) (w h : Nat) :
    ApplyMirror g w h "horizontal" =
      scatter h w (fun y x => y * w + (w - 1 - x)) (fun y x => y * w + x) g
        (List.replicate g.length Pixel.zero) := by
  unfold ApplyMirror
  rw [if_pos (by decide)]
  rfl

theorem ApplyMirror_vertical_eq (g : List Pixel) (w h : Nat) :
    ApplyMirror g w h "vertical" =
      scatter h w (fun y x => (h - 1 - y) * w + x) (fun y x => y * w + x) g
        (List.replicate g.length Pixel.zero) := by
  unfold ApplyMirror
  rw [if_neg (by decide), if_pos (by decide)]
  rfl

/-- Horizontal mirroring: source `(x, y)` lands at column `w - 1 - x` of row `y`. -/
theorem mirror_horizontal_spec (g : List Pixel) (w h : Nat) (hlen : g.length = w * h) :
    ∃ r, ApplyMirror g w h "horizontal" = .ok r ∧ r.length = w * h ∧
      ∀ x y, x < w → y < h → r[y * w + (w - 1 - x)]? = g[y * w + x]? := by
  obtain ⟨r, hr, hl, hset, -⟩ := scatter_spec h w (fun y x => y * w + (w - 1 - x))
    (fun y x => y * w + x) g (List.replicate g.length Pixel.zero)
    (fun y x hy hx => by rw [hlen]; exact idx_lt' x y w h hx hy)
    (fun y x hy hx => by
      rw [List.length_replicate, hlen]
      exact idx_lt' (w - 1 - x) y w h (by omega) hy)
    (fun y x y' x' hy hx hy' hx' he => by
      obtain ⟨e1, e2⟩ := idx_inj y (w - 1 - x) y' (w - 1 - x') w (by omega) (by omega) he
      exact ⟨e1, by omega⟩)
  refine ⟨r, by rw [ApplyMirror_horizontal_eq, hr], by rw [hl, List.length_replicate, hlen], ?_⟩
  intro x y hx hy
  exact hset y x hy hx

/-- Vertical mirroring: source `(x, y)` lands at column `x` of row `h - 1 - y`. -/
theorem mirror_vertical_spec (g : List Pixel) (w h : Nat) (hlen : g.length = w * h) :
    ∃ r, ApplyMirror g w h "vertical" = .ok r ∧ r.length = w * h ∧
      ∀ x y, x < w → y < h → r[(h - 1 - y) * w + x]? = g[y * w + x]? := by
  obtain ⟨r, hr, hl, hset, -⟩ := scatter_spec h w (fun y x => (h - 1 - y) * w + x)
    (fun y x => y * w + x) g (List.replicate g.length Pixel.zero)
    (fun y x hy hx => by rw [hlen]; exact idx_lt' x y w h hx hy)
    (fun y x hy hx => by
      rw [List.length_replicate, hlen]
      exact idx_lt' x (h - 1 - y) w h hx (by omega))
    (fun y x y' x' hy hx hy' hx' he => by
      obtain ⟨e1, e2⟩ := idx_inj (h - 1 - y) x (h - 1 - y') x' w hx hx' he
      exact ⟨by omega, e2⟩)
  refine ⟨r, by rw [ApplyMirror_vertical_eq, hr], by rw [hl, List.length_replicate, hlen], ?_⟩
  intro x y hx hy
  exact hset y x hy hx

/-- C5: for a grid `g` of length `w * h` and every position `x < w`, `y < h`,
the result `r` of `ApplyMirror` has the length of `g`; in horizontal mode
`r[y*w + x] = g[y*w + (w-1-x)]`, in vertical mode `r[y*w + x] = g[(h-1-y)*w + x]`. -/
theorem ApplyMirror_places (g : List Pixel) (w h : Nat) (hlen : g.length = w * h) :
    (∃ r, ApplyMirror g w h "horizontal" = .ok r ∧ r.length = g.length ∧
      ∀ x y, x < w → y < h →
        ∃ p, g[y * w + (w - 1 - x)]? = some p ∧ r[y * w + x]? = some p) ∧
    (∃ r, ApplyMirror g w h "vertical" = .ok r ∧ r.length = g.length ∧
      ∀ x y, x < w → y < h →
        ∃ p, g[(h - 1 - y) * w + x]? = some p ∧ r[y * w + x]? = some p) := by
  obtain ⟨r1, hr1, hl1, hs1⟩ := mirror_horizontal_spec g w h hlen
  obtain ⟨r2, hr2, hl2, hs2⟩ := mirror_vertical_spec g w h hlen
  refine ⟨⟨r1, hr1, by rw [hl1, hlen], ?_⟩, ⟨r2, hr2, by rw [hl2, hlen], ?_⟩⟩
  · intro x y hx hy
    obtain ⟨p, hp⟩ := getElem?_grid g w h hlen (w - 1 - x) y (by omega) hy
    have e := hs1 (w - 1 - x) y (by omega) hy
    rw [show w - 1 - (w - 1 - x) = x by omega] at e
    exact ⟨p, hp, by rw [e, hp]⟩
  · intro x y hx hy
    obtain ⟨p, hp⟩ := getElem?_grid g w h hlen x (h - 1 - y) hx (by omega)
    have e := hs2 x (h - 1 - y) hx (by omega)
    rw [show h - 1 - (h - 1 - y) = y by omega] at e
    exact ⟨p, hp, by rw [e, hp]⟩

/-- C5 witness: the 3 x 2 sample grid. -/
theorem ApplyMirror_places_witness :
    sampleGrid.length = 3 * 2 ∧
    ((∃ r, ApplyMirror sampleGrid 3 2 "horizontal" = .ok r ∧ r.length = sampleGrid.length ∧
      ∀ x y, x < 3 → y < 2 →
        ∃ p, sampleGrid[y * 3 + (3 - 1 - x)]? = some p ∧ r[y * 3 + x]? = some p) ∧
    (∃ r, ApplyMirror sampleGrid 3 2 "vertical" = .ok r ∧ r.length = sampleGrid.length ∧
      ∀ x y, x < 3 → y < 2 →
        ∃ p, sampleGrid[(2 - 1 - y) * 3 + x]? = some p ∧ r[y * 3 + x]? = some p)) :=
  ⟨rfl, ApplyMirror_places sampleGrid 3 2 rfl⟩

/-- C6: for every grid `g` of length `w * h`, `ApplyMirror` applied twice with
mode "horizontal" succeeds and returns `g`, and so does `ApplyMirror` applied
twice with mode "vertical". -/
theorem ApplyMirror_twice (g : List Pixel) (w h : Nat) (hlen : g.length = w * h) :
    (do
      let r ← ApplyMirror g w h "horizontal"
      ApplyMirror r w h "horizontal") = .ok g ∧
    (do
      let r ← ApplyMirror g w h "vertical"
      ApplyMirror r w h "vertical") = .ok g := by
  obtain ⟨r1, hr1, hl1, hs1⟩ := mirror_horizontal_spec g w h hlen
  obtain ⟨r2, hr2, hl2, hs2⟩ := mirror_horizontal_spec r1 w h hl1
  obtain ⟨v1, hv1, hm1, ht1⟩ := mirror_vertical_spec g w h hlen
  obtain ⟨v2, hv2, hm2, ht2⟩ := mirror_vertical_spec v1 w h hm1
  have he : r2 = g := by
    apply grid_ext r2 g w h hl2 hlen
    intro x y hx hy
    have e2 := hs2 (w - 1 - x) y (by omega) hy
    have e1 := hs1 x y hx hy
    rw [show w - 1 - (w - 1 - x) = x by omega] at e2
    rw [e2, e1]
  have hf : v2 = g := by
    apply grid_ext v2 g w h hm2 hlen
    intro x y hx hy
    have e2 := ht2 x (h - 1 - y) hx (by omega)
    have e1 := ht1 x y hx hy
    rw [show h - 1 - (h - 1 - y) = y by omega] at e2
    rw [e2, e1]
  constructor
  · simp only [hr1, ok_bind, hr2, he]
  · simp only [hv1, ok_bind, hv2, hf]

/-- C6 witness: the 3 x 2 sample grid. -/
theorem ApplyMirror_twice_witness :
    sampleGrid.length = 3 * 2 ∧
    ((do
      let r ← ApplyMirror sampleGrid 3 2 "horizontal"
      ApplyMirror r 3 2 "horizontal") = .ok sampleGrid ∧
    (do
      let r ← ApplyMirror sampleGrid 3 2 "vertical"
      ApplyMirror r 3 2 "vertical") = .ok sampleGrid) :=
  ⟨rfl, ApplyMirror_twice sampleGrid 3 2 rfl⟩

/-! ## Theorems: channel filters -/

theorem getElem?_map_some {α β : Type} (f : α → β) (l : List α) (i : Nat) (a : α)
    (h : l[i]? = some a) : (l.map f)[i]? = some (f a) := by
  rw [List.getElem?_map, h]
  rfl

/-- C10: for every grid `g` (and whatever the dimensions passed), `ApplyFilter`
with "blue" returns a grid of the same length whose pixel at every index has
Red = 0, Green = 0 and the Blue of the input pixel; "red" zeroes Green and Blue
and keeps Red; "green" zeroes Red and Blue and keeps Green. A 2 x 2 grid of
(R=255, G=0, B=0) filtered with "blue" is all (0, 0, 0). -/
theorem ApplyFilter_keep_channel (luma : Byte → Byte → Byte → Byte) (g : List Pixel)
    (w h : Nat) :
    (∃ r, ApplyFilter luma g w h "blue" = .ok r ∧ r.length = g.length ∧
      ∀ (i : Nat) (p : Pixel), g[i]? = some p →
        ∃ q : Pixel, r[i]? = some q ∧ q.Red = 0 ∧ q.Green = 0 ∧ q.Blue = p.Blue) ∧
    (∃ r, ApplyFilter luma g w h "red" = .ok r ∧ r.length = g.length ∧
      ∀ (i : Nat) (p : Pixel), g[i]? = some p →
        ∃ q : Pixel, r[i]? = some q ∧ q.Green = 0 ∧ q.Blue = 0 ∧ q.Red = p.Red) ∧
    (∃ r, ApplyFilter luma g w h "green" = .ok r ∧ r.length = g.length ∧
      ∀ (i : Nat) (p : Pixel), g[i]? = some p →
        ∃ q : Pixel, r[i]? = some q ∧ q.Red = 0 ∧ q.Blue = 0 ∧ q.Green = p.Green) ∧
    ApplyFilter luma (List.replicate 4 ({ Red := 255, Green := 0, Blue := 0 } : Pixel)) 2 2 "blue" =
      .ok (List.replicate 4 ({ Red := 0, Green := 0, Blue := 0 } : Pixel)) := by
  refine ⟨⟨g.map (fun p => { p with Red := 0, Green := 0 }), ?_, List.length_map _ _, ?_⟩,
    ⟨g.map (fun p => { p with Green := 0, Blue := 0 }), ?_, List.length_map _ _, ?_⟩,
    ⟨g.map (fun p => { p with Red := 0, Blue := 0 }), ?_, List.length_map _ _, ?_⟩, ?_⟩
  · unfold ApplyFilter
    rw [if_neg (by decide), if_neg (by decide), if_pos (by decide)]
  · intro i p hp
    exact ⟨_, getElem?_map_some _ g i p hp, rfl, rfl, rfl⟩
  · unfold ApplyFilter
    rw [if_neg (by decide), if_neg (by decide), if_neg (by decide), if_pos (by decide)]
  · intro i p hp
    exact ⟨_, getElem?_map_some _ g i p hp, rfl, rfl, rfl⟩
  · unfold ApplyFilter
    rw [if_neg (by decide), if_neg (by decide), if_neg (by decide), if_neg (by decide),
      if_pos (by decide)]
  · intro i p hp
    exact ⟨_, getElem?_map_some _ g i p hp, rfl, rfl, rfl⟩
  · unfold ApplyFilter
    rw [if_neg (by decide), if_neg (by decide), if_pos (by decide)]
    rfl

/-! ## Theorems: pixel rows -/

theorem bitClear_three (n : Nat) : bitClear n 3 = n / 4 * 4 := by
  unfold bitClear
  apply Nat.eq_of_testBit_eq
  intro i
  have h3 : (3 : Nat) = 2 ^ 2 - 1 := by decide
  have h4 : n / 4 * 4 = (n >>> 2) <<< 2 := by
    rw [Nat.shiftLeft_eq, Nat.shiftRight_eq_div_pow]
  rw [h4, Nat.testBit_xor, Nat.testBit_and, Nat.testBit_shiftLeft, Nat.testBit_shiftRight]
  rw [h3, Nat.testBit_two_pow_sub_one]
  by_cases hi : i < 2
  · have h2 : ¬ i ≥ 2 := by omega
    simp [hi, h2]
  · have h2 : i ≥ 2 := by omega
    have h5 : 2 + (i - 2) = i := by omega
    simp [hi, h2, h5]

theorem bitClear_rowSize (w : Nat) : bitClear ((w * 3) + 3) 3 = stride w :=
  bitClear_three _

theorem stride_ge (w : Nat) : w * 3 ≤ stride w := by
  unfold stride
  omega

theorem take_succ_set {α : Type} (l : List α) (i : Nat) (a : α) (h : i < l.length) :
    (l.set i a).take (i + 1) = l.take i ++ [a] := by
  rw [List.take_succ, List.set_take, getElem?_set_same _ _ _ h]
  rw [List.set_eq_of_length_le (by rw [List.length_take]; omega)]
  rfl

theorem take_three_sets {α : Type} (l : List α) (i : Nat) (a b c : α) (h : i + 2 < l.length) :
    (((l.set i a).set (i + 1) b).set (i + 2) c).take (i + 3) = l.take i ++ [a, b, c] := by
  rw [take_succ_set _ (i + 2) c (by simp only [List.length_set]; exact h)]
  rw [take_succ_set _ (i + 1) b (by simp only [List.length_set]; omega)]
  rw [take_succ_set _ i a (by omega)]
  simp only [List.append_assoc, List.cons_append, List.nil_append]

theorem index_of_getElem? {α : Type} (xs : List α) (i : Nat) (a : α) (h : xs[i]? = some a) :
    index xs i = .ok a := by
  unfold index
  rw [h]

theorem getElem?_pixelAt (g : List Pixel) (i : Nat) (h : i < g.length) :
    g[i]? = some (pixelAt g i) := by
  unfold pixelAt
  rw [List.getD_eq_getElem?_getD, List.getElem?_eq_getElem h]
  rfl

theorem flatMap_range_succ {α : Type} (n : Nat) (f : Nat → List α) :
    (List.range (n + 1)).flatMap f = (List.range n).flatMap f ++ f n := by
  rw [List.range_succ, List.flatMap_append]
  simp only [List.flatMap_cons, List.flatMap_nil, List.append_nil]

theorem flatMap_range_length {α : Type} (n m : Nat) (f : Nat → List α)
    (hf : ∀ k, k < n → (f k).length = m) :
    ((List.range n).flatMap f).length = n * m := by
  induction n with
  | zero => simp
  | succ n ih =>
    rw [flatMap_range_succ, List.length_append, ih (fun k hk => hf k (by omega)),
      hf n (by omega), Nat.succ_mul]

/-- The inner loop of `WritePixels` fills the first `3 * w` bytes of the row
buffer with the pixels of row `y`. -/
theorem writeRow_spec (g : List Pixel) (w h y : Nat) (hlen : g.length = w * h) (hy : y < h)
    (rowBuffer : List Byte) (hrb : rowBuffer.length = stride w) :
    ∃ rb, forUp w (fun x rowBuffer => do
        let idx := y * w + x
        let offset := x * 3
        let p ← index g idx
        let rowBuffer ← assign rowBuffer offset p.Blue
        let p ← index g idx
        let rowBuffer ← assign rowBuffer (offset + 1) p.Green
        let p ← index g idx
        assign rowBuffer (offset + 2) p.Red) rowBuffer = .ok rb ∧
      rb.length = stride w ∧
      rb.take (w * 3) = (List.range w).flatMap (fun x =>
        [(pixelAt g (y * w + x)).Blue, (pixelAt g (y * w + x)).Green,
          (pixelAt g (y * w + x)).Red]) := by
  have hs := stride_ge w
  have hinv := forUp_inv w (fun x rowBuffer => do
        let idx := y * w + x
        let offset := x * 3
        let p ← index g idx
        let rowBuffer ← assign rowBuffer offset p.Blue
        let p ← index g idx
        let rowBuffer ← assign rowBuffer (offset + 1) p.Green
        let p ← index g idx
        assign rowBuffer (offset + 2) p.Red)
    (fun x rb => rb.length = stride w ∧
      rb.take (x * 3) = (List.range x).flatMap (fun x =>
        [(pixelAt g (y * w + x)).Blue, (pixelAt g (y * w + x)).Green,
          (pixelAt g (y * w + x)).Red]))
    rowBuffer ⟨hrb, by simp⟩ ?_
  · exact hinv
  · intro x rb hx ⟨hl, ht⟩
    have hi : y * w + x < g.length := by rw [hlen]; exact idx_lt' x y w h hx hy
    have hp := index_of_getElem? g _ _ (getElem?_pixelAt g _ hi)
    have h0 : x * 3 < rb.length := by omega
    have h1 : x * 3 + 1 < (rb.set (x * 3) (pixelAt g (y * w + x)).Blue).length := by
      rw [List.length_set]; omega
    have h2 : x * 3 + 2 < ((rb.set (x * 3) (pixelAt g (y * w + x)).Blue).set (x * 3 + 1)
        (pixelAt g (y * w + x)).Green).length := by
      rw [List.length_set, List.length_set]; omega
    refine ⟨((rb.set (x * 3) (pixelAt g (y * w + x)).Blue).set (x * 3 + 1)
        (pixelAt g (y * w + x)).Green).set (x * 3 + 2) (pixelAt g (y * w + x)).Red,
      ?_, ?_, ?_⟩
    · simp only [hp, ok_bind, assign_eq_ok _ _ _ h0, assign_eq_ok _ _ _ h1,
        assign_eq_ok _ _ _ h2]
    · simp only [List.length_set]
      exact hl
    · rw [show (x + 1) * 3 = x * 3 + 3 by omega, take_three_sets _ _ _ _ _ (by omega), ht,
        flatMap_range_succ]

theorem copyFrom_padding (rb : List Byte) (w : Nat) (hl : rb.length = stride w) :
    copyFrom rb (w * 3) (List.replicate (stride w - w * 3) 0) =
      .ok (rb.take (w * 3) ++ List.replicate (stride w - w * 3) 0) := by
  have hs := stride_ge w
  have h1 : min (rb.length - w * 3) (List.replicate (stride w - w * 3) (0 : Byte)).length =
      stride w - w * 3 := by
    rw [List.length_replicate, hl, Nat.min_self]
  have h2 : List.take (stride w - w * 3) (List.replicate (stride w - w * 3) (0 : Byte)) =
      List.replicate (stride w - w * 3) 0 :=
    List.take_of_length_le (by rw [List.length_replicate])
  have h3 : List.drop (w * 3 + (stride w - w * 3)) rb = [] :=
    List.drop_of_length_le (by omega)
  unfold copyFrom
  rw [if_pos (by omega)]
  simp only [h1, h2, h3, List.append_nil]

/-- The row loop of `WritePixels` writes the rows of the grid from the bottom
row to the top row, each padded with zero bytes to the stride. -/
theorem writePixelRows_spec (g : List Pixel) (w h : Nat) (hlen : g.length = w * h) :
    writePixelRows w h g = .ok (fileRows w h g) := by
  unfold writePixelRows forDown
  rw [bitClear_rowSize]
  have hinv := forUp_inv h
    (fun k (state : List Byte × List Byte) =>
      (fun y (state : List Byte × List Byte) => do
        let (rowBuffer, out) := state
        let rowBuffer ← forUp w (fun x rowBuffer => do
          let idx := y * w + x
          let offset := x * 3
          let p ← index g idx
          let rowBuffer ← assign rowBuffer offset p.Blue
          let p ← index g idx
          let rowBuffer ← assign rowBuffer (offset + 1) p.Green
          let p ← index g idx
          assign rowBuffer (offset + 2) p.Red) rowBuffer
        let rowBuffer ← copyFrom rowBuffer (w * 3) (List.replicate (stride w - w * 3) 0)
        pure (rowBuffer, out ++ rowBuffer)) (h - 1 - k) state)
    (fun k state => state.1.length = stride w ∧
      state.2 = (List.range k).flatMap (fun k => rowBytes w g (h - 1 - k)))
    (List.replicate (stride w) 0, []) ⟨by simp, by simp⟩ ?_
  · obtain ⟨⟨rb, out⟩, hrun, -, hout⟩ := hinv
    simp only at hout
    subst hout
    show (forUp h _ (List.replicate (stride w) (0 : Byte), ([] : List Byte)) >>= _) = _
    rw [hrun]
    rfl
  · intro k ⟨rb, out⟩ hk ⟨hl, hout⟩
    simp only at hl hout
    obtain ⟨rb1, hrun, hl1, ht1⟩ := writeRow_spec g w h (h - 1 - k) hlen (by omega) rb hl
    refine ⟨(rb1.take (w * 3) ++ List.replicate (stride w - w * 3) 0,
      out ++ (rb1.take (w * 3) ++ List.replicate (stride w - w * 3) 0)), ?_, ?_, ?_⟩
    · simp only [hrun, ok_bind, copyFrom_padding rb1 w hl1, pure_eq_ok]
    · have hs := stride_ge w
      simp only [List.length_append, List.length_take, List.length_replicate, hl1]
      omega
    · simp only
      rw [flatMap_range_succ, hout, ht1]
      rfl

theorem getElem?_getD {α : Type} (l : List α) (i : Nat) (d : α) (h : i < l.length) :
    l[i]? = some (l.getD i d) := by
  rw [List.getD_eq_getElem?_getD, List.getElem?_eq_getElem h]
  rfl

theorem fileRead_full (file buf : List Byte) (h : buf.length ≤ file.length) :
    fileRead file buf = .ok (file.take buf.length, file.drop buf.length) := by
  have h1 : (List.take buf.length file).length = buf.length := by
    rw [List.length_take]; omega
  unfold fileRead
  simp only [h1]
  rw [if_neg (by omega), List.drop_length, List.append_nil]

/-- The inner loop of `ReadPixels` at the `k`-th file row: it fills the logical
row `h - 1 - k` from the row buffer and keeps the rows filled before. -/
theorem readRow_spec (w h k : Nat) (hk : k < h) (T : Nat → Nat → Pixel) (buf : List Byte)
    (hbl : buf.length = stride w) (hT : ∀ x, x < w → T k x = pixelOfBytes buf (x * 3))
    (pixels : List Pixel) (hpl : pixels.length = w * h)
    (hprev : ∀ k' x', k' < k → x' < w → pixels[(h - 1 - k') * w + x']? = some (T k' x')) :
    ∃ r, forUp w (fun x pixels => do
        let bufIndex := x * 3
        let pixelIndex := (h - 1 - k) * w + x
        let blue ← index buf bufIndex
        let green ← index buf (bufIndex + 1)
        let red ← index buf (bufIndex + 2)
        assign pixels pixelIndex { Blue := blue, Green := green, Red := red }) pixels = .ok r ∧
      r.length = w * h ∧
      ∀ k' x', k' < k + 1 → x' < w → r[(h - 1 - k') * w + x']? = some (T k' x') := by
  have hs := stride_ge w
  have hinv := forUp_inv w (fun x pixels => do
        let bufIndex := x * 3
        let pixelIndex := (h - 1 - k) * w + x
        let blue ← index buf bufIndex
        let green ← index buf (bufIndex + 1)
        let red ← index buf (bufIndex + 2)
        assign pixels pixelIndex { Blue := blue, Green := green, Red := red })
    (fun x r => r.length = w * h ∧
      ∀ k' x', (k' < k ∧ x' < w ∨ k' = k ∧ x' < x) →
        r[(h - 1 - k') * w + x']? = some (T k' x'))
    pixels ⟨hpl, ?_⟩ ?_
  · obtain ⟨r, hr, hl, hset⟩ := hinv
    refine ⟨r, hr, hl, ?_⟩
    intro k' x' hk' hx'
    apply hset
    rcases Nat.lt_succ_iff_lt_or_eq.mp hk' with h1 | h1
    · exact Or.inl ⟨h1, hx'⟩
    · exact Or.inr ⟨h1, hx'⟩
  · intro k' x' hd
    rcases hd with ⟨h1, h2⟩ | ⟨_, h2⟩
    · exact hprev k' x' h1 h2
    · exact absurd h2 (Nat.not_lt_zero _)
  · intro x r hx ⟨hl, hset⟩
    have hb0 := index_of_getElem? buf _ _ (getElem?_getD buf (x * 3) 0 (by omega))
    have hb1 := index_of_getElem? buf _ _ (getElem?_getD buf (x * 3 + 1) 0 (by omega))
    have hb2 := index_of_getElem? buf _ _ (getElem?_getD buf (x * 3 + 2) 0 (by omega))
    have hi : (h - 1 - k) * w + x < r.length := by
      rw [hl]; exact idx_lt' x (h - 1 - k) w h hx (by omega)
    refine ⟨r.set ((h - 1 - k) * w + x) (pixelOfBytes buf (x * 3)), ?_, ?_, ?_⟩
    · simp only [hb0, hb1, hb2, ok_bind, assign_eq_ok _ _ _ hi]
      rfl
    · rw [List.length_set, hl]
    · intro k' x' hd
      by_cases hsame : k' = k ∧ x' = x
      · obtain ⟨rfl, rfl⟩ := hsame
        rw [getElem?_set_same _ _ _ hi, hT x' hx]
      · have hx' : x' < w := by rcases hd with ⟨_, h2⟩ | ⟨_, h2⟩ <;> omega
        have hk' : k' < h := by rcases hd with ⟨h1, _⟩ | ⟨h1, _⟩ <;> omega
        have hne : (h - 1 - k) * w + x ≠ (h - 1 - k') * w + x' := by
          intro he
          obtain ⟨e1, e2⟩ := idx_inj _ _ _ _ w hx hx' he
          exact hsame ⟨by omega, e2.symm⟩
        rw [getElem?_set_other _ _ _ _ hne]
        apply hset
        rcases hd with ⟨h1, h2⟩ | ⟨h1, h2⟩
        · exact Or.inl ⟨h1, h2⟩
        · refine Or.inr ⟨h1, ?_⟩
          rcases Nat.lt_succ_iff_lt_or_eq.mp h2 with h3 | h3
          · exact h3
          · exact absurd ⟨h1, h3⟩ hsame

theorem pixelOfBytes_take_drop (file : List Byte) (n m off : Nat) (h : off + 2 < m) :
    pixelOfBytes ((file.drop n).take m) off = pixelOfBytes file (n + off) := by
  unfold pixelOfBytes
  simp only [List.getD_eq_getElem?_getD]
  rw [List.getElem?_take_of_lt (by omega), List.getElem?_take_of_lt (by omega),
    List.getElem?_take_of_lt (by omega), List.getElem?_drop, List.getElem?_drop,
    List.getElem?_drop]
  rfl

/-- The row loop of `ReadPixels` on pixel data of at least `h` rows: it succeeds,
and the pixel at column `x` of the logical row `h - 1 - k` is made of the three
bytes at offset `k * stride + 3 * x` of the data. -/
theorem readPixelRows_spec (w h : Nat) (file : List Byte)
    (hfile : h * stride w ≤ file.length) :
    ∃ r, readPixelRows w h file = .ok r ∧ r.length = w * h ∧
      ∀ k x, k < h → x < w →
        r[(h - 1 - k) * w + x]? = some (pixelOfBytes file (k * stride w + x * 3)) := by
  have hs := stride_ge w
  have hinv := forUp_inv h
    (fun k (state : List Byte × List Byte × List Pixel) =>
      (fun y (state : List Byte × List Byte × List Pixel) => do
        let (file, buf, pixels) := state
        let (buf, file) ←
          match fileRead file buf with
          | .ok r => pure r
          | .error _ => throw (.err "error reading pixel data")
        let pixels ← forUp w (fun x pixels => do
          let bufIndex := x * 3
          let pixelIndex := y * w + x
          let blue ← index buf bufIndex
          let green ← index buf (bufIndex + 1)
          let red ← index buf (bufIndex + 2)
          assign pixels pixelIndex { Blue := blue, Green := green, Red := red }) pixels
        pure (file, buf, pixels)) (h - 1 - k) state)
    (fun k state => state.1 = file.drop (k * stride w) ∧ state.2.1.length = stride w ∧
      state.2.2.length = w * h ∧
      ∀ k' x', k' < k → x' < w →
        state.2.2[(h - 1 - k') * w + x']? =
          some (pixelOfBytes file (k' * stride w + x' * 3)))
    (file, List.replicate (stride w) 0, List.replicate (w * h) Pixel.zero)
    ⟨by simp, by simp, by simp, fun _ _ hk _ => absurd hk (Nat.not_lt_zero _)⟩ ?_
  · obtain ⟨⟨f1, b1, r⟩, hrun, -, -, hl, hset⟩ := hinv
    refine ⟨r, ?_, hl, hset⟩
    unfold readPixelRows forDown
    show (forUp h _ (file, List.replicate (stride w) (0 : Byte),
      List.replicate (w * h) Pixel.zero) >>= _) = _
    rw [hrun]
    rfl
  · intro k ⟨f0, b0, p0⟩ hk ⟨hf0, hb0, hp0, hprev⟩
    simp only at hf0 hb0 hp0 hprev
    have hrows : (k + 1) * stride w ≤ h * stride w := Nat.mul_le_mul_right _ hk
    rw [Nat.succ_mul] at hrows
    have hfl : b0.length ≤ f0.length := by
      rw [hf0, List.length_drop, hb0]; omega
    have hread := fileRead_full f0 b0 hfl
    rw [hb0] at hread
    obtain ⟨r, hr, hl, hset⟩ := readRow_spec w h k hk
      (fun k x => pixelOfBytes file (k * stride w + x * 3)) (f0.take (stride w))
      (by rw [List.length_take, hf0, List.length_drop]; omega)
      (fun x hx => by
        simp only
        rw [hf0, pixelOfBytes_take_drop file _ _ _ (by omega)])
      p0 hp0 hprev
    refine ⟨(f0.drop (stride w), f0.take (stride w), r), ?_, ?_, ?_, hl, hset⟩
    · simp only [hread, pure_eq_ok, ok_bind, hr]
    · simp only
      rw [hf0, List.drop_drop, Nat.succ_mul, Nat.add_comm]
    · simp only
      rw [List.length_take, hf0, List.length_drop]; omega

theorem getElem?_flatMap_range {α : Type} (n m : Nat) (f : Nat → List α)
    (hf : ∀ k, k < n → (f k).length = m) (k j : Nat) (hk : k < n) (hj : j < m) :
    ((List.range n).flatMap f)[k * m + j]? = (f k)[j]? := by
  induction n with
  | zero => omega
  | succ n ih =>
    have hlen := flatMap_range_length n m f (fun k hk => hf k (by omega))
    rw [flatMap_range_succ]
    rcases Nat.lt_succ_iff_lt_or_eq.mp hk with h1 | h1
    · have hlt : k * m + j < ((List.range n).flatMap f).length := by
        rw [hlen, Nat.mul_comm n m]
        exact idx_lt' j k m n hj h1
      rw [List.getElem?_append_left hlt]
      exact ih (fun k hk => hf k (by omega)) h1
    · subst h1
      rw [List.getElem?_append_right (by rw [hlen]; omega), hlen]
      congr 1
      omega

theorem rowBytes_length (w : Nat) (g : List Pixel) (y : Nat) :
    (rowBytes w g y).length = stride w := by
  have hs := stride_ge w
  unfold rowBytes
  rw [List.length_append, List.length_replicate,
    flatMap_range_length w 3 (fun x =>
      [(pixelAt g (y * w + x)).Blue, (pixelAt g (y * w + x)).Green,
        (pixelAt g (y * w + x)).Red]) (fun _ _ => rfl)]
  omega

theorem fileRows_length (w h : Nat) (g : List Pixel) :
    (fileRows w h g).length = h * stride w :=
  flatMap_range_length h (stride w) _ (fun _ _ => rowBytes_length w g _)

theorem getElem?_rowBytes (w : Nat) (g : List Pixel) (y x c : Nat) (hx : x < w) (hc : c < 3) :
    (rowBytes w g y)[x * 3 + c]? =
      [(pixelAt g (y * w + x)).Blue, (pixelAt g (y * w + x)).Green,
        (pixelAt g (y * w + x)).Red][c]? := by
  unfold rowBytes
  have hl := flatMap_range_length w 3 (fun x =>
      [(pixelAt g (y * w + x)).Blue, (pixelAt g (y * w + x)).Green,
        (pixelAt g (y * w + x)).Red]) (fun _ _ => rfl)
  rw [List.getElem?_append_left (by rw [hl]; omega)]
  exact getElem?_flatMap_range w 3 (fun x =>
      [(pixelAt g (y * w + x)).Blue, (pixelAt g (y * w + x)).Green,
        (pixelAt g (y * w + x)).Red]) (fun _ _ => rfl) x c hx hc

theorem getElem?_fileRows (w h : Nat) (g : List Pixel) (k x c : Nat) (hk : k < h)
    (hx : x < w) (hc : c < 3) :
    (fileRows w h g)[k * stride w + (x * 3 + c)]? =
      [(pixelAt g ((h - 1 - k) * w + x)).Blue, (pixelAt g ((h - 1 - k) * w + x)).Green,
        (pixelAt g ((h - 1 - k) * w + x)).Red][c]? := by
  have hs := stride_ge w
  unfold fileRows
  rw [getElem?_flatMap_range h (stride w) _ (fun _ _ => rowBytes_length w g _) k _ hk
    (by omega)]
  exact getElem?_rowBytes w g _ x c hx hc

theorem pixelOfBytes_fileRows (w h : Nat) (g : List Pixel) (k x : Nat) (hk : k < h)
    (hx : x < w) :
    pixelOfBytes (fileRows w h g) (k * stride w + x * 3) = pixelAt g ((h - 1 - k) * w + x) := by
  unfold pixelOfBytes
  have h0 := getElem?_fileRows w h g k x 0 hk hx (by omega)
  have h1 := getElem?_fileRows w h g k x 1 hk hx (by omega)
  have h2 := getElem?_fileRows w h g k x 2 hk hx (by omega)
  rw [Nat.add_zero] at h0
  rw [← Nat.add_assoc] at h1 h2
  simp only [List.getD_eq_getElem?_getD, h0, h1, h2]
  rfl

/-- C2: for every width `w`, height `h` and grid `g` of length `w * h`, the
pixel rows that `WritePixels` writes after the headers (bottom-up, Blue Green
Red, padded to `(3w+3) &^ 3` bytes), read back by the row loop of `ReadPixels`
(stride `(3w+3)/4*4`) with the same `w` and `h`, give a grid identical to `g`. -/
theorem readPixelRows_writePixelRows (g : List Pixel) (w h : Nat)
    (hlen : g.length = w * h) :
    (do
      let rows ← writePixelRows w h g
      readPixelRows w h rows) = .ok g := by
  obtain ⟨r, hr, hl, hset⟩ := readPixelRows_spec w h (fileRows w h g)
    (by rw [fileRows_length])
  have he : r = g := by
    apply grid_ext r g w h hl hlen
    intro x y hx hy
    have e := hset (h - 1 - y) x (by omega) hx
    rw [show h - 1 - (h - 1 - y) = y by omega] at e
    rw [e, pixelOfBytes_fileRows w h g _ x (by omega) hx,
      show h - 1 - (h - 1 - y) = y by omega]
    have hi : y * w + x < g.length := by rw [hlen]; exact idx_lt' x y w h hx hy
    exact (getElem?_pixelAt g _ hi).symm
  rw [writePixelRows_spec g w h hlen, ok_bind, hr, he]

/-- C2 witness: the 3 x 2 sample grid (rows of 9 bytes padded to 12). -/
theorem readPixelRows_writePixelRows_witness :
    sampleGrid.length = 3 * 2 ∧
    (do
      let rows ← writePixelRows 3 2 sampleGrid
      readPixelRows 3 2 rows) = .ok sampleGrid :=
  ⟨rfl, readPixelRows_writePixelRows sampleGrid 3 2 rfl⟩

/-! ## Theorems: cropping -/

theorem digitChar_props (d : Nat) (h : d < 10) :
    (Nat.digitChar d).isDigit = true ∧ (Nat.digitChar d).toNat - 48 = d ∧
      Nat.digitChar d ≠ '-' ∧ Nat.digitChar d ≠ '+' := by
  interval_cases d <;> decide

theorem toDigitsCore_isDigit (fuel : Nat) : ∀ (n : Nat) (ds : List Char),
    (∀ c ∈ ds, c.isDigit = true) → ∀ c ∈ Nat.toDigitsCore 10 fuel n ds, c.isDigit = true := by
  induction fuel with
  | zero => intro n ds hds; exact hds
  | succ fuel ih =>
    intro n ds hds
    have hd := (digitChar_props (n % 10) (Nat.mod_lt _ (by decide))).1
    have hcons : ∀ c ∈ Nat.digitChar (n % 10) :: ds, c.isDigit = true := by
      intro c hc
      rcases List.mem_cons.mp hc with h | h
      · rw [h]; exact hd
      · exact hds c h
    unfold Nat.toDigitsCore
    simp only
    split
    · exact hcons
    · exact ih _ _ hcons

theorem toDigitsCore_value (fuel : Nat) : ∀ (n : Nat) (ds : List Char), n < fuel →
    (Nat.toDigitsCore 10 fuel n ds).foldl (fun acc c => 10 * acc + (c.toNat - 48)) 0 =
      ds.foldl (fun acc c => 10 * acc + (c.toNat - 48)) n := by
  induction fuel with
  | zero => intro n ds h; omega
  | succ fuel ih =>
    intro n ds hn
    have hd := (digitChar_props (n % 10) (Nat.mod_lt _ (by decide))).2.1
    unfold Nat.toDigitsCore
    simp only
    split
    · rename_i h0
      rw [List.foldl_cons, hd]
      congr 1
      omega
    · rename_i h0
      rw [ih _ _ (by omega), List.foldl_cons, hd]
      congr 1
      omega

theorem toDigitsCore_ne_nil (fuel n : Nat) (ds : List Char) (h : 0 < fuel) :
    Nat.toDigitsCore 10 fuel n ds ≠ [] := by
  induction fuel generalizing n ds with
  | zero => omega
  | succ fuel ih =>
    unfold Nat.toDigitsCore
    simp only
    split
    · exact List.cons_ne_nil _ _
    · rcases Nat.eq_zero_or_pos fuel with h0 | h0
      · subst h0
        unfold Nat.toDigitsCore
        exact List.cons_ne_nil _ _
      · exact ih _ _ h0

theorem Atoi_digits (ds : List Char) (hne : ds ≠ []) (hall : ∀ c ∈ ds, c.isDigit = true)
    (hv : decimalValue ds < 9223372036854775808) : Atoi ds = .ok (decimalValue ds : Int) := by
  have hsplit : signAndDigits ds = (false, ds) := by
    unfold signAndDigits
    split
    · exact absurd (hall '+' (by simp)) (by decide)
    · exact absurd (hall '-' (by simp)) (by decide)
    · rfl
  unfold Atoi
  rw [hsplit]
  simp only
  rw [if_neg hne, if_neg (by simpa using hall)]
  simp only [Bool.false_eq_true, if_false]
  rw [if_neg (by omega)]

theorem Atoi_repr (n : Nat) (h : n < 9223372036854775808) :
    Atoi (toString n).toList = .ok (n : Int) := by
  have hs : (toString n).toList = Nat.toDigits 10 n := rfl
  rw [hs]
  have hv : decimalValue (Nat.toDigits 10 n) = n := by
    unfold decimalValue Nat.toDigits
    rw [toDigitsCore_value _ _ _ (by omega)]
    rfl
  have := Atoi_digits (Nat.toDigits 10 n) (toDigitsCore_ne_nil _ _ _ (by omega))
    (toDigitsCore_isDigit _ _ _ (by simp)) (by rw [hv]; exact h)
  rw [this, hv]

theorem not_mem_of_isDigit (ds : List Char) (hall : ∀ c ∈ ds, c.isDigit = true) :
    '-' ∉ ds := by
  intro h
  exact absurd (hall '-' h) (by decide)

theorem repr_no_dash (n : Nat) : '-' ∉ (toString n).toList := by
  have hs : (toString n).toList = Nat.toDigits 10 n := rfl
  rw [hs]
  exact not_mem_of_isDigit _ (toDigitsCore_isDigit _ _ _ (by simp))

theorem splitOn_ne_nil (sep : Char) (cs : List Char) : splitOn sep cs ≠ [] := by
  cases cs with
  | nil => simp [splitOn]
  | cons c cs =>
    unfold splitOn
    split
    · exact List.cons_ne_nil _ _
    · split
      · exact List.cons_ne_nil _ _
      · exact List.cons_ne_nil _ _

theorem splitOn_no_sep (sep : Char) (t : List Char) (h : sep ∉ t) : splitOn sep t = [t] := by
  induction t with
  | nil => rfl
  | cons c cs ih =>
    have hc : c ≠ sep := fun e => h (by rw [e]; exact List.mem_cons_self _ _)
    have hcs : sep ∉ cs := fun e => h (List.mem_cons_of_mem _ e)
    unfold splitOn
    rw [if_neg hc, ih hcs]

theorem splitOn_append (sep : Char) (t rest : List Char) (h : sep ∉ t) :
    splitOn sep (t ++ sep :: rest) = t :: splitOn sep rest := by
  induction t with
  | nil =>
    rw [List.nil_append]
    conv => lhs; unfold splitOn
    rw [if_pos rfl]
  | cons c cs ih =>
    have hc : c ≠ sep := fun e => h (by rw [e]; exact List.mem_cons_self _ _)
    have hcs : sep ∉ cs := fun e => h (List.mem_cons_of_mem _ e)
    rw [List.cons_append]
    conv => lhs; unfold splitOn
    rw [if_neg hc, ih hcs]

theorem splitOn_tokens (sep : Char) (cs : List Char) : ∀ t ∈ splitOn sep cs, sep ∉ t := by
  induction cs with
  | nil =>
    intro t ht
    simp only [splitOn, List.mem_singleton] at ht
    rw [ht]
    exact List.not_mem_nil _
  | cons c cs ih =>
    intro t ht
    unfold splitOn at ht
    split at ht
    · rcases List.mem_cons.mp ht with h | h
      · rw [h]; exact List.not_mem_nil _
      · exact ih t h
    · rename_i hc
      split at ht
      · rename_i hnil
        exact absurd hnil (splitOn_ne_nil sep cs)
      · rename_i t0 ts heq
        rcases List.mem_cons.mp ht with h | h
        · rw [h]
          intro hm
          rcases List.mem_cons.mp hm with h1 | h1
          · exact hc h1.symm
          · exact ih t0 (by rw [heq]; exact List.mem_cons_self _ _) h1
        · exact ih t (by rw [heq]; exact List.mem_cons_of_mem _ h)

/-- A token without a minus sign that `Atoi` accepts has a non-negative value
below `2^63`. -/
theorem Atoi_nonneg (t : List Char) (v : Int) (ht : '-' ∉ t) (h : Atoi t = .ok v) :
    0 ≤ v ∧ v < 9223372036854775808 := by
  have hsign : (signAndDigits t).1 = false := by
    unfold signAndDigits
    split
    · rfl
    · exact absurd (List.mem_cons_self _ _) ht
    · rfl
  unfold Atoi at h
  generalize signAndDigits t = sd at h hsign
  obtain ⟨neg, digits⟩ := sd
  simp only at hsign
  subst hsign
  simp only at h
  split at h
  · exact absurd h (by simp)
  · split at h
    · exact absurd h (by simp)
    · simp only [Bool.false_eq_true, if_false] at h
      split at h
      · exact absurd h (by simp)
      · injection h with h
        omega

theorem mapM_ok_mem {α β : Type} (f : α → Result β) : ∀ (l : List α) (rs : List β),
    l.mapM f = .ok rs → rs.length = l.length ∧ ∀ b ∈ rs, ∃ a ∈ l, f a = .ok b := by
  intro l
  induction l with
  | nil =>
    intro rs h
    rw [List.mapM_nil] at h
    injection h with h
    subst h
    exact ⟨rfl, fun b hb => absurd hb (List.not_mem_nil _)⟩
  | cons a l ih =>
    intro rs h
    rw [List.mapM_cons] at h
    cases hfa : f a with
    | error e => rw [hfa] at h; exact absurd h (by simp [bind, Except.bind])
    | ok b =>
      rw [hfa, ok_bind] at h
      cases hl : l.mapM f with
      | error e => rw [hl] at h; exact absurd h (by simp [bind, Except.bind])
      | ok bs =>
        rw [hl, ok_bind] at h
        injection h with h
        subst h
        obtain ⟨h1, h2⟩ := ih bs hl
        refine ⟨by simp [h1], ?_⟩
        intro b' hb'
        rcases List.mem_cons.mp hb' with h3 | h3
        · exact ⟨a, List.mem_cons_self _ _, by rw [h3]; exact hfa⟩
        · obtain ⟨a', ha', hfa'⟩ := h2 b' h3
          exact ⟨a', List.mem_cons_of_mem _ ha', hfa'⟩

/-- Every integer that the first loop of `ApplyCrop` produces is non-negative
and below `2^63`. -/
theorem parseOptions_nonneg (s : String) (opts : List Int) (h : parseOptions s = .ok opts) :
    ∀ o ∈ opts, 0 ≤ o ∧ o < 9223372036854775808 := by
  intro o ho
  obtain ⟨-, hmem⟩ := mapM_ok_mem Atoi _ _ h
  obtain ⟨t, ht, hat⟩ := hmem o ho
  exact Atoi_nonneg t o (splitOn_tokens '-' _ t ht) hat

theorem wrapInt_of_range (x : Int) (h1 : -9223372036854775808 ≤ x)
    (h2 : x < 9223372036854775808) : wrapInt x = x := by
  unfold wrapInt
  omega

theorem wrapInt_cast (n : Nat) (h : n < 9223372036854775808) : wrapInt (n : Int) = (n : Int) :=
  wrapInt_of_range _ (by omega) (by omega)

theorem slice_cast {α : Type} (xs : List α) (a b : Nat) (hab : a ≤ b) (hb : b ≤ xs.length) :
    slice xs (a : Int) (b : Int) = .ok ((xs.drop a).take (b - a)) := by
  unfold slice
  rw [if_pos (by omega)]
  congr 3
  omega

theorem slice_error {α : Type} (xs : List α) (lo hi : Int)
    (h : ¬ (0 ≤ lo ∧ lo ≤ hi ∧ hi ≤ (xs.length : Int))) :
    slice xs lo hi = .error (.panic "slice bounds out of range") := by
  unfold slice
  rw [if_neg h]

theorem copyInto_cast {α : Type} (dst : List α) (a b : Nat) (src : List α) (hab : a ≤ b)
    (hb : b ≤ dst.length) (hsrc : src.length = b - a) :
    copyInto dst (a : Int) (b : Int) src = .ok (dst.take a ++ src ++ dst.drop b) := by
  unfold copyInto
  rw [if_pos (by omega)]
  have h1 : ((b : Int) - (a : Int)).toNat = b - a := by omega
  have h2 : ((a : Int)).toNat = a := by omega
  simp only [h1, h2, hsrc, Nat.min_self]
  rw [← hsrc, List.take_length, hsrc, show a + (b - a) = b by omega]

theorem dims_mul_lt (w h : Nat) (hw : w < 2147483648) (hh : h < 2147483648) :
    w * h < 4611686018427387904 := by
  have := Nat.mul_lt_mul'' hw hh
  omega

/-- The body of the copy loop of `ApplyCrop` on a window inside the image: row
`y` of the cropped grid becomes the `cw` pixels of the source from index
`(oy + y) * w + ox` on; no 64-bit operation overflows. -/
theorem cropRow_eq (g : List Pixel) (w h ox oy cw ch y : Nat) (hlen : g.length = w * h)
    (hw : w < 2147483648) (hh : h < 2147483648) (hx : ox + cw ≤ w) (hy : oy + ch ≤ h)
    (hyc : y < ch) (cropped : List Pixel) (hcl : cropped.length = cw * ch) :
    cropRow g (w : Int) (ox : Int) (oy : Int) (cw : Int) y cropped =
      .ok (cropped.take (y * cw) ++ (g.drop ((oy + y) * w + ox)).take cw ++
        cropped.drop ((y + 1) * cw)) := by
  have f1 : (oy + y + 1) * w = (oy + y) * w + w := Nat.succ_mul _ _
  have f2 : (oy + y + 1) * w ≤ h * w := Nat.mul_le_mul_right w (by omega)
  have f3 : h * w = w * h := Nat.mul_comm _ _
  have f4 := dims_mul_lt w h hw hh
  have f5 : (y + 1) * cw = y * cw + cw := Nat.succ_mul _ _
  have f6 : (y + 1) * cw ≤ ch * cw := Nat.mul_le_mul_right cw (by omega)
  have f7 : ch * cw = cw * ch := Nat.mul_comm _ _
  have f8 : cw * ch ≤ w * h := Nat.mul_le_mul (by omega) (by omega)
  have b1 : oy + y < 9223372036854775808 := by omega
  have b2 : (oy + y) * w < 9223372036854775808 := by omega
  have b3 : (oy + y) * w + ox < 9223372036854775808 := by omega
  have b4 : (oy + y) * w + ox + cw < 9223372036854775808 := by omega
  have b5 : oy + y + 1 < 9223372036854775808 := by omega
  have b6 : (oy + y + 1) * w < 9223372036854775808 := by omega
  have b7 : y * cw < 9223372036854775808 := by omega
  have b8 : y + 1 < 9223372036854775808 := by omega
  have b9 : (y + 1) * cw < 9223372036854775808 := by omega
  have c1 : (oy + y) * w + ox + cw ≤ (oy + y + 1) * w := by omega
  have c2 : (oy + y) * w + ox ≤ (oy + y) * w + ox + cw := by omega
  have c3 : (oy + y) * w + ox + cw ≤ g.length := by omega
  have c4 : (oy + y) * w + ox + cw - ((oy + y) * w + ox) = cw := by omega
  have c5 : y * cw ≤ (y + 1) * cw := by omega
  have c6 : (y + 1) * cw ≤ cropped.length := by omega
  have c7 : min cw (g.length - ((oy + y) * w + ox)) = (y + 1) * cw - y * cw := by omega
  clear f1 f2 f3 f4 f5 f6 f7 f8
  have e1 : wrapInt ((oy : Int) + (y : Int)) = ((oy + y : Nat) : Int) := by
    rw [← Nat.cast_add]; exact wrapInt_cast _ b1
  have e2 : wrapInt (((oy + y : Nat) : Int) * (w : Int)) = (((oy + y) * w : Nat) : Int) := by
    rw [← Nat.cast_mul]; exact wrapInt_cast _ b2
  have e3 : wrapInt ((((oy + y) * w : Nat) : Int) + (ox : Int)) =
      (((oy + y) * w + ox : Nat) : Int) := by
    rw [← Nat.cast_add]; exact wrapInt_cast _ b3
  have e4 : wrapInt ((((oy + y) * w + ox : Nat) : Int) + (cw : Int)) =
      (((oy + y) * w + ox + cw : Nat) : Int) := by
    rw [← Nat.cast_add]; exact wrapInt_cast _ b4
  have e5 : wrapInt (((oy + y : Nat) : Int) + 1) = ((oy + y + 1 : Nat) : Int) := by
    rw [← Nat.cast_one, ← Nat.cast_add]; exact wrapInt_cast _ b5
  have e6 : wrapInt (((oy + y + 1 : Nat) : Int) * (w : Int)) =
      (((oy + y + 1) * w : Nat) : Int) := by
    rw [← Nat.cast_mul]; exact wrapInt_cast _ b6
  have e7 : wrapInt ((y : Int) * (cw : Int)) = ((y * cw : Nat) : Int) := by
    rw [← Nat.cast_mul]; exact wrapInt_cast _ b7
  have e8 : wrapInt ((y : Int) + 1) = ((y + 1 : Nat) : Int) := by
    rw [← Nat.cast_one, ← Nat.cast_add]; exact wrapInt_cast _ b8
  have e9 : wrapInt (((y + 1 : Nat) : Int) * (cw : Int)) = (((y + 1) * cw : Nat) : Int) := by
    rw [← Nat.cast_mul]; exact wrapInt_cast _ b9
  have hno : ¬ ((((oy + y) * w + ox + cw : Nat) : Int) > (((oy + y + 1) * w : Nat) : Int)) := by
    rw [gt_iff_lt, Int.ofNat_lt]
    exact Nat.not_lt.mpr c1
  have hsl := slice_cast g ((oy + y) * w + ox) ((oy + y) * w + ox + cw) c2 c3
  rw [c4] at hsl
  have hsrc : ((g.drop ((oy + y) * w + ox)).take cw).length = (y + 1) * cw - y * cw := by
    rw [List.length_take, List.length_drop]; exact c7
  have hcp := copyInto_cast cropped (y * cw) ((y + 1) * cw)
    ((g.drop ((oy + y) * w + ox)).take cw) c5 c6 hsrc
  unfold cropRow
  simp only [e1, e2, e3, e4, e5, e6, e7, e8, e9, if_neg hno, hsl, ok_bind, hcp]

/-- The copy loop of `ApplyCrop` on a window inside the image. -/
theorem cropLoop_spec (g : List Pixel) (w h ox oy cw ch : Nat) (hlen : g.length = w * h)
    (hw : w < 2147483648) (hh : h < 2147483648) (hx : ox + cw ≤ w) (hy : oy + ch ≤ h) :
    ∃ r, forUp ch (cropRow g (w : Int) (ox : Int) (oy : Int) (cw : Int))
        (List.replicate (cw * ch) Pixel.zero) = .ok r ∧ r.length = cw * ch ∧
      ∀ x y, x < cw → y < ch → r[y * cw + x]? = g[(oy + y) * w + ox + x]? := by
  have hinv := forUp_inv ch (cropRow g (w : Int) (ox : Int) (oy : Int) (cw : Int))
    (fun y r => r.length = cw * ch ∧
      ∀ x y', x < cw → y' < y → r[y' * cw + x]? = g[(oy + y') * w + ox + x]?)
    (List.replicate (cw * ch) Pixel.zero)
    ⟨List.length_replicate _ _, fun _ _ _ h => absurd h (Nat.not_lt_zero _)⟩ ?_
  · obtain ⟨r, hr, hl, hset⟩ := hinv
    exact ⟨r, hr, hl, hset⟩
  · intro y r hyc ⟨hl, hset⟩
    have f5 : (y + 1) * cw = y * cw + cw := Nat.succ_mul _ _
    have f6 : (y + 1) * cw ≤ ch * cw := Nat.mul_le_mul_right cw (by omega)
    have f7 : ch * cw = cw * ch := Nat.mul_comm _ _
    have f1 : (oy + y + 1) * w = (oy + y) * w + w := Nat.succ_mul _ _
    have f2 : (oy + y + 1) * w ≤ h * w := Nat.mul_le_mul_right w (by omega)
    have f3 : h * w = w * h := Nat.mul_comm _ _
    have hA : (r.take (y * cw)).length = y * cw := by
      rw [List.length_take]; omega
    have hB : ((g.drop ((oy + y) * w + ox)).take cw).length = cw := by
      rw [List.length_take, List.length_drop]; omega
    refine ⟨_, cropRow_eq g w h ox oy cw ch y hlen hw hh hx hy hyc r hl, ?_, ?_⟩
    · rw [List.length_append, List.length_append, hA, hB, List.length_drop]
      omega
    · intro x y' hxc hy'
      rcases Nat.lt_succ_iff_lt_or_eq.mp hy' with h1 | h1
      · have f9 : (y' + 1) * cw ≤ y * cw := Nat.mul_le_mul_right cw (by omega)
        have f10 : (y' + 1) * cw = y' * cw + cw := Nat.succ_mul _ _
        rw [List.append_assoc, List.getElem?_append_left (by omega),
          List.getElem?_take_of_lt (by omega)]
        exact hset x y' hxc h1
      · subst h1
        rw [List.getElem?_append_left (by rw [List.length_append, hA, hB]; omega),
          List.getElem?_append_right (by omega), hA,
          show y' * cw + x - y' * cw = x by omega,
          List.getElem?_take_of_lt hxc, List.getElem?_drop]
theorem forUp_ok_iter {σ : Type} (n : Nat) (body : Nat → σ → Result σ) (s r : σ)
    (h : forUp n body s = .ok r) : ∀ i, i < n → ∃ si si', body i si = .ok si' := by
  induction n generalizing r with
  | zero => intro i hi; omega
  | succ n ih =>
    rw [forUp_succ] at h
    cases hn : forUp n body s with
    | error e => rw [hn, error_bind] at h; exact absurd h (by simp)
    | ok s' =>
      rw [hn, ok_bind] at h
      intro i hi
      rcases Nat.lt_succ_iff_lt_or_eq.mp hi with h1 | h1
      · exact ih s' hn i h1
      · subst h1
        exact ⟨s', r, h⟩

/-- The body of the copy loop panics when no end index at or below the
unclamped row end makes a valid slice of the source with the row start. -/
theorem cropRow_panic (pixels : List Pixel) (width offsetX offsetY cropWidth : Int) (y : Nat)
    (croppedPixels : List Pixel)
    (h : ∀ hi : Int,
      hi ≤ wrapInt (wrapInt (wrapInt (wrapInt (offsetY + (y : Int)) * width) + offsetX) +
        cropWidth) →
      ¬ (0 ≤ wrapInt (wrapInt (wrapInt (offsetY + (y : Int)) * width) + offsetX) ∧
        wrapInt (wrapInt (wrapInt (offsetY + (y : Int)) * width) + offsetX) ≤ hi ∧
        hi ≤ (pixels.length : Int))) :
    cropRow pixels width offsetX offsetY cropWidth y croppedPixels =
      .error (.panic "slice bounds out of range") := by
  unfold cropRow
  simp only
  rw [slice_error _ _ _ (h _ (by split <;> omega))]
  rfl

theorem wrapInt_neg_of_overflow (n : Nat) (h1 : 9223372036854775808 ≤ n)
    (h2 : n < 18446744073709551616) : wrapInt (n : Int) < 0 := by
  unfold wrapInt
  omega

theorem not_slice_of_neg (a hi v len : Int) (hv : v < 0) (hhi : hi ≤ v) (ha : 0 ≤ a) :
    ¬ (0 ≤ a ∧ a ≤ hi ∧ hi ≤ len) := by
  omega

theorem not_slice_of_gt (a hi len : Int) (ha : len < a) :
    ¬ (0 ≤ a ∧ a ≤ hi ∧ hi ≤ len) := by
  omega

/-- When `offsetX + cropWidth` overflows 64 bits, the first row of the copy
loop panics. -/
theorem cropRow_overflow_x (g : List Pixel) (w h ox oy cw : Nat)
    (hw : w < 2147483648) (hh : h < 2147483648) (hox : ox < w) (hoy : oy < h)
    (hcw : cw < 9223372036854775808) (hov : 9223372036854775808 ≤ ox + cw)
    (cropped : List Pixel) :
    cropRow g (w : Int) (ox : Int) (oy : Int) (cw : Int) 0 cropped =
      .error (.panic "slice bounds out of range") := by
  have f1 : oy * w + ox < w * h := by
    have := idx_lt' ox oy w h hox hoy
    exact this
  have f4 := dims_mul_lt w h hw hh
  have b1 : oy + 0 < 9223372036854775808 := by omega
  have b2 : (oy + 0) * w < 9223372036854775808 := by rw [Nat.add_zero]; omega
  have b3 : (oy + 0) * w + ox < 9223372036854775808 := by rw [Nat.add_zero]; omega
  have b4 : 9223372036854775808 ≤ (oy + 0) * w + ox + cw := by omega
  have b5 : (oy + 0) * w + ox + cw < 18446744073709551616 := by rw [Nat.add_zero]; omega
  clear f1 f4
  have e1 : wrapInt ((oy : Int) + ((0 : Nat) : Int)) = ((oy + 0 : Nat) : Int) := by
    rw [← Nat.cast_add]; exact wrapInt_cast _ b1
  have e2 : wrapInt (((oy + 0 : Nat) : Int) * (w : Int)) = (((oy + 0) * w : Nat) : Int) := by
    rw [← Nat.cast_mul]; exact wrapInt_cast _ b2
  have e3 : wrapInt ((((oy + 0) * w : Nat) : Int) + (ox : Int)) =
      (((oy + 0) * w + ox : Nat) : Int) := by
    rw [← Nat.cast_add]; exact wrapInt_cast _ b3
  have e4 : wrapInt ((((oy + 0) * w + ox : Nat) : Int) + (cw : Int)) < 0 := by
    rw [← Nat.cast_add]
    exact wrapInt_neg_of_overflow _ b4 b5
  apply cropRow_panic
  rw [e1, e2, e3]
  intro hi hhi
  exact not_slice_of_neg _ _ _ _ e4 hhi (Int.ofNat_nonneg _)

/-- When `offsetY + cropHeight` overflows 64 bits, the copy loop panics at the
row after the last image row. -/
theorem cropRow_overflow_y (g : List Pixel) (w h ox oy cw : Nat) (hlen : g.length = w * h)
    (hw : w < 2147483648) (hh : h < 2147483648) (hw0 : 0 < w) (hoy : oy < h)
    (hox : ox < w) (cropped : List Pixel) :
    cropRow g (w : Int) (ox : Int) (oy : Int) (cw : Int) (h - oy + 1) cropped =
      .error (.panic "slice bounds out of range") := by
  have f1 : (h + 1) * w = h * w + w := Nat.succ_mul _ _
  have f2 : h * w = w * h := Nat.mul_comm _ _
  have f4 := dims_mul_lt w h hw hh
  have b0 : oy + (h - oy + 1) = h + 1 := by omega
  have b1 : h + 1 < 9223372036854775808 := by omega
  have b2 : (h + 1) * w < 9223372036854775808 := by omega
  have b3 : (h + 1) * w + ox < 9223372036854775808 := by omega
  have b4 : g.length < (h + 1) * w + ox := by omega
  clear f1 f2 f4
  have e1 : wrapInt ((oy : Int) + ((h - oy + 1 : Nat) : Int)) = ((h + 1 : Nat) : Int) := by
    rw [← Nat.cast_add, b0]; exact wrapInt_cast _ b1
  have e2 : wrapInt (((h + 1 : Nat) : Int) * (w : Int)) = (((h + 1) * w : Nat) : Int) := by
    rw [← Nat.cast_mul]; exact wrapInt_cast _ b2
  have e3 : wrapInt ((((h + 1) * w : Nat) : Int) + (ox : Int)) =
      (((h + 1) * w + ox : Nat) : Int) := by
    rw [← Nat.cast_add]; exact wrapInt_cast _ b3
  apply cropRow_panic
  rw [e1, e2, e3]
  intro hi _
  exact not_slice_of_gt _ _ _ (Int.ofNat_lt.mpr b4)

theorem parseAndValidateOptions_ok (opts : List Int) (h w ox oy cw ch : Int)
    (hv : parseAndValidateOptions opts h w = .ok (ox, oy, cw, ch)) :
    (opts = [ox, oy] ∧ cw = wrapInt (w - ox) ∧ ch = wrapInt (h - oy) ∨
      opts = [ox, oy, cw, ch]) ∧
    0 ≤ ox ∧ 0 ≤ oy ∧ ox < w ∧ oy < h ∧
    wrapInt (ox + cw) ≤ w ∧ wrapInt (oy + ch) ≤ h := by
  unfold parseAndValidateOptions at hv
  split at hv
  · exact absurd hv (by simp)
  · rename_i hlen
    rcases opts with _ | ⟨a, _ | ⟨b, _ | ⟨c, _ | ⟨d, _ | ⟨e, rest⟩⟩⟩⟩⟩
    · simp at hlen
    · simp at hlen
    · simp only at hv
      split at hv
      · exact absurd hv (by simp)
      · split at hv
        · exact absurd hv (by simp)
        · rename_i h1 h2
          injection hv with hv
          simp only [Prod.mk.injEq] at hv
          obtain ⟨rfl, rfl, rfl, rfl⟩ := hv
          refine ⟨Or.inl ⟨rfl, rfl, rfl⟩, ?_⟩
          omega
    · simp at hlen
    · simp only at hv
      split at hv
      · exact absurd hv (by simp)
      · split at hv
        · exact absurd hv (by simp)
        · rename_i h1 h2
          injection hv with hv
          simp only [Prod.mk.injEq] at hv
          obtain ⟨rfl, rfl, rfl, rfl⟩ := hv
          refine ⟨Or.inr rfl, ?_⟩
          omega
    · simp at hlen

theorem overflow_of_wrapInt_le (n w : Nat) (hw : w < 2147483648) (hn : n < 18446744073709551616)
    (hle : wrapInt (n : Int) ≤ (w : Int)) (hgt : w < n) : 9223372036854775808 ≤ n := by
  unfold wrapInt at hle
  omega

theorem wrapInt_zero : wrapInt 0 = 0 := by decide

/-- The copy loop of `ApplyCrop` after a successful validation of non-negative
options: if it returns, the result is the window at `(ox, oy)` of size
`cw x ch`; an offset plus extent that overflows 64 bits is only survived with
`ch = 0`. -/
theorem crop_core (g : List Pixel) (w h ox oy cw ch : Nat)
    (hw : w < 2147483648) (hh : h < 2147483648) (hlen : g.length = w * h)
    (hox : ox < w) (hoy : oy < h) (hcw : cw < 9223372036854775808)
    (hch : ch < 9223372036854775808)
    (hvx : wrapInt ((ox : Int) + (cw : Int)) ≤ (w : Int))
    (hvy : wrapInt ((oy : Int) + (ch : Int)) ≤ (h : Int))
    (r : List Pixel)
    (hloop : forUp ((ch : Int)).toNat (cropRow g (w : Int) (ox : Int) (oy : Int) (cw : Int))
      (List.replicate (wrapInt ((cw : Int) * (ch : Int))).toNat Pixel.zero) = .ok r) :
    r.length = cw * ch ∧
      ∀ x y, x < cw → y < ch →
        ∃ p, g[(oy + y) * w + ox + x]? = some p ∧ r[y * cw + x]? = some p := by
  rw [Int.toNat_ofNat] at hloop
  rcases Nat.eq_zero_or_pos ch with h0 | hpos
  · subst h0
    rw [forUp_zero, Nat.cast_zero, Int.mul_zero, wrapInt_zero] at hloop
    injection hloop with hloop
    subst hloop
    exact ⟨by simp, fun x y _ hy => absurd hy (Nat.not_lt_zero _)⟩
  · have hX : ox + cw ≤ w := by
      by_contra hcon
      rw [← Nat.cast_add] at hvx
      have hov := overflow_of_wrapInt_le (ox + cw) w hw (by omega) hvx (by omega)
      obtain ⟨si, si', hi⟩ := forUp_ok_iter _ _ _ _ hloop 0 hpos
      rw [cropRow_overflow_x g w h ox oy cw hw hh hox hoy hcw hov si] at hi
      exact absurd hi (by simp)
    have hY : oy + ch ≤ h := by
      by_contra hcon
      rw [← Nat.cast_add] at hvy
      have hov := overflow_of_wrapInt_le (oy + ch) h hh (by omega) hvy (by omega)
      obtain ⟨si, si', hi⟩ := forUp_ok_iter _ _ _ _ hloop (h - oy + 1) (by omega)
      rw [cropRow_overflow_y g w h ox oy cw hlen hw hh (by omega) hoy hox si] at hi
      exact absurd hi (by simp)
    have f4 := dims_mul_lt w h hw hh
    have f8 : cw * ch ≤ w * h := Nat.mul_le_mul (by omega) (by omega)
    have hprod : wrapInt ((cw : Int) * (ch : Int)) = ((cw * ch : Nat) : Int) := by
      rw [← Nat.cast_mul]; exact wrapInt_cast _ (by omega)
    rw [hprod, Int.toNat_ofNat] at hloop
    obtain ⟨r2, hr2, hl2, hs2⟩ := cropLoop_spec g w h ox oy cw ch hlen hw hh hX hY
    rw [hr2] at hloop
    injection hloop with hloop
    subst hloop
    refine ⟨hl2, ?_⟩
    intro x y hx hy
    have f1 : (oy + y + 1) * w = (oy + y) * w + w := Nat.succ_mul _ _
    have f2 : (oy + y + 1) * w ≤ h * w := Nat.mul_le_mul_right w (by omega)
    have f3 : h * w = w * h := Nat.mul_comm _ _
    have hi : (oy + y) * w + ox + x < g.length := by omega
    exact ⟨g[(oy + y) * w + ox + x], List.getElem?_eq_getElem hi,
      by rw [hs2 x y hx hy, List.getElem?_eq_getElem hi]⟩

theorem wrapInt_sub_cast (w ox : Nat) (hw : w < 2147483648) (hox : ox < w) :
    wrapInt ((w : Int) - (ox : Int)) = ((w - ox : Nat) : Int) := by
  unfold wrapInt
  omega

/-- C8: for every grid `g` of length `w * h` (with `w`, `h` values of the
header's `int32` fields) and every crop value that `ApplyCrop` accepts, the
value is two or four integers; with `(offsetX, offsetY, cropWidth, cropHeight)`
the four integers, or `(offsetX, offsetY, w - offsetX, h - offsetY)` for a
2-integer value, the returned dimensions are `(cropWidth, cropHeight)`, the
returned grid has length `cropWidth * cropHeight`, and its pixel at
`y * cropWidth + x` is the pixel of `g` at `(offsetY + y) * w + offsetX + x` for
all `x < cropWidth`, `y < cropHeight`. -/
theorem ApplyCrop_accepted (g : List Pixel) (w h : Nat)
    (hw : w < 2147483648) (hh : h < 2147483648) (hlen : g.length = w * h) (s : String)
    (r : List Pixel) (cw ch : Int) (hacc : ApplyCrop g w h s = .ok (r, cw, ch)) :
    ∃ ox oy cwn chn : Nat, cw = (cwn : Int) ∧ ch = (chn : Int) ∧ ox < w ∧ oy < h ∧
      (parseOptions s = .ok [(ox : Int), (oy : Int), cw, ch] ∨
        (parseOptions s = .ok [(ox : Int), (oy : Int)] ∧ cwn = w - ox ∧ chn = h - oy)) ∧
      r.length = cwn * chn ∧
      ∀ x y, x < cwn → y < chn →
        ∃ p, g[(oy + y) * w + ox + x]? = some p ∧ r[y * cwn + x]? = some p := by
  unfold ApplyCrop at hacc
  cases hp : parseOptions s with
  | error e => rw [hp] at hacc; exact absurd hacc (by simp [bind, Except.bind])
  | ok opts =>
    rw [hp, ok_bind] at hacc
    cases hv : parseAndValidateOptions opts (h : Int) (w : Int) with
    | error e => rw [hv] at hacc; exact absurd hacc (by simp [bind, Except.bind])
    | ok t =>
      obtain ⟨ox, oy, cw', ch'⟩ := t
      rw [hv, ok_bind] at hacc
      simp only at hacc
      split at hacc
      · exact absurd hacc (by simp [throw, throwThe, MonadExceptOf.throw])
      · cases hloop : forUp ch'.toNat (cropRow g (w : Int) ox oy cw')
            (List.replicate (wrapInt (cw' * ch')).toNat Pixel.zero) with
        | error e => rw [hloop] at hacc; exact absurd hacc (by simp [bind, Except.bind])
        | ok r' =>
          rw [hloop, ok_bind] at hacc
          injection hacc with hacc
          simp only [Prod.mk.injEq] at hacc
          obtain ⟨rfl, rfl, rfl⟩ := hacc
          have hnn := parseOptions_nonneg s opts hp
          obtain ⟨hshape, hox0, hoy0, hoxw, hoyh, hvx, hvy⟩ :=
            parseAndValidateOptions_ok opts _ _ _ _ _ _ hv
          obtain ⟨oxn, rfl⟩ := Int.eq_ofNat_of_zero_le hox0
          obtain ⟨oyn, rfl⟩ := Int.eq_ofNat_of_zero_le hoy0
          have hoxw' : oxn < w := Int.ofNat_lt.mp hoxw
          have hoyh' : oyn < h := Int.ofNat_lt.mp hoyh
          rcases hshape with ⟨hopts, hcw, hch⟩ | hopts
          · rw [wrapInt_sub_cast w oxn hw hoxw'] at hcw
            rw [wrapInt_sub_cast h oyn hh hoyh'] at hch
            subst hcw hch
            obtain ⟨hl, hpix⟩ := crop_core g w h oxn oyn (w - oxn) (h - oyn) hw hh hlen
              hoxw' hoyh' (by omega) (by omega) hvx hvy r' hloop
            exact ⟨oxn, oyn, w - oxn, h - oyn, rfl, rfl, hoxw', hoyh',
              Or.inr ⟨by rw [hopts], rfl, rfl⟩, hl, hpix⟩
          · have hcw := hnn cw' (by rw [hopts]; simp)
            have hch := hnn ch' (by rw [hopts]; simp)
            obtain ⟨cwn, rfl⟩ := Int.eq_ofNat_of_zero_le hcw.1
            obtain ⟨chn, rfl⟩ := Int.eq_ofNat_of_zero_le hch.1
            obtain ⟨hl, hpix⟩ := crop_core g w h oxn oyn cwn chn hw hh hlen
              hoxw' hoyh' (Int.ofNat_lt.mp hcw.2) (Int.ofNat_lt.mp hch.2) hvx hvy r' hloop
            exact ⟨oxn, oyn, cwn, chn, rfl, rfl, hoxw', hoyh',
              Or.inl (by rw [hopts]), hl, hpix⟩

/-- C8 witness: the window of width 2 and height 2 at column 1 of the 3 x 2
sample grid. -/
theorem ApplyCrop_accepted_witness :
    (3 < 2147483648 ∧ 2 < 2147483648 ∧ sampleGrid.length = 3 * 2 ∧
      ApplyCrop sampleGrid (3 : Nat) (2 : Nat) "1-0-2-2" =
        .ok ([samplePixel 1, samplePixel 2, samplePixel 4, samplePixel 5], 2, 2)) ∧
    (∃ ox oy cwn chn : Nat, (2 : Int) = (cwn : Int) ∧ (2 : Int) = (chn : Int) ∧
      ox < 3 ∧ oy < 2 ∧
      (parseOptions "1-0-2-2" = .ok [(ox : Int), (oy : Int), 2, 2] ∨
        (parseOptions "1-0-2-2" = .ok [(ox : Int), (oy : Int)] ∧
          cwn = 3 - ox ∧ chn = 2 - oy)) ∧
      [samplePixel 1, samplePixel 2, samplePixel 4, samplePixel 5].length = cwn * chn ∧
      ∀ x y, x < cwn → y < chn →
        ∃ p, sampleGrid[(oy + y) * 3 + ox + x]? = some p ∧
          [samplePixel 1, samplePixel 2, samplePixel 4, samplePixel 5][y * cwn + x]? =
            some p) :=
  ⟨⟨by decide, by decide, rfl, by decide⟩,
    ApplyCrop_accepted sampleGrid 3 2 (by decide) (by decide) rfl "1-0-2-2" _ 2 2
      (by decide)⟩

theorem parseOptions_full (w h : Nat) (hw : w < 2147483648) (hh : h < 2147483648) :
    parseOptions ("0-0-" ++ toString w ++ "-" ++ toString h) =
      .ok [0, 0, (w : Int), (h : Int)] := by
  have hl : ("0-0-" ++ toString w ++ "-" ++ toString h).toList =
      ['0'] ++ '-' :: (['0'] ++ '-' :: ((toString w).toList ++ '-' :: (toString h).toList)) := by
    simp only [String.toList, String.data_append]
    simp
  unfold parseOptions
  rw [hl, splitOn_append '-' ['0'] _ (by decide), splitOn_append '-' ['0'] _ (by decide),
    splitOn_append '-' _ _ (repr_no_dash w), splitOn_no_sep '-' _ (repr_no_dash h)]
  have h0 : Atoi ['0'] = .ok 0 := by decide
  simp only [List.mapM_cons, List.mapM_nil, h0, Atoi_repr w (by omega), Atoi_repr h (by omega),
    ok_bind, pure_eq_ok]

theorem parseAndValidateOptions_full (w h : Nat) (hw0 : 0 < w) (hh0 : 0 < h)
    (hw : w < 2147483648) (hh : h < 2147483648) :
    parseAndValidateOptions [0, 0, (w : Int), (h : Int)] (h : Int) (w : Int) =
      .ok (0, 0, (w : Int), (h : Int)) ∧
    parseAndValidateOptions [0, 0] (h : Int) (w : Int) = .ok (0, 0, (w : Int), (h : Int)) := by
  have e1 : wrapInt (0 + (w : Int)) = (w : Int) := by
    rw [Int.zero_add]; exact wrapInt_cast _ (by omega)
  have e2 : wrapInt (0 + (h : Int)) = (h : Int) := by
    rw [Int.zero_add]; exact wrapInt_cast _ (by omega)
  have e3 : wrapInt ((w : Int) - 0) = (w : Int) := by
    rw [Int.sub_zero]; exact wrapInt_cast _ (by omega)
  have e4 : wrapInt ((h : Int) - 0) = (h : Int) := by
    rw [Int.sub_zero]; exact wrapInt_cast _ (by omega)
  have c1 : ¬ ((0 : Int) < 0 ∨ (0 : Int) < 0 ∨ (0 : Int) ≥ (w : Int) ∨ (0 : Int) ≥ (h : Int)) := by
    omega
  have c2 : ¬ ((w : Int) > (w : Int) ∨ (h : Int) > (h : Int)) := by omega
  constructor
  · unfold parseAndValidateOptions
    rw [if_neg (by simp)]
    simp only [e1, e2, if_neg c1, if_neg c2]
  · unfold parseAndValidateOptions
    rw [if_neg (by simp)]
    simp only [e1, e2, e3, e4, if_neg c1, if_neg c2]

theorem ApplyCrop_of_full (g : List Pixel) (w h : Nat) (hw : w < 2147483648)
    (hh : h < 2147483648) (hlen : g.length = w * h) (s : String) (opts : List Int)
    (hp : parseOptions s = .ok opts)
    (hv : parseAndValidateOptions opts (h : Int) (w : Int) = .ok (0, 0, (w : Int), (h : Int))) :
    ApplyCrop g w h s = .ok (g, (w : Int), (h : Int)) := by
  have f4 := dims_mul_lt w h hw hh
  have hprod : wrapInt ((w : Int) * (h : Int)) = ((w * h : Nat) : Int) := by
    rw [← Nat.cast_mul]; exact wrapInt_cast _ (by omega)
  obtain ⟨r, hr, hl, hs⟩ := cropLoop_spec g w h 0 0 w h hlen hw hh (by omega) (by omega)
  have he : r = g := by
    apply grid_ext r g w h hl hlen
    intro x y hx hy
    have e := hs x y hx hy
    rw [Nat.zero_add, Nat.add_zero] at e
    exact e
  subst he
  unfold ApplyCrop
  rw [hp, ok_bind, hv, ok_bind]
  simp only [hprod, Int.toNat_ofNat]
  rw [if_neg (by omega)]
  have hr' : forUp h (cropRow r (w : Int) 0 0 (w : Int)) (List.replicate (w * h) Pixel.zero) =
      .ok r := hr
  rw [hr', ok_bind]
  rfl

/-- C9: for every `w`, `h > 0` (values of the header's `int32` fields) and grid
`g` of length `w * h`, `ApplyCrop` with the value "0-0-<w>-<h>", and likewise with
the 2-integer value "0-0", succeeds and returns `g` with the dimensions `(w, h)`. -/
theorem ApplyCrop_full_window (g : List Pixel) (w h : Nat) (hw0 : 0 < w) (hh0 : 0 < h)
    (hw : w < 2147483648) (hh : h < 2147483648) (hlen : g.length = w * h) :
    ApplyCrop g w h ("0-0-" ++ toString w ++ "-" ++ toString h) = .ok (g, (w : Int), (h : Int)) ∧
    ApplyCrop g w h "0-0" = .ok (g, (w : Int), (h : Int)) := by
  obtain ⟨hv4, hv2⟩ := parseAndValidateOptions_full w h hw0 hh0 hw hh
  exact ⟨ApplyCrop_of_full g w h hw hh hlen _ _ (parseOptions_full w h hw hh) hv4,
    ApplyCrop_of_full g w h hw hh hlen "0-0" [0, 0] (by decide) hv2⟩

/-- C9 witness: the 3 x 2 sample grid with the values "0-0-3-2" and "0-0". -/
theorem ApplyCrop_full_window_witness :
    (0 < 3 ∧ 0 < 2 ∧ 3 < 2147483648 ∧ 2 < 2147483648 ∧ sampleGrid.length = 3 * 2) ∧
    (ApplyCrop sampleGrid (3 : Nat) (2 : Nat) ("0-0-" ++ toString 3 ++ "-" ++ toString 2) =
        .ok (sampleGrid, ((3 : Nat) : Int), ((2 : Nat) : Int)) ∧
      ApplyCrop sampleGrid (3 : Nat) (2 : Nat) "0-0" =
        .ok (sampleGrid, ((3 : Nat) : Int), ((2 : Nat) : Int))) :=
  ⟨⟨by decide, by decide, by decide, by decide, rfl⟩,
    ApplyCrop_full_window sampleGrid 3 2 (by decide) (by decide) (by decide) (by decide) rfl⟩

theorem parseOptions_four (a b c d : Nat) (ha : a < 9223372036854775808)
    (hb : b < 9223372036854775808) (hc : c < 9223372036854775808)
    (hd : d < 9223372036854775808) :
    parseOptions (toString a ++ "-" ++ toString b ++ "-" ++ toString c ++ "-" ++ toString d) =
      .ok [(a : Int), (b : Int), (c : Int), (d : Int)] := by
  have hl : (toString a ++ "-" ++ toString b ++ "-" ++ toString c ++ "-" ++ toString d).toList =
      (toString a).toList ++ '-' :: ((toString b).toList ++ '-' ::
        ((toString c).toList ++ '-' :: (toString d).toList)) := by
    simp only [String.toList, String.data_append]
    simp
  unfold parseOptions
  rw [hl, splitOn_append '-' _ _ (repr_no_dash a), splitOn_append '-' _ _ (repr_no_dash b),
    splitOn_append '-' _ _ (repr_no_dash c), splitOn_no_sep '-' _ (repr_no_dash d)]
  simp only [List.mapM_cons, List.mapM_nil, Atoi_repr a ha, Atoi_repr b hb, Atoi_repr c hc,
    Atoi_repr d hd, ok_bind, pure_eq_ok]

theorem parseAndValidateOptions_four (w h a b c d : Nat) (hw : w < 2147483648)
    (hh : h < 2147483648) (hc : c < 4611686018427387904) (hd : d < 4611686018427387904) :
    parseAndValidateOptions [(a : Int), (b : Int), (c : Int), (d : Int)] (h : Int) (w : Int) =
      if a ≥ w ∨ b ≥ h then .error (.err "crop offset is out of bounds")
      else if a + c > w ∨ b + d > h then .error (.err "crop dimensions exceed image bounds")
      else .ok ((a : Int), (b : Int), (c : Int), (d : Int)) := by
  unfold parseAndValidateOptions
  rw [if_neg (by simp)]
  simp only
  by_cases h1 : a ≥ w ∨ b ≥ h
  · rw [if_pos h1, if_pos (by omega)]
  · rw [if_neg h1, if_neg (by omega)]
    have e1 : wrapInt ((a : Int) + (c : Int)) = ((a + c : Nat) : Int) := by
      rw [← Nat.cast_add]; exact wrapInt_cast _ (by omega)
    have e2 : wrapInt ((b : Int) + (d : Int)) = ((b + d : Nat) : Int) := by
      rw [← Nat.cast_add]; exact wrapInt_cast _ (by omega)
    rw [e1, e2]
    by_cases h2 : a + c > w ∨ b + d > h
    · rw [if_pos h2, if_pos (by omega)]
    · rw [if_neg h2, if_neg (by omega)]

/-- Without 64-bit overflow the validation of `ApplyCrop` is exact: for a grid
of length `w * h` and four integers below `2^62` given as the dash-joined
value, `ApplyCrop` returns an error exactly when one of `offsetX < w`,
`offsetY < h`, `offsetX + cropWidth <= w`, `offsetY + cropHeight <= h` is
violated, and a 100 x 100 image with the value "90-0-20-20" is rejected. -/
theorem ApplyCrop_error_iff_of_small (g : List Pixel) (w h a b c d : Nat)
    (hw : w < 2147483648) (hh : h < 2147483648) (hlen : g.length = w * h)
    (ha : a < 4611686018427387904) (hb : b < 4611686018427387904)
    (hc : c < 4611686018427387904) (hd : d < 4611686018427387904) :
    ((∃ msg, ApplyCrop g w h
        (toString a ++ "-" ++ toString b ++ "-" ++ toString c ++ "-" ++ toString d) =
          .error (.err msg)) ↔
      ¬ (a < w ∧ b < h ∧ a + c ≤ w ∧ b + d ≤ h)) ∧
    (∀ g' : List Pixel, ApplyCrop g' 100 100 "90-0-20-20" =
      .error (.err "crop dimensions exceed image bounds")) := by
  refine ⟨?_, fun g' => rfl⟩
  have hp := parseOptions_four a b c d (by omega) (by omega) (by omega) (by omega)
  have hv := parseAndValidateOptions_four w h a b c d hw hh hc hd
  by_cases h1 : a ≥ w ∨ b ≥ h
  · rw [if_pos h1] at hv
    constructor
    · intro _; omega
    · intro _
      refine ⟨"crop offset is out of bounds", ?_⟩
      unfold ApplyCrop
      rw [hp, ok_bind, hv]
      rfl
  · rw [if_neg h1] at hv
    by_cases h2 : a + c > w ∨ b + d > h
    · rw [if_pos h2] at hv
      constructor
      · intro _; omega
      · intro _
        refine ⟨"crop dimensions exceed image bounds", ?_⟩
        unfold ApplyCrop
        rw [hp, ok_bind, hv]
        rfl
    · rw [if_neg h2] at hv
      have f4 := dims_mul_lt w h hw hh
      have f8 : c * d ≤ w * h := Nat.mul_le_mul (by omega) (by omega)
      have hprod : wrapInt ((c : Int) * (d : Int)) = ((c * d : Nat) : Int) := by
        rw [← Nat.cast_mul]; exact wrapInt_cast _ (by omega)
      obtain ⟨r, hr, -, -⟩ := cropLoop_spec g w h a b c d hlen hw hh (by omega) (by omega)
      have hok : ApplyCrop g w h
          (toString a ++ "-" ++ toString b ++ "-" ++ toString c ++ "-" ++ toString d) =
            .ok (r, (c : Int), (d : Int)) := by
        unfold ApplyCrop
        rw [hp, ok_bind, hv, ok_bind]
        simp only [hprod, Int.toNat_ofNat]
        rw [if_neg (by omega)]
        have hr' : forUp d (cropRow g (w : Int) (a : Int) (b : Int) (c : Int))
            (List.replicate (c * d) Pixel.zero) = .ok r := hr
        rw [hr', ok_bind]
        rfl
      constructor
      · intro ⟨msg, hmsg⟩
        rw [hok] at hmsg
        exact absurd hmsg (by simp)
      · intro hviol
        exact absurd ⟨by omega, by omega, by omega, by omega⟩ hviol

/-- C7 (the code departs from the claim): on a 100 x 100 image the value
"1-0-9223372036854775807-0" violates `offsetX + cropWidth <= w`, but the sum
wraps to a negative 64-bit `int`, the check passes and `ApplyCrop` returns an
empty grid with the dimensions `(9223372036854775807, 0)` and no error. -/
theorem ApplyCrop_overflow_accepted (g : List Pixel) :
    ApplyCrop g 100 100 "1-0-9223372036854775807-0" = .ok ([], 9223372036854775807, 0) ∧
      ¬ ((1 : Int) + 9223372036854775807 ≤ 100) :=
  ⟨rfl, by decide⟩

/-! ## Grayscale and negative (`filter.go`) -/

/-- The `float64` gray level of a gray pixel `(v, v, v)` is `v` or `v - 1`, under
every permitted fusion of the multiplications and additions. -/
theorem luma64_gray_level : ∀ (f : Fin 3) (s : Bool) (v : Fin 256),
    luma64 ⟨f, s⟩ v v v = v ∨ (luma64 ⟨f, s⟩ v v v).val + 1 = v.val := by
  decide!

/-- The gray level of `(R, G, B) = (0, 2, 0)` is 1 and that of `(1, 1, 1)` is 0,
under every permitted fusion. -/
theorem luma64_drops : ∀ (f : Fin 3) (s : Bool),
    luma64 ⟨f, s⟩ 0 2 0 = 1 ∧ luma64 ⟨f, s⟩ 1 1 1 = 0 := by
  decide!

/-- Without fusion, exactly 65 of the 256 gray levels are lowered by one. -/
theorem luma64_lowered_count :
    ((List.finRange 256).filter (fun v => luma64 Fusion.none v v v ≠ v)).length = 65 := by
  decide!

/-- The number of gray levels that are lowered by one, for each of the six
permitted evaluations: 65 without fusion. -/
theorem luma64_lowered_table : ∀ (f : Fin 3) (s : Bool),
    ((List.finRange 256).filter (fun v => luma64 ⟨f, s⟩ v v v ≠ v)).length =
      (if s then (if f = 0 then 73 else if f = 1 then 75 else 70)
        else (if f = 2 then 56 else 65)) := by
  decide!

theorem ApplyFilter_grayscale_eq (luma : Byte → Byte → Byte → Byte) (g : List Pixel)
    (w h : Nat) :
    ApplyFilter luma g w h "grayscale" =
      .ok (g.map (fun p =>
        { Red := luma p.Red p.Green p.Blue, Green := luma p.Red p.Green p.Blue,
          Blue := luma p.Red p.Green p.Blue })) := by
  unfold ApplyFilter
  rw [if_neg (by decide), if_neg (by decide), if_neg (by decide), if_neg (by decide),
    if_neg (by decide), if_pos (by decide)]

theorem ApplyFilter_negative_eq (luma : Byte → Byte → Byte → Byte) (g : List Pixel)
    (w h : Nat) :
    ApplyFilter luma g w h "negative" =
      .ok (g.map (fun p =>
        { Red := 255 - p.Red, Green := 255 - p.Green, Blue := 255 - p.Blue })) := by
  unfold ApplyFilter
  rw [if_neg (by decide), if_neg (by decide), if_neg (by decide), if_neg (by decide),
    if_neg (by decide), if_neg (by decide), if_pos (by decide)]

theorem byte_negate : ∀ c : Byte, (255 - c).val = 255 - c.val ∧ 255 - (255 - c) = c := by
  decide!

/-- C11 (as stated) fails: under no permitted evaluation of the `float64`
expression is "grayscale" idempotent on every grid. The one-pixel grid
`(R, G, B) = (0, 2, 0)` becomes `(1, 1, 1)` and then `(0, 0, 0)`: the gray level
of `v = 1` is `uint8(0.299 + 0.587 + 0.114) = 0`. -/
theorem ApplyFilter_grayscale_not_idempotent :
    ¬ ∃ mode : Fusion, ∀ (g r1 r2 : List Pixel) (w h : Nat),
        ApplyFilter (luma64 mode) g w h "grayscale" = .ok r1 →
        ApplyFilter (luma64 mode) r1 w h "grayscale" = .ok r2 → r2 = r1 := by
  rintro ⟨⟨f, s⟩, hall⟩
  have hx := hall [{ Red := 0, Green := 2, Blue := 0 }] _ _ 1 1
    (ApplyFilter_grayscale_eq _ _ _ _) (ApplyFilter_grayscale_eq _ _ _ _)
  obtain ⟨h1, h0⟩ := luma64_drops f s
  simp only [List.map_cons, List.map_nil, h1, h0] at hx
  revert hx
  decide

/-- C11 (amended): for every grid `g` and every permitted evaluation of the
`float64` expression, "grayscale" succeeds and replaces each pixel by
`(L, L, L)` with `L = uint8(0.299*R + 0.587*G + 0.114*B)`; a second application
succeeds and gives at each pixel a gray level `L2` that is `L` or `L - 1`. For
every gray level `v` the level of `(v, v, v)` is `v` or `v - 1`, and it is 0 for
`v = 1`. The number of levels `v` that are lowered to `v - 1` is 65 when no
multiplication is fused with an addition, and 73, 65, 75, 56, 70 under the five
fused evaluations. Under every evaluation the one-pixel grid
`(R, G, B) = (0, 2, 0)` becomes `(1, 1, 1)` after one application and
`(0, 0, 0)` after two. -/
theorem ApplyFilter_grayscale_twice (mode : Fusion) (g : List Pixel) (w h : Nat) :
    (∃ r1 r2, ApplyFilter (luma64 mode) g w h "grayscale" = .ok r1 ∧
      ApplyFilter (luma64 mode) r1 w h "grayscale" = .ok r2 ∧
      r1.length = g.length ∧ r2.length = g.length ∧
      ∀ (i : Nat) (p : Pixel), g[i]? = some p →
        ∃ L L2 : Byte, L = luma64 mode p.Red p.Green p.Blue ∧
          r1[i]? = some { Red := L, Green := L, Blue := L } ∧
          r2[i]? = some { Red := L2, Green := L2, Blue := L2 } ∧
          (L2 = L ∨ L2.val + 1 = L.val)) ∧
    (∀ v : Byte, luma64 mode v v v = v ∨ (luma64 mode v v v).val + 1 = v.val) ∧
    luma64 mode 1 1 1 = 0 ∧
    ((List.finRange 256).filter (fun v => luma64 Fusion.none v v v ≠ v)).length = 65 ∧
    ((List.finRange 256).filter (fun v => luma64 mode v v v ≠ v)).length =
      (if mode.second then (if mode.first = 0 then 73 else if mode.first = 1 then 75 else 70)
        else (if mode.first = 2 then 56 else 65)) ∧
    ApplyFilter (luma64 mode) [{ Red := 0, Green := 2, Blue := 0 }] w h "grayscale" =
      .ok [{ Red := 1, Green := 1, Blue := 1 }] ∧
    ApplyFilter (luma64 mode) [{ Red := 1, Green := 1, Blue := 1 }] w h "grayscale" =
      .ok [{ Red := 0, Green := 0, Blue := 0 }] := by
  obtain ⟨f, s⟩ := mode
  obtain ⟨hd1, hd0⟩ := luma64_drops f s
  refine ⟨⟨_, _, ApplyFilter_grayscale_eq _ _ _ _, ApplyFilter_grayscale_eq _ _ _ _,
    List.length_map _ _, ?_, ?_⟩, luma64_gray_level f s, hd0, luma64_lowered_count,
    luma64_lowered_table f s, ?_, ?_⟩
  · rw [List.length_map, List.length_map]
  · intro i p hp
    have h1 := getElem?_map_some (fun p : Pixel =>
      ({ Red := luma64 ⟨f, s⟩ p.Red p.Green p.Blue, Green := luma64 ⟨f, s⟩ p.Red p.Green p.Blue,
         Blue := luma64 ⟨f, s⟩ p.Red p.Green p.Blue } : Pixel)) g i p hp
    have h2 := getElem?_map_some (fun p : Pixel =>
      ({ Red := luma64 ⟨f, s⟩ p.Red p.Green p.Blue, Green := luma64 ⟨f, s⟩ p.Red p.Green p.Blue,
         Blue := luma64 ⟨f, s⟩ p.Red p.Green p.Blue } : Pixel)) _ i _ h1
    dsimp only at h1 h2
    generalize luma64 ⟨f, s⟩ p.Red p.Green p.Blue = L at h1 h2
    exact ⟨L, luma64 ⟨f, s⟩ L L L, rfl, h1, h2, luma64_gray_level f s L⟩
  · rw [ApplyFilter_grayscale_eq]
    simp only [List.map_cons, List.map_nil, hd1]
  · rw [ApplyFilter_grayscale_eq]
    simp only [List.map_cons, List.map_nil, hd0]

/-- C12: for every grid `g`, "negative" succeeds and replaces each channel `c` of
each pixel by `255 - c` as a number (no wraparound), and applying it to the
result returns `g`. -/
theorem ApplyFilter_negative_involutive (luma : Byte → Byte → Byte → Byte)
    (g : List Pixel) (w h : Nat) :
    ∃ r, ApplyFilter luma g w h "negative" = .ok r ∧ r.length = g.length ∧
      (∀ (i : Nat) (p : Pixel), g[i]? = some p →
        ∃ q : Pixel, r[i]? = some q ∧ q.Red.val = 255 - p.Red.val ∧
          q.Green.val = 255 - p.Green.val ∧ q.Blue.val = 255 - p.Blue.val) ∧
      ApplyFilter luma r w h "negative" = .ok g := by
  refine ⟨_, ApplyFilter_negative_eq _ _ _ _, List.length_map _ _, ?_, ?_⟩
  · intro i p hp
    exact ⟨_, getElem?_map_some _ g i p hp, (byte_negate _).1, (byte_negate _).1,
      (byte_negate _).1⟩
  · rw [ApplyFilter_negative_eq, List.map_map]
    congr 1
    conv_rhs => rw [← List.map_id g]
    apply List.map_congr_left
    intro p _
    simp only [Function.comp, (byte_negate _).2, id]

/-! ## Unsupported secondary header sizes (`header.go`) -/

theorem getBMPHeader_getU32 (file : List Byte) (s : Nat) (h : leU32At file 14 = some s) :
    ∃ hdr rest, getBMPHeader file = .ok (hdr, file.drop 14) ∧
      getU32 (file.drop 14) = .ok (s, rest) := by
  unfold leU32At at h
  rcases file with _ | ⟨a0, _ | ⟨a1, _ | ⟨a2, _ | ⟨a3, _ | ⟨a4, _ | ⟨a5, _ | ⟨a6, _ | ⟨a7,
    _ | ⟨a8, _ | ⟨a9, _ | ⟨a10, _ | ⟨a11, _ | ⟨a12, _ | ⟨a13, _ | ⟨b0, _ | ⟨b1, _ | ⟨b2,
    _ | ⟨b3, rest⟩⟩⟩⟩⟩⟩⟩⟩⟩⟩⟩⟩⟩⟩⟩⟩⟩⟩
  all_goals try (simp at h; done)
  simp only [List.drop_succ_cons, List.drop_zero, Option.some.injEq] at h
  subst h
  exact ⟨_, rest, rfl, rfl⟩

/-- C16: whenever the `uint32` stored little-endian at offset 14 of the input is
not 40, 108 or 124, `readHeaders` returns the error for an unsupported format,
hence no header pair. -/
theorem readHeaders_unsupported_size (file : List Byte) (s : Nat)
    (hs : leU32At file 14 = some s) (hne : s ≠ 40 ∧ s ≠ 108 ∧ s ≠ 124) :
    readHeaders file = .error (.err "unsupported BMP format") ∧
    ∀ p : BMPHeader × DIBHeader, readHeaders file ≠ .ok p := by
  obtain ⟨hdr, rest, h1, h2⟩ := getBMPHeader_getU32 file s hs
  have hr : readHeaders file = .error (.err "unsupported BMP format") := by
    unfold readHeaders
    rw [h1]
    simp only [field_ok, ok_bind]
    rw [h2]
    simp only [field_ok, ok_bind]
    rw [if_pos hne]
    rfl
  refine ⟨hr, ?_⟩
  intro p hp
  rw [hr] at hp
  cases hp

/-- Witness for C16: a 64-byte input declaring the secondary header size 50. -/
theorem readHeaders_unsupported_size_witness :
    leU32At (List.replicate 14 0 ++ [50, 0, 0, 0] ++ List.replicate 46 0) 14 = some 50 ∧
    (readHeaders (List.replicate 14 0 ++ [50, 0, 0, 0] ++ List.replicate 46 0) =
        .error (.err "unsupported BMP format") ∧
      ∀ p : BMPHeader × DIBHeader,
        readHeaders (List.replicate 14 0 ++ [50, 0, 0, 0] ++ List.replicate 46 0) ≠ .ok p) :=
  ⟨by decide, readHeaders_unsupported_size _ 50 (by decide) (by decide)⟩

/-! ## The layout of the written headers (`io.go`) -/

/-- C20: for every header pair with nine endpoints (the `[9]int32` array) and
`DibHeaderSize` 40, 108 or 124, `writeHeaders` emits `14 + DibHeaderSize` bytes:
the 14 bytes of the primary header, then the 40 bytes of the size and the ten
common fields, then the 68 bytes of the version-4 fields when the size is at
least 108 (nothing otherwise), then the 16 bytes of the version-5 fields when the
size is 124 (nothing otherwise); every field is written least significant byte
first. -/
theorem writeHeaders_layout (h : BMPHeader) (d : DIBHeader) (hE : d.Endpoints.length = 9)
    (hs : d.DibHeaderSize = 40 ∨ d.DibHeaderSize = 108 ∨ d.DibHeaderSize = 124) :
    (writeHeaders h d).length = 14 + d.DibHeaderSize ∧
    writeHeaders h d =
      ([h.Signature.1, h.Signature.2] ++ putU32 h.FileSize ++ putU32 h.Reserved ++
        putU32 h.DataOffset) ++
      (putU32 d.DibHeaderSize ++
        v3Bytes d (if d.DibHeaderSize = 40 ∧ d.Compression = 0 then 0 else d.ImageSize)) ++
      (if d.DibHeaderSize ≥ 108 then v4Bytes d else []) ++
      (if d.DibHeaderSize = 124 then v5Bytes d else []) ∧
    ([h.Signature.1, h.Signature.2] ++ putU32 h.FileSize ++ putU32 h.Reserved ++
        putU32 h.DataOffset).length = 14 ∧
    (putU32 d.DibHeaderSize ++
        v3Bytes d (if d.DibHeaderSize = 40 ∧ d.Compression = 0 then 0 else d.ImageSize)).length
      = 40 ∧
    (if d.DibHeaderSize ≥ 108 then v4Bytes d else []).length =
      (if d.DibHeaderSize ≥ 108 then 68 else 0) ∧
    (if d.DibHeaderSize = 124 then v5Bytes d else []).length =
      (if d.DibHeaderSize = 124 then 16 else 0) ∧
    (∀ n : Nat, putU32 n =
      [toByte n, toByte (n / 256), toByte (n / 65536), toByte (n / 16777216)]) ∧
    (∀ n : Nat, putU16 n = [toByte n, toByte (n / 256)]) ∧
    (∀ i : Int, putI32 i = putU32 (i % 4294967296).toNat) := by
  have h14 : ([h.Signature.1, h.Signature.2] ++ putU32 h.FileSize ++ putU32 h.Reserved ++
        putU32 h.DataOffset).length = 14 := rfl
  have h40 : (putU32 d.DibHeaderSize ++
        v3Bytes d (if d.DibHeaderSize = 40 ∧ d.Compression = 0 then 0 else d.ImageSize)).length
      = 40 := by
    rw [List.length_append, putU32_length, v3Bytes_length]
  have h4 : (if d.DibHeaderSize ≥ 108 then v4Bytes d else []).length =
      (if d.DibHeaderSize ≥ 108 then 68 else 0) := by
    split
    · exact v4Bytes_length d hE
    · rfl
  have h5 : (if d.DibHeaderSize = 124 then v5Bytes d else []).length =
      (if d.DibHeaderSize = 124 then 16 else 0) := by
    split
    · exact v5Bytes_length d
    · rfl
  have heq : writeHeaders h d =
      ([h.Signature.1, h.Signature.2] ++ putU32 h.FileSize ++ putU32 h.Reserved ++
        putU32 h.DataOffset) ++
      (putU32 d.DibHeaderSize ++
        v3Bytes d (if d.DibHeaderSize = 40 ∧ d.Compression = 0 then 0 else d.ImageSize)) ++
      (if d.DibHeaderSize ≥ 108 then v4Bytes d else []) ++
      (if d.DibHeaderSize = 124 then v5Bytes d else []) := by
    rw [writeHeaders_eq]
    simp only [List.append_assoc]
  refine ⟨?_, heq, h14, h40, h4, h5, fun _ => rfl, fun _ => rfl, fun _ => rfl⟩
  rw [heq, List.length_append, List.length_append, List.length_append, h14, h40, h4, h5]
  rcases hs with hs | hs | hs <;> rw [hs] <;> rfl

/-- Witness for C20: the 54 bytes of the sample version-3 header. -/
theorem writeHeaders_layout_witness :
    sampleDIBv3.Endpoints.length = 9 ∧ sampleDIBv3.DibHeaderSize = 40 ∧
    (writeHeaders sampleBMP sampleDIBv3).length = 14 + sampleDIBv3.DibHeaderSize :=
  ⟨by decide, by decide,
    (writeHeaders_layout sampleBMP sampleDIBv3 (by decide) (by decide)).1⟩

/-! ## The written and the read pixel rows (`io.go`) -/

theorem drop_take_flatMap_range {α : Type} (n m : Nat) (f : Nat → List α)
    (hf : ∀ k, k < n → (f k).length = m) (k : Nat) (hk : k < n) :
    (((List.range n).flatMap f).drop (k * m)).take m = f k := by
  apply List.ext_getElem?
  intro j
  rw [List.getElem?_take]
  by_cases hj : j < m
  · rw [if_pos hj, List.getElem?_drop, getElem?_flatMap_range n m f hf k j hk hj]
  · rw [if_neg hj]
    symm
    apply List.getElem?_eq_none
    rw [hf k hk]
    omega

theorem stride_bounds (w : Nat) :
    w * 3 ≤ stride w ∧ stride w < w * 3 + 4 ∧ stride w % 4 = 0 := by
  unfold stride
  omega

/-- C19: for every `w`, `h` and grid `g` of length `w * h`, the row loop of
`WritePixels` succeeds and writes `h * stride` bytes after the headers, where
`stride = (3w + 3) &^ 3` is the least multiple of 4 that is at least `3w`; the
`k`-th row written (bytes `k * stride` to `(k + 1) * stride`) holds the pixels of
the logical row `h - 1 - k` in column order, each as Blue, Green, Red, followed by
`stride - 3w` zero bytes. -/
theorem writePixelRows_layout (g : List Pixel) (w h : Nat) (hlen : g.length = w * h) :
    ∃ out, writePixelRows w h g = .ok out ∧ out.length = h * stride w ∧
      bitClear ((w * 3) + 3) 3 = stride w ∧
      (w * 3 ≤ stride w ∧ stride w < w * 3 + 4 ∧ stride w % 4 = 0) ∧
      ∀ k, k < h →
        (out.drop (k * stride w)).take (stride w) =
          (List.range w).flatMap (fun x =>
            [(pixelAt g ((h - 1 - k) * w + x)).Blue, (pixelAt g ((h - 1 - k) * w + x)).Green,
              (pixelAt g ((h - 1 - k) * w + x)).Red]) ++
          List.replicate (stride w - w * 3) 0 ∧
        ∀ x, x < w → g[(h - 1 - k) * w + x]? = some (pixelAt g ((h - 1 - k) * w + x)) := by
  refine ⟨fileRows w h g, writePixelRows_spec g w h hlen, fileRows_length w h g,
    bitClear_rowSize w, stride_bounds w, ?_⟩
  intro k hk
  refine ⟨?_, ?_⟩
  · unfold fileRows
    rw [drop_take_flatMap_range h (stride w) _ (fun _ _ => rowBytes_length w g _) k hk]
    rfl
  · intro x hx
    apply getElem?_pixelAt
    rw [hlen]
    exact idx_lt' x (h - 1 - k) w h hx (by omega)

/-- Witness for C19: the 3 x 2 sample grid, rows of 9 bytes padded to 12. -/
theorem writePixelRows_layout_witness :
    sampleGrid.length = 3 * 2 ∧
    ∃ out, writePixelRows 3 2 sampleGrid = .ok out ∧ out.length = 2 * stride 3 ∧
      bitClear ((3 * 3) + 3) 3 = stride 3 ∧
      (3 * 3 ≤ stride 3 ∧ stride 3 < 3 * 3 + 4 ∧ stride 3 % 4 = 0) ∧
      ∀ k, k < 2 →
        (out.drop (k * stride 3)).take (stride 3) =
          (List.range 3).flatMap (fun x =>
            [(pixelAt sampleGrid ((2 - 1 - k) * 3 + x)).Blue,
              (pixelAt sampleGrid ((2 - 1 - k) * 3 + x)).Green,
              (pixelAt sampleGrid ((2 - 1 - k) * 3 + x)).Red]) ++
          List.replicate (stride 3 - 3 * 3) 0 ∧
        ∀ x, x < 3 →
          sampleGrid[(2 - 1 - k) * 3 + x]? = some (pixelAt sampleGrid ((2 - 1 - k) * 3 + x)) :=
  ⟨rfl, writePixelRows_layout sampleGrid 3 2 rfl⟩

theorem readPixelRows_zero (w : Nat) (data : List Byte) : readPixelRows w 0 data = .ok [] := by
  unfold readPixelRows forDown
  rw [Nat.mul_zero]
  rfl

/-- Within the size limit of `ReadPixels`, non-negative dimensions lead to the
row loop on the bytes from the data offset on. -/
theorem ReadPixels_eq_rows (file : List Byte) (bmpHeader : BMPHeader) (dibHeader : DIBHeader)
    (w h : Nat) (hw : dibHeader.Width = (w : Int)) (hh : dibHeader.Height = (h : Int))
    (hw' : w ≤ 65536) (hh' : h ≤ 65536) :
    ReadPixels file bmpHeader dibHeader = readPixelRows w h (file.drop bmpHeader.DataOffset) := by
  have hmul : w * h ≤ 65536 * 65536 := Nat.mul_le_mul hw' hh'
  have hlen : wrapInt ((w : Int) * (h : Int)) = ((w * h : Nat) : Int) := by
    rw [← Int.natCast_mul]
    exact wrapInt_cast _ (by omega)
  have h3 : wrapInt ((w : Int) * 3) = ((w * 3 : Nat) : Int) :=
    wrapInt_cast (w * 3) (by omega)
  have h33 : wrapInt (((w * 3 : Nat) : Int) + 3) = ((w * 3 + 3 : Nat) : Int) :=
    wrapInt_cast (w * 3 + 3) (by omega)
  have hdiv : Int.tdiv ((w * 3 + 3 : Nat) : Int) 4 * 4 = (((w * 3 + 3) / 4 * 4 : Nat) : Int) := by
    rw [Int.natCast_mul, Int.natCast_div]
    rfl
  have hrow : wrapInt (((w * 3 + 3) / 4 * 4 : Nat) : Int) = (((w * 3 + 3) / 4 * 4 : Nat) : Int) :=
    wrapInt_cast _ (by omega)
  unfold ReadPixels
  rw [hw, hh, if_neg (by omega)]
  simp only [hlen, h3, h33, hdiv, hrow]
  rw [if_neg (by omega), if_neg (by omega)]
  by_cases h0 : h = 0
  · subst h0
    rw [if_pos (by omega), readPixelRows_zero]
    rfl
  · rw [if_neg (by omega), Int.toNat_natCast, Int.toNat_natCast]

/-- C17: for every `w`, `h` and pixel data of at least `h * stride` bytes with
`stride = ((3w + 3) / 4) * 4`, the row loop of `ReadPixels` returns a grid of
length `w * h` whose pixel at index `(h - 1 - r) * w + x` has Blue, Green, Red
equal to the bytes `r * stride + 3x`, `+ 1`, `+ 2` of the data, for every file row
`r < h` and column `x < w`; no other byte enters the grid. `ReadPixels` is this
loop on the bytes from the data offset whenever the header's width and height
are `w` and `h` and pass its size check. -/
theorem ReadPixels_rows (w h : Nat) (data : List Byte) (hdata : h * stride w ≤ data.length) :
    stride w = ((w * 3) + 3) / 4 * 4 ∧
    (∃ r, readPixelRows w h data = .ok r ∧ r.length = w * h ∧
      ∀ k x, k < h → x < w →
        ∃ b g c : Byte, data[k * stride w + x * 3]? = some b ∧
          data[k * stride w + x * 3 + 1]? = some g ∧
          data[k * stride w + x * 3 + 2]? = some c ∧
          r[(h - 1 - k) * w + x]? = some { Blue := b, Green := g, Red := c }) ∧
    ∀ (file : List Byte) (bmpHeader : BMPHeader) (dibHeader : DIBHeader),
      dibHeader.Width = (w : Int) → dibHeader.Height = (h : Int) → w ≤ 65536 → h ≤ 65536 →
      file.drop bmpHeader.DataOffset = data →
      ReadPixels file bmpHeader dibHeader = readPixelRows w h data := by
  refine ⟨rfl, ?_, ?_⟩
  · obtain ⟨r, hr, hrl, hpix⟩ := readPixelRows_spec w h data hdata
    refine ⟨r, hr, hrl, ?_⟩
    intro k x hk hx
    have hs := stride_ge w
    have hrow : (k + 1) * stride w ≤ h * stride w := Nat.mul_le_mul_right _ hk
    rw [Nat.succ_mul] at hrow
    refine ⟨_, _, _, getElem?_getD data _ 0 (by omega), getElem?_getD data _ 0 (by omega),
      getElem?_getD data _ 0 (by omega), ?_⟩
    rw [hpix k x hk hx]
    rfl
  · intro file bmpHeader dibHeader hw hh hw' hh' hd
    rw [← hd]
    exact ReadPixels_eq_rows file bmpHeader dibHeader w h hw hh hw' hh'

/-- Witness for C17: two rows of width 3 (stride 12) in 24 bytes. -/
theorem ReadPixels_rows_witness :
    2 * stride 3 ≤ (List.replicate 24 (7 : Byte)).length ∧
    ∃ r, readPixelRows 3 2 (List.replicate 24 (7 : Byte)) = .ok r ∧ r.length = 3 * 2 :=
  ⟨by decide,
    match (ReadPixels_rows 3 2 (List.replicate 24 (7 : Byte)) (by decide)).2.1 with
    | ⟨r, hr, hl, _⟩ => ⟨r, hr, hl⟩⟩

/-- C18 fails on the code: `file.Read` returns the bytes that are left without an
error, so a last row that is only partly present is accepted. The 60-byte file
`truncatedFile` (width 1, height 2, stride 4) passes `ReadHeaders`, has 6 < 8
bytes after the data offset, and `ReadPixels` returns a grid whose top pixel
takes its Red byte from the row read before. With only the first row present
(4 bytes) the error is returned. -/
theorem ReadPixels_partial_row_accepted :
    ReadHeaders truncatedFile = .ok (truncatedBMP, truncatedDIB) ∧
    (truncatedFile.drop truncatedBMP.DataOffset).length = 6 ∧
    truncatedDIB.Height.toNat * stride truncatedDIB.Width.toNat = 8 ∧
    ReadPixels truncatedFile truncatedBMP truncatedDIB =
      .ok [{ Blue := 40, Green := 50, Red := 30 }, { Blue := 10, Green := 20, Red := 30 }] ∧
    ReadPixels (truncatedFile.take 58) truncatedBMP truncatedDIB =
      .error (.err "error reading pixel data") := by
  decide

/-! ## Validation of the decoded headers (`header.go`) -/

theorem validateFile_cases (bmpHeader : BMPHeader) (dibHeader : DIBHeader) (fileSize : Int) :
    validateFile bmpHeader dibHeader fileSize = .ok () ∨
      ∃ msg, validateFile bmpHeader dibHeader fileSize = .error (.err msg) := by
  unfold validateFile
  split
  · exact Or.inr ⟨_, rfl⟩
  · split
    · exact Or.inr ⟨_, rfl⟩
    · split
      · exact Or.inr ⟨_, rfl⟩
      · dsimp only
        split
        · exact Or.inr ⟨_, rfl⟩
        · split
          · exact Or.inr ⟨_, rfl⟩
          · exact Or.inl rfl

theorem expectedSize_exact (off : Nat) (w h : Int) (hoff : off < 4294967296)
    (hw0 : 0 ≤ w) (hh0 : 0 ≤ h) (hw : w ≤ 65536) (hh : h ≤ 65536) :
    wrapInt ((off : Int) + wrapInt (wrapInt (w * h) * 3)) = (off : Int) + w * h * 3 := by
  have h1 : 0 ≤ w * h := Int.mul_nonneg hw0 hh0
  have h2 : w * h ≤ 65536 * 65536 := mul_le_mul hw hh hh0 (by norm_num)
  generalize w * h = p at h1 h2
  rw [wrapInt_of_range p (by omega) (by omega), wrapInt_of_range (p * 3) (by omega) (by omega),
    wrapInt_of_range _ (by omega) (by omega)]

/-- C15: for every header pair with `DibHeaderSize` 40, 108 or 124 and every file
size `n`, `validateFile` returns no error exactly when the signature is "BM",
`BitCount = 24`, `Compression = 0`, `DataOffset = 14 + DibHeaderSize` and
`n >= DataOffset + Width*Height*3` with the sum and products taken in `int64`;
in every other case it returns an error. For a width and height between 0 and
65536 and a 32-bit data offset the `int64` value is the exact one. -/
theorem validateFile_ok_iff (bmpHeader : BMPHeader) (dibHeader : DIBHeader) (n : Int)
    (hs : dibHeader.DibHeaderSize = 40 ∨ dibHeader.DibHeaderSize = 108 ∨
      dibHeader.DibHeaderSize = 124) :
    (validateFile bmpHeader dibHeader n = .ok () ↔
      bmpHeader.Signature = (66, 77) ∧ dibHeader.BitCount = 24 ∧ dibHeader.Compression = 0 ∧
      bmpHeader.DataOffset = 14 + dibHeader.DibHeaderSize ∧
      n ≥ wrapInt ((bmpHeader.DataOffset : Int) +
        wrapInt (wrapInt (dibHeader.Width * dibHeader.Height) * 3))) ∧
    (validateFile bmpHeader dibHeader n = .ok () ∨
      ∃ msg, validateFile bmpHeader dibHeader n = .error (.err msg)) ∧
    (bmpHeader.DataOffset < 4294967296 → 0 ≤ dibHeader.Width → 0 ≤ dibHeader.Height →
      dibHeader.Width ≤ 65536 → dibHeader.Height ≤ 65536 →
      wrapInt ((bmpHeader.DataOffset : Int) +
        wrapInt (wrapInt (dibHeader.Width * dibHeader.Height) * 3)) =
      (bmpHeader.DataOffset : Int) + dibHeader.Width * dibHeader.Height * 3) := by
  refine ⟨?_, validateFile_cases bmpHeader dibHeader n,
    fun ho hw0 hh0 hw hh => expectedSize_exact _ _ _ ho hw0 hh0 hw hh⟩
  have hmod : (14 + dibHeader.DibHeaderSize) % 4294967296 = 14 + dibHeader.DibHeaderSize := by
    omega
  unfold validateFile
  rw [hmod]
  constructor
  · intro hv
    by_cases h1 : bmpHeader.Signature ≠ (66, 77)
    · rw [if_pos h1] at hv; cases hv
    rw [if_neg h1] at hv
    by_cases h2 : dibHeader.BitCount ≠ 24
    · rw [if_pos h2] at hv; cases hv
    rw [if_neg h2] at hv
    by_cases h3 : dibHeader.Compression ≠ 0
    · rw [if_pos h3] at hv; cases hv
    rw [if_neg h3] at hv
    dsimp only at hv
    by_cases h4 : (bmpHeader.DataOffset : Int) ≠ ((14 + dibHeader.DibHeaderSize : Nat) : Int)
    · rw [if_pos h4] at hv; cases hv
    rw [if_neg h4] at hv
    by_cases h5 : n < wrapInt ((bmpHeader.DataOffset : Int) +
        wrapInt (wrapInt (dibHeader.Width * dibHeader.Height) * 3))
    · rw [if_pos h5] at hv; cases hv
    refine ⟨not_not.mp h1, not_not.mp h2, not_not.mp h3, ?_, not_lt.mp h5⟩
    exact Int.ofNat_inj.mp (not_not.mp h4)
  · rintro ⟨h1, h2, h3, h4, h5⟩
    rw [if_neg (not_not.mpr h1), if_neg (not_not.mpr h2), if_neg (not_not.mpr h3)]
    dsimp only
    rw [if_neg (not_not.mpr (congrArg Nat.cast h4)), if_neg (not_lt.mpr h5)]

/-- Witness for C15: the headers of the 60-byte file `truncatedFile`, which are
accepted for the file size 60 and rejected for 59. -/
theorem validateFile_ok_iff_witness :
    truncatedDIB.DibHeaderSize = 40 ∧
    validateFile truncatedBMP truncatedDIB 60 = .ok () ∧
    validateFile truncatedBMP truncatedDIB 59 ≠ .ok () :=
  ⟨rfl,
    (validateFile_ok_iff truncatedBMP truncatedDIB 60 (Or.inl rfl)).1.mpr (by decide),
    fun hv => absurd ((validateFile_ok_iff truncatedBMP truncatedDIB 59 (Or.inl rfl)).1.mp hv)
      (by decide)⟩

/-! ## Loops that accumulate sums and loops that fill a grid -/

theorem forUp_congr {σ : Type} (n : Nat) (b b' : Nat → σ → Result σ) (s : σ)
    (h : ∀ i, i < n → ∀ s, b i s = b' i s) : forUp n b s = forUp n b' s := by
  induction n with
  | zero => rfl
  | succ n ih =>
    rw [forUp_succ, forUp_succ, ih (fun i hi => h i (Nat.lt_succ_of_lt hi))]
    congr 1
    funext s'
    exact h n (Nat.lt_succ_self n) s'

/-- A loop whose body adds one term to each of four accumulators returns the
start values plus the four sums. -/
theorem sumLoop (n : Nat)
    (body : Nat → Nat × Nat × Nat × Nat → Result (Nat × Nat × Nat × Nat))
    (fR fG fB fC : Nat → Nat)
    (hbody : ∀ j, j < n → ∀ a b c d,
      body j (a, b, c, d) = .ok (a + fR j, b + fG j, c + fB j, d + fC j))
    (a b c d : Nat) :
    forUp n body (a, b, c, d) =
      .ok (a + ∑ j ∈ Finset.range n, fR j, b + ∑ j ∈ Finset.range n, fG j,
        c + ∑ j ∈ Finset.range n, fB j, d + ∑ j ∈ Finset.range n, fC j) := by
  induction n with
  | zero => rfl
  | succ n ih =>
    rw [forUp_succ, ih (fun j hj => hbody j (Nat.lt_succ_of_lt hj)), ok_bind,
      hbody n (Nat.lt_succ_self n), Finset.sum_range_succ, Finset.sum_range_succ,
      Finset.sum_range_succ, Finset.sum_range_succ]
    simp only [Nat.add_assoc]

/-- Two nested accumulating loops return the start values plus the double
sums. -/
theorem sumLoop2 (n m : Nat)
    (body : Nat → Nat → Nat × Nat × Nat × Nat → Result (Nat × Nat × Nat × Nat))
    (fR fG fB fC : Nat → Nat → Nat)
    (hbody : ∀ i j, i < n → j < m → ∀ a b c d,
      body i j (a, b, c, d) = .ok (a + fR i j, b + fG i j, c + fB i j, d + fC i j))
    (a b c d : Nat) :
    forUp n (fun i acc => forUp m (fun j acc => body i j acc) acc) (a, b, c, d) =
      .ok (a + ∑ i ∈ Finset.range n, ∑ j ∈ Finset.range m, fR i j,
        b + ∑ i ∈ Finset.range n, ∑ j ∈ Finset.range m, fG i j,
        c + ∑ i ∈ Finset.range n, ∑ j ∈ Finset.range m, fB i j,
        d + ∑ i ∈ Finset.range n, ∑ j ∈ Finset.range m, fC i j) :=
  sumLoop n (fun i acc => forUp m (fun j acc => body i j acc) acc)
    (fun i => ∑ j ∈ Finset.range m, fR i j) (fun i => ∑ j ∈ Finset.range m, fG i j)
    (fun i => ∑ j ∈ Finset.range m, fB i j) (fun i => ∑ j ∈ Finset.range m, fC i j)
    (fun i hi a b c d =>
      sumLoop m (fun j acc => body i j acc) (fR i) (fG i) (fB i) (fC i)
        (fun j hj => hbody i j hi hj) a b c d) a b c d

/-- Two nested loops whose body is the assignment `dst[f y x] = v y x`, with
every index in range and `f` injective on the loop range: the loops succeed,
keep the length, put `v y x` at `f y x` and leave every other position as it
was. -/
theorem fill_spec (height width : Nat) (f : Nat → Nat → Nat) (v : Nat → Nat → Pixel)
    (body : Nat → Nat → List Pixel → Result (List Pixel)) (dst : List Pixel)
    (hbody : ∀ y x, y < height → x < width → ∀ d, body y x d = assign d (f y x) (v y x))
    (hf : ∀ y x, y < height → x < width → f y x < dst.length)
    (hinj : ∀ y x y' x', y < height → x < width → y' < height → x' < width →
      f y x = f y' x' → y = y' ∧ x = x') :
    ∃ r, forUp height (fun y d => forUp width (fun x d => body y x d) d) dst = .ok r ∧
      r.length = dst.length ∧
      (∀ y x, y < height → x < width → r[f y x]? = some (v y x)) ∧
      (∀ i, (∀ y x, y < height → x < width → f y x ≠ i) → r[i]? = dst[i]?) := by
  have hsrc : ∀ y x, y < height → x < width →
      ((List.range (height * width)).map (fun i => v (i / width) (i % width)))[y * width + x]? =
        some (v y x) := by
    intro y x hy hx
    have hi := idx_lt x y width height hx hy
    rw [List.getElem?_map, List.getElem?_range hi]
    have h1 : (y * width + x) / width = y := by
      rw [Nat.mul_comm, Nat.mul_add_div (by omega), Nat.div_eq_of_lt hx, Nat.add_zero]
    have h2 : (y * width + x) % width = x := by
      rw [Nat.mul_comm, Nat.mul_add_mod, Nat.mod_eq_of_lt hx]
    rw [Option.map_some', h1, h2]
  obtain ⟨r, hr, hl, hset, hkeep⟩ := scatter_spec height width f (fun y x => y * width + x)
    ((List.range (height * width)).map (fun i => v (i / width) (i % width))) dst
    (fun y x hy hx => by
      rw [List.length_map, List.length_range]; exact idx_lt x y width height hx hy)
    hf hinj
  refine ⟨r, ?_, hl, ?_, hkeep⟩
  · rw [← hr]
    unfold scatter
    apply forUp_congr
    intro y hy d
    apply forUp_congr
    intro x hx d'
    rw [hbody y x hy hx d', index_of_getElem? _ _ _ (hsrc y x hy hx), ok_bind]
  · intro y x hy hx
    rw [hset y x hy hx, hsrc y x hy hx]

theorem mean_byte (s n : Nat) (h : s ≤ 255 * n) : (toByte (s / n)).val = s / n := by
  have h1 : s / n ≤ 255 := by
    rcases Nat.eq_zero_or_pos n with h0 | h0
    · rw [h0, Nat.div_zero]; omega
    · exact Nat.div_le_of_le_mul (by rw [Nat.mul_comm]; exact h)
  unfold toByte
  show s / n % 256 = s / n
  exact Nat.mod_eq_of_lt (Nat.lt_succ_of_le h1)

/-- The loop `for d := -radius; d <= radius; d++` as a sum: the `i`-th iteration
runs at `d = i - radius`. -/
theorem sum_range_window (radius : Nat) (F : Int → Nat) :
    ∑ i ∈ Finset.range (2 * radius + 1), F ((i : Int) - (radius : Int)) =
      ∑ d ∈ Finset.Icc (-(radius : Int)) (radius : Int), F d := by
  have himg : Finset.Icc (-(radius : Int)) (radius : Int) =
      (Finset.range (2 * radius + 1)).image (fun i : Nat => (i : Int) - (radius : Int)) := by
    ext d
    simp only [Finset.mem_Icc, Finset.mem_image, Finset.mem_range]
    constructor
    · rintro ⟨h1, h2⟩
      exact ⟨(d + radius).toNat, by omega, by omega⟩
    · rintro ⟨i, hi, rfl⟩
      omega
  rw [himg, Finset.sum_image]
  intro a _ b _ hab
  simp only at hab
  omega

/-! ## Theorems: blur (`filter.go`) -/

theorem toNat_idx_lt (X Y : Int) (w h : Nat) (hX0 : 0 ≤ X) (hX : X < (w : Int))
    (hY0 : 0 ≤ Y) (hY : Y < (h : Int)) : (Y * (w : Int) + X).toNat < w * h := by
  obtain ⟨X', rfl⟩ := Int.eq_ofNat_of_zero_le hX0
  obtain ⟨Y', rfl⟩ := Int.eq_ofNat_of_zero_le hY0
  have he : ((Y' : Int) * (w : Int) + (X' : Int)) = ((Y' * w + X' : Nat) : Int) := by
    push_cast
    rfl
  rw [he, Int.toNat_natCast]
  exact idx_lt' X' Y' w h (by omega) (by omega)

/-- The double sum of the two kernel loops of `applyBlur` is the sum over the
window `[-radius, radius] x [-radius, radius]`. -/
theorem window_sum_eq (radius : Nat) (T : Int → Int → Nat) :
    ∑ i ∈ Finset.range (2 * radius + 1), ∑ j ∈ Finset.range (2 * radius + 1),
        T ((j : Int) - (radius : Int)) ((i : Int) - (radius : Int)) =
      ∑ dy ∈ Finset.Icc (-(radius : Int)) (radius : Int),
        ∑ dx ∈ Finset.Icc (-(radius : Int)) (radius : Int), T dx dy := by
  refine Eq.trans ?_ (sum_range_window radius
    (fun dy => ∑ dx ∈ Finset.Icc (-(radius : Int)) (radius : Int), T dx dy))
  apply Finset.sum_congr rfl
  intro i _
  exact sum_range_window radius (fun dx => T dx ((i : Int) - (radius : Int)))

/-- The kernel loops of `applyBlur` at `(x, y)` compute the sums of the three
channels of the original grid over the window, and the number of positions of
the window inside the image. -/
theorem blur_sums (g : List Pixel) (w h radius : Nat) (hlen : g.length = w * h) (x y : Nat) :
    forUp (2 * radius + 1) (fun i acc =>
        let dy : Int := (i : Int) - (radius : Int)
        forUp (2 * radius + 1) (fun j (acc : Nat × Nat × Nat × Nat) =>
          let (sumR, sumG, sumB, count) := acc
          let dx : Int := (j : Int) - (radius : Int)
          let neighborX : Int := (x : Int) + dx
          let neighborY : Int := (y : Int) + dy
          if neighborX ≥ 0 ∧ neighborX < (w : Int) ∧
              neighborY ≥ 0 ∧ neighborY < (h : Int) then do
            let idx := neighborY * (w : Int) + neighborX
            let pixel ← index g idx.toNat
            pure (sumR + pixel.Red.val, sumG + pixel.Green.val,
              sumB + pixel.Blue.val, count + 1)
          else pure acc) acc) (0, 0, 0, 0) =
      .ok (specWindowSum radius Pixel.Red g w h x y, specWindowSum radius Pixel.Green g w h x y,
        specWindowSum radius Pixel.Blue g w h x y, specWindowCount radius w h x y) := by
  have key := sumLoop2 (2 * radius + 1) (2 * radius + 1)
    (fun i j (acc : Nat × Nat × Nat × Nat) =>
      if (x : Int) + ((j : Int) - (radius : Int)) ≥ 0 ∧
          (x : Int) + ((j : Int) - (radius : Int)) < (w : Int) ∧
          (y : Int) + ((i : Int) - (radius : Int)) ≥ 0 ∧
          (y : Int) + ((i : Int) - (radius : Int)) < (h : Int) then
        (index g (((y : Int) + ((i : Int) - (radius : Int))) * (w : Int) +
          ((x : Int) + ((j : Int) - (radius : Int)))).toNat >>= fun pixel =>
          (pure (acc.1 + pixel.Red.val, acc.2.1 + pixel.Green.val,
            acc.2.2.1 + pixel.Blue.val, acc.2.2.2 + 1) :
            Result (Nat × Nat × Nat × Nat)))
      else pure acc)
    (fun i j =>
      if (x : Int) + ((j : Int) - (radius : Int)) ≥ 0 ∧
          (x : Int) + ((j : Int) - (radius : Int)) < (w : Int) ∧
          (y : Int) + ((i : Int) - (radius : Int)) ≥ 0 ∧
          (y : Int) + ((i : Int) - (radius : Int)) < (h : Int) then
        (pixelAt g (((y : Int) + ((i : Int) - (radius : Int))) * (w : Int) +
          ((x : Int) + ((j : Int) - (radius : Int)))).toNat).Red.val
      else 0)
    (fun i j =>
      if (x : Int) + ((j : Int) - (radius : Int)) ≥ 0 ∧
          (x : Int) + ((j : Int) - (radius : Int)) < (w : Int) ∧
          (y : Int) + ((i : Int) - (radius : Int)) ≥ 0 ∧
          (y : Int) + ((i : Int) - (radius : Int)) < (h : Int) then
        (pixelAt g (((y : Int) + ((i : Int) - (radius : Int))) * (w : Int) +
          ((x : Int) + ((j : Int) - (radius : Int)))).toNat).Green.val
      else 0)
    (fun i j =>
      if (x : Int) + ((j : Int) - (radius : Int)) ≥ 0 ∧
          (x : Int) + ((j : Int) - (radius : Int)) < (w : Int) ∧
          (y : Int) + ((i : Int) - (radius : Int)) ≥ 0 ∧
          (y : Int) + ((i : Int) - (radius : Int)) < (h : Int) then
        (pixelAt g (((y : Int) + ((i : Int) - (radius : Int))) * (w : Int) +
          ((x : Int) + ((j : Int) - (radius : Int)))).toNat).Blue.val
      else 0)
    (fun i j =>
      if (x : Int) + ((j : Int) - (radius : Int)) ≥ 0 ∧
          (x : Int) + ((j : Int) - (radius : Int)) < (w : Int) ∧
          (y : Int) + ((i : Int) - (radius : Int)) ≥ 0 ∧
          (y : Int) + ((i : Int) - (radius : Int)) < (h : Int) then 1
      else 0)
    (by
      intro i j _ _ a b c d
      by_cases hc : (x : Int) + ((j : Int) - (radius : Int)) ≥ 0 ∧
          (x : Int) + ((j : Int) - (radius : Int)) < (w : Int) ∧
          (y : Int) + ((i : Int) - (radius : Int)) ≥ 0 ∧
          (y : Int) + ((i : Int) - (radius : Int)) < (h : Int)
      · have hlt : (((y : Int) + ((i : Int) - (radius : Int))) * (w : Int) +
            ((x : Int) + ((j : Int) - (radius : Int)))).toNat < g.length := by
          rw [hlen]
          exact toNat_idx_lt _ _ w h hc.1 hc.2.1 hc.2.2.1 hc.2.2.2
        simp only [if_pos hc]
        rw [index_of_getElem? _ _ _ (getElem?_pixelAt g _ hlt)]
        rfl
      · simp only [if_neg hc]
        rfl)
    0 0 0 0
  simp only [Nat.zero_add] at key
  rw [window_sum_eq radius (fun dx dy =>
      if (x : Int) + dx ≥ 0 ∧ (x : Int) + dx < (w : Int) ∧
          (y : Int) + dy ≥ 0 ∧ (y : Int) + dy < (h : Int) then
        (pixelAt g (((y : Int) + dy) * (w : Int) + ((x : Int) + dx)).toNat).Red.val
      else 0),
    window_sum_eq radius (fun dx dy =>
      if (x : Int) + dx ≥ 0 ∧ (x : Int) + dx < (w : Int) ∧
          (y : Int) + dy ≥ 0 ∧ (y : Int) + dy < (h : Int) then
        (pixelAt g (((y : Int) + dy) * (w : Int) + ((x : Int) + dx)).toNat).Green.val
      else 0),
    window_sum_eq radius (fun dx dy =>
      if (x : Int) + dx ≥ 0 ∧ (x : Int) + dx < (w : Int) ∧
          (y : Int) + dy ≥ 0 ∧ (y : Int) + dy < (h : Int) then
        (pixelAt g (((y : Int) + dy) * (w : Int) + ((x : Int) + dx)).toNat).Blue.val
      else 0),
    window_sum_eq radius (fun dx dy =>
      if (x : Int) + dx ≥ 0 ∧ (x : Int) + dx < (w : Int) ∧
          (y : Int) + dy ≥ 0 ∧ (y : Int) + dy < (h : Int) then 1
      else 0)] at key
  exact key

theorem specWindowCount_pos (radius w h x y : Nat) (hx : x < w) (hy : y < h) :
    0 < specWindowCount radius w h x y := by
  unfold specWindowCount
  have hmem : (0 : Int) ∈ Finset.Icc (-(radius : Int)) (radius : Int) := by
    rw [Finset.mem_Icc]
    omega
  have h1 := Finset.single_le_sum
    (f := fun dy : Int => ∑ dx ∈ Finset.Icc (-(radius : Int)) (radius : Int),
      if (x : Int) + dx ≥ 0 ∧ (x : Int) + dx < (w : Int) ∧
          (y : Int) + dy ≥ 0 ∧ (y : Int) + dy < (h : Int) then 1
      else 0)
    (fun _ _ => Nat.zero_le _) hmem
  have h2 := Finset.single_le_sum
    (f := fun dx : Int =>
      if (x : Int) + dx ≥ 0 ∧ (x : Int) + dx < (w : Int) ∧
          (y : Int) + (0 : Int) ≥ 0 ∧ (y : Int) + (0 : Int) < (h : Int) then 1
      else 0)
    (fun _ _ => Nat.zero_le _) hmem
  have h3 : (if (x : Int) + (0 : Int) ≥ 0 ∧ (x : Int) + (0 : Int) < (w : Int) ∧
      (y : Int) + (0 : Int) ≥ 0 ∧ (y : Int) + (0 : Int) < (h : Int) then 1 else 0) = 1 :=
    if_pos (by omega)
  dsimp only at h1 h2
  omega

theorem specWindowSum_le (radius : Nat) (chan : Pixel → Byte) (g : List Pixel)
    (w h x y : Nat) :
    specWindowSum radius chan g w h x y ≤ 255 * specWindowCount radius w h x y := by
  unfold specWindowSum specWindowCount
  rw [Finset.mul_sum]
  apply Finset.sum_le_sum
  intro dy _
  rw [Finset.mul_sum]
  apply Finset.sum_le_sum
  intro dx _
  split
  · have := (chan (pixelAt g (((y : Int) + dy) * (w : Int) + ((x : Int) + dx)).toNat)).isLt
    omega
  · omega

/-- The body of the pixel loops of `applyBlur` at `(x, y)` is one assignment of
the mean pixel of the window. -/
theorem blur_cell (g : List Pixel) (w h radius : Nat) (hlen : g.length = w * h) (x y : Nat)
    (hx : x < w) (hy : y < h) (blurredPixels : List Pixel) :
    (do
      let (sumR, sumG, sumB, count) ←
        forUp (2 * radius + 1) (fun i acc =>
          let dy : Int := (i : Int) - (radius : Int)
          forUp (2 * radius + 1) (fun j (acc : Nat × Nat × Nat × Nat) =>
            let (sumR, sumG, sumB, count) := acc
            let dx : Int := (j : Int) - (radius : Int)
            let neighborX : Int := (x : Int) + dx
            let neighborY : Int := (y : Int) + dy
            if neighborX ≥ 0 ∧ neighborX < (w : Int) ∧
                neighborY ≥ 0 ∧ neighborY < (h : Int) then do
              let idx := neighborY * (w : Int) + neighborX
              let pixel ← index g idx.toNat
              pure (sumR + pixel.Red.val, sumG + pixel.Green.val,
                sumB + pixel.Blue.val, count + 1)
            else pure acc) acc)
          (0, 0, 0, 0)
      if count = 0 then throw (.panic "integer divide by zero")
      else
        let newIndex := y * w + x
        assign blurredPixels newIndex
          { Red := toByte (sumR / count), Green := toByte (sumG / count),
            Blue := toByte (sumB / count) }) =
    assign blurredPixels (y * w + x)
      (meanPixel (specWindowSum radius Pixel.Red g w h x y)
        (specWindowSum radius Pixel.Green g w h x y)
        (specWindowSum radius Pixel.Blue g w h x y) (specWindowCount radius w h x y)) := by
  have hpos := specWindowCount_pos radius w h x y hx hy
  rw [blur_sums g w h radius hlen x y, ok_bind]
  dsimp only
  rw [if_neg (by omega)]
  rfl

/-- The pixel loops of `applyBlur`: every position `(x, y)` of the fresh grid
receives the mean pixel of its window in the original grid. -/
theorem applyBlur_fill (g : List Pixel) (w h kernelSize : Nat) (hlen : g.length = w * h) :
    ∃ r, applyBlur g w h kernelSize = .ok r ∧
      r.length = (List.replicate g.length Pixel.zero).length ∧
      (∀ y x, y < h → x < w → r[y * w + x]? =
        some (meanPixel (specWindowSum (kernelSize / 2) Pixel.Red g w h x y)
          (specWindowSum (kernelSize / 2) Pixel.Green g w h x y)
          (specWindowSum (kernelSize / 2) Pixel.Blue g w h x y)
          (specWindowCount (kernelSize / 2) w h x y))) ∧
      (∀ i, (∀ y x, y < h → x < w → y * w + x ≠ i) →
        r[i]? = (List.replicate g.length Pixel.zero)[i]?) := by
  unfold applyBlur
  refine fill_spec h w (fun y x => y * w + x)
    (fun y x => meanPixel (specWindowSum (kernelSize / 2) Pixel.Red g w h x y)
      (specWindowSum (kernelSize / 2) Pixel.Green g w h x y)
      (specWindowSum (kernelSize / 2) Pixel.Blue g w h x y)
      (specWindowCount (kernelSize / 2) w h x y)) _ _ ?_ ?_ ?_
  · intro y x hy hx d
    exact blur_cell g w h (kernelSize / 2) hlen x y hx hy d
  · intro y x hy hx
    rw [List.length_replicate, hlen]
    exact idx_lt' x y w h hx hy
  · intro y x y' x' _ hx _ hx' he
    exact idx_inj y x y' x' w hx hx' he

/-- C14: for every grid `g` of length `w * h`, "blur" succeeds with a grid of
length `w * h`, and each channel of its pixel `(x, y)` is `S / n` (integer
division), where `S` is the sum of that channel in `g` over all
`(x + dx, y + dy)` with `-12 <= dx, dy <= 12` inside `[0, w) x [0, h)` and
`n >= 1` is the number of such positions. -/
theorem ApplyFilter_blur_mean (luma : Byte → Byte → Byte → Byte) (g : List Pixel)
    (w h : Nat) (hlen : g.length = w * h) :
    ∃ r, ApplyFilter luma g w h "blur" = .ok r ∧ r.length = w * h ∧
      ∀ x y, x < w → y < h →
        ∃ q : Pixel, r[y * w + x]? = some q ∧ 0 < specWindowCount 12 w h x y ∧
          q.Red.val = specWindowSum 12 Pixel.Red g w h x y / specWindowCount 12 w h x y ∧
          q.Green.val = specWindowSum 12 Pixel.Green g w h x y / specWindowCount 12 w h x y ∧
          q.Blue.val = specWindowSum 12 Pixel.Blue g w h x y / specWindowCount 12 w h x y := by
  obtain ⟨r, hr, hl, hset, _⟩ := applyBlur_fill g w h 25 hlen
  refine ⟨r, ?_, ?_, ?_⟩
  · unfold ApplyFilter
    rw [if_neg (by decide), if_pos (by decide)]
    exact hr
  · rw [hl, List.length_replicate, hlen]
  · intro x y hx hy
    refine ⟨_, hset y x hy hx, specWindowCount_pos 12 w h x y hx hy, ?_, ?_, ?_⟩
    · exact mean_byte _ _ (specWindowSum_le 12 Pixel.Red g w h x y)
    · exact mean_byte _ _ (specWindowSum_le 12 Pixel.Green g w h x y)
    · exact mean_byte _ _ (specWindowSum_le 12 Pixel.Blue g w h x y)

/-- Witness for C14: the 3 x 2 sample grid, whose windows all cover the whole
image. -/
theorem ApplyFilter_blur_mean_witness :
    sampleGrid.length = 3 * 2 ∧
    ∃ r, ApplyFilter (luma64 Fusion.none) sampleGrid 3 2 "blur" = .ok r ∧ r.length = 3 * 2 ∧
      ∀ x y, x < 3 → y < 2 →
        ∃ q : Pixel, r[y * 3 + x]? = some q ∧ 0 < specWindowCount 12 3 2 x y ∧
          q.Red.val = specWindowSum 12 Pixel.Red sampleGrid 3 2 x y / specWindowCount 12 3 2 x y ∧
          q.Green.val =
            specWindowSum 12 Pixel.Green sampleGrid 3 2 x y / specWindowCount 12 3 2 x y ∧
          q.Blue.val =
            specWindowSum 12 Pixel.Blue sampleGrid 3 2 x y / specWindowCount 12 3 2 x y :=
  ⟨rfl, ApplyFilter_blur_mean (luma64 Fusion.none) sampleGrid 3 2 rfl⟩

/-! ## Theorems: pixelate (`filter.go`) -/

theorem block_div (k b d : Nat) (hd : d < b) : (k * b + d) / b = k := by
  rw [Nat.mul_comm, Nat.mul_add_div (by omega), Nat.div_eq_of_lt hd, Nat.add_zero]

theorem block_start_lt (k b n : Nat) (hb : 0 < b) (hk : k < (n + b - 1) / b) : k * b < n := by
  have h1 : (k + 1) * b ≤ n + b - 1 := (Nat.le_div_iff_mul_le hb).mp hk
  rw [Nat.succ_mul] at h1
  omega

theorem block_index_lt (x b n : Nat) (hb : 0 < b) (hx : x < n) : x / b < (n + b - 1) / b := by
  rw [Nat.div_lt_iff_lt_mul hb]
  have h1 := Nat.div_add_mod (n + b - 1) b
  have h2 := Nat.mod_lt (n + b - 1) hb
  rw [Nat.mul_comm] at h1
  omega

theorem block_offset (x b n : Nat) (hb : 0 < b) (hx : x < n) :
    x = x / b * b + x % b ∧ x % b < min b (n - x / b * b) := by
  have h1 := Nat.div_add_mod x b
  have h2 := Nat.mod_lt x hb
  rw [Nat.mul_comm] at h1
  refine ⟨h1.symm, ?_⟩
  rw [Nat.lt_min]
  omega

/-- The sum over the block of side `b` with block indices `(kx, ky)`, as the two
loops `for dy := 0; dy < b && y + dy < h` and `for dx := 0; dx < b && x + dx < w`
run through it. -/
theorem block_sum_eq (b w h kx ky : Nat) (F : Nat → Nat → Nat) :
    ∑ y' ∈ Finset.Ico (b * ky) (min (b * ky + b) h),
        ∑ x' ∈ Finset.Ico (b * kx) (min (b * kx + b) w), F y' x' =
      ∑ dy ∈ Finset.range (min b (h - ky * b)),
        ∑ dx ∈ Finset.range (min b (w - kx * b)), F (ky * b + dy) (kx * b + dx) := by
  rw [Finset.sum_Ico_eq_sum_range]
  have e1 : min (b * ky + b) h - b * ky = min b (h - ky * b) := by
    rw [Nat.mul_comm b ky]
    omega
  have e2 : min (b * kx + b) w - b * kx = min b (w - kx * b) := by
    rw [Nat.mul_comm b kx]
    omega
  rw [e1]
  apply Finset.sum_congr rfl
  intro dy _
  rw [Finset.sum_Ico_eq_sum_range, e2, Nat.mul_comm b ky]
  apply Finset.sum_congr rfl
  intro dx _
  rw [Nat.mul_comm b kx]

theorem specBlockSum_eq (b : Nat) (chan : Pixel → Byte) (g : List Pixel) (w h x y : Nat) :
    specBlockSum b chan g w h x y =
      ∑ dy ∈ Finset.range (min b (h - y / b * b)),
        ∑ dx ∈ Finset.range (min b (w - x / b * b)),
          (chan (pixelAt g ((y / b * b + dy) * w + (x / b * b + dx)))).val :=
  block_sum_eq b w h (x / b) (y / b) (fun y' x' => (chan (pixelAt g (y' * w + x'))).val)

theorem specBlockCount_eq (b w h x y : Nat) :
    specBlockCount b w h x y =
      ∑ _dy ∈ Finset.range (min b (h - y / b * b)),
        ∑ _dx ∈ Finset.range (min b (w - x / b * b)), 1 :=
  block_sum_eq b w h (x / b) (y / b) (fun _ _ => 1)

theorem specBlockCount_pos (b w h x y : Nat) (hb : 0 < b) (hx : x < w) (hy : y < h) :
    0 < specBlockCount b w h x y := by
  rw [specBlockCount_eq]
  have hx1 := (block_offset x b w hb hx).2
  have hy1 := (block_offset y b h hb hy).2
  simp only [Finset.sum_const, Finset.card_range, smul_eq_mul, Nat.mul_one]
  exact Nat.mul_pos (by omega) (by omega)

theorem specBlockSum_le (b : Nat) (chan : Pixel → Byte) (g : List Pixel) (w h x y : Nat) :
    specBlockSum b chan g w h x y ≤ 255 * specBlockCount b w h x y := by
  unfold specBlockSum specBlockCount
  rw [Finset.mul_sum]
  apply Finset.sum_le_sum
  intro y' _
  rw [Finset.mul_sum]
  apply Finset.sum_le_sum
  intro x' _
  have := (chan (pixelAt g (y' * w + x'))).isLt
  omega

/-- The two collecting loops of `applyPixelation` on a block whose pixels still
hold the values of the original grid `g`: the sums of the three channels of `g`
over the block, and the number of its pixels. -/
theorem pixelate_sums (g p : List Pixel) (w x y bh bw : Nat)
    (hp : ∀ dy dx, dy < bh → dx < bw →
      p[(y + dy) * w + (x + dx)]? = some (pixelAt g ((y + dy) * w + (x + dx)))) :
    forUp bh (fun dy acc =>
        forUp bw (fun dx (acc : Nat × Nat × Nat × Nat) => do
          let (sumR, sumG, sumB, count) := acc
          let idx := (y + dy) * w + (x + dx)
          let q ← index p idx
          pure (sumR + q.Red.val, sumG + q.Green.val, sumB + q.Blue.val, count + 1)) acc)
        (0, 0, 0, 0) =
      .ok (∑ dy ∈ Finset.range bh, ∑ dx ∈ Finset.range bw,
          (pixelAt g ((y + dy) * w + (x + dx))).Red.val,
        ∑ dy ∈ Finset.range bh, ∑ dx ∈ Finset.range bw,
          (pixelAt g ((y + dy) * w + (x + dx))).Green.val,
        ∑ dy ∈ Finset.range bh, ∑ dx ∈ Finset.range bw,
          (pixelAt g ((y + dy) * w + (x + dx))).Blue.val,
        ∑ _dy ∈ Finset.range bh, ∑ _dx ∈ Finset.range bw, 1) := by
  have key := sumLoop2 bh bw
    (fun dy dx (acc : Nat × Nat × Nat × Nat) =>
      index p ((y + dy) * w + (x + dx)) >>= fun q =>
        (pure (acc.1 + q.Red.val, acc.2.1 + q.Green.val, acc.2.2.1 + q.Blue.val,
          acc.2.2.2 + 1) : Result (Nat × Nat × Nat × Nat)))
    (fun dy dx => (pixelAt g ((y + dy) * w + (x + dx))).Red.val)
    (fun dy dx => (pixelAt g ((y + dy) * w + (x + dx))).Green.val)
    (fun dy dx => (pixelAt g ((y + dy) * w + (x + dx))).Blue.val)
    (fun _ _ => 1)
    (by
      intro dy dx hdy hdx a b c d
      dsimp only
      rw [index_of_getElem? _ _ _ (hp dy dx hdy hdx)]
      rfl)
    0 0 0 0
  simp only [Nat.zero_add] at key
  exact key

/-- One block of `applyPixelation`. Before the block `(kx, ky)` the pixels of the
blocks processed so far hold their block means and all others hold the values of
the original grid `g`; the body succeeds and afterwards the same is true with
the block `(kx, ky)` among the processed ones. -/
theorem pixelate_block (g p : List Pixel) (w h b kx ky : Nat) (hb : 0 < b)
    (hlen : p.length = w * h) (hky : ky < (h + b - 1) / b) (hkx : kx < (w + b - 1) / b)
    (hp : ∀ x y, x < w → y < h → p[y * w + x]? =
      some (if y / b < ky ∨ (y / b = ky ∧ x / b < kx) then specBlockMean b g w h x y
        else pixelAt g (y * w + x))) :
    ∃ r, ((do
        let (sumR, sumG, sumB, count) ←
          forUp (min b (h - ky * b)) (fun dy acc =>
            forUp (min b (w - kx * b)) (fun dx (acc : Nat × Nat × Nat × Nat) => do
              let (sumR, sumG, sumB, count) := acc
              let idx := (ky * b + dy) * w + (kx * b + dx)
              let q ← index p idx
              pure (sumR + q.Red.val, sumG + q.Green.val, sumB + q.Blue.val, count + 1)) acc)
            (0, 0, 0, 0)
        if count = 0 then throw (.panic "integer divide by zero")
        else
          let avgR := toByte (sumR / count)
          let avgG := toByte (sumG / count)
          let avgB := toByte (sumB / count)
          forUp (min b (h - ky * b)) (fun dy pixels =>
            forUp (min b (w - kx * b)) (fun dx pixels =>
              let idx := (ky * b + dy) * w + (kx * b + dx)
              assign pixels idx { Red := avgR, Green := avgG, Blue := avgB }) pixels)
            p) : Result (List Pixel)) = .ok r ∧
      r.length = w * h ∧
      ∀ x y, x < w → y < h → r[y * w + x]? =
        some (if y / b < ky ∨ (y / b = ky ∧ x / b < kx + 1) then specBlockMean b g w h x y
          else pixelAt g (y * w + x)) := by
  have hy0 : ky * b < h := block_start_lt ky b h hb hky
  have hx0 : kx * b < w := block_start_lt kx b w hb hkx
  have hin : ∀ dy dx, dy < min b (h - ky * b) → dx < min b (w - kx * b) →
      ky * b + dy < h ∧ kx * b + dx < w ∧ (ky * b + dy) / b = ky ∧ (kx * b + dx) / b = kx := by
    intro dy dx hdy hdx
    rw [Nat.lt_min] at hdy hdx
    exact ⟨by omega, by omega, block_div ky b dy hdy.1, block_div kx b dx hdx.1⟩
  have hsrc : ∀ dy dx, dy < min b (h - ky * b) → dx < min b (w - kx * b) →
      p[(ky * b + dy) * w + (kx * b + dx)]? =
        some (pixelAt g ((ky * b + dy) * w + (kx * b + dx))) := by
    intro dy dx hdy hdx
    obtain ⟨h1, h2, h3, h4⟩ := hin dy dx hdy hdx
    rw [hp _ _ h2 h1, if_neg (by rw [h3, h4]; omega)]
  have hcount : (∑ _dy ∈ Finset.range (min b (h - ky * b)),
      ∑ _dx ∈ Finset.range (min b (w - kx * b)), 1) ≠ 0 := by
    simp only [Finset.sum_const, Finset.card_range, smul_eq_mul, Nat.mul_one]
    exact Nat.ne_of_gt (Nat.mul_pos (by omega) (by omega))
  rw [pixelate_sums g p w (kx * b) (ky * b) _ _ hsrc, ok_bind]
  dsimp only
  rw [if_neg hcount]
  obtain ⟨r, hr, hl, hset, hkeep⟩ := fill_spec (min b (h - ky * b)) (min b (w - kx * b))
    (fun dy dx => (ky * b + dy) * w + (kx * b + dx))
    (fun _ _ => meanPixel
      (∑ dy ∈ Finset.range (min b (h - ky * b)), ∑ dx ∈ Finset.range (min b (w - kx * b)),
        (pixelAt g ((ky * b + dy) * w + (kx * b + dx))).Red.val)
      (∑ dy ∈ Finset.range (min b (h - ky * b)), ∑ dx ∈ Finset.range (min b (w - kx * b)),
        (pixelAt g ((ky * b + dy) * w + (kx * b + dx))).Green.val)
      (∑ dy ∈ Finset.range (min b (h - ky * b)), ∑ dx ∈ Finset.range (min b (w - kx * b)),
        (pixelAt g ((ky * b + dy) * w + (kx * b + dx))).Blue.val)
      (∑ _dy ∈ Finset.range (min b (h - ky * b)),
        ∑ _dx ∈ Finset.range (min b (w - kx * b)), 1))
    (fun dy dx pixels => assign pixels ((ky * b + dy) * w + (kx * b + dx))
      (meanPixel
        (∑ dy ∈ Finset.range (min b (h - ky * b)), ∑ dx ∈ Finset.range (min b (w - kx * b)),
          (pixelAt g ((ky * b + dy) * w + (kx * b + dx))).Red.val)
        (∑ dy ∈ Finset.range (min b (h - ky * b)), ∑ dx ∈ Finset.range (min b (w - kx * b)),
          (pixelAt g ((ky * b + dy) * w + (kx * b + dx))).Green.val)
        (∑ dy ∈ Finset.range (min b (h - ky * b)), ∑ dx ∈ Finset.range (min b (w - kx * b)),
          (pixelAt g ((ky * b + dy) * w + (kx * b + dx))).Blue.val)
        (∑ _dy ∈ Finset.range (min b (h - ky * b)),
          ∑ _dx ∈ Finset.range (min b (w - kx * b)), 1)))
    p (fun _ _ _ _ _ => rfl)
    (fun dy dx hdy hdx => by
      obtain ⟨h1, h2, _, _⟩ := hin dy dx hdy hdx
      rw [hlen]
      exact idx_lt' _ _ w h h2 h1)
    (fun dy dx dy' dx' hdy hdx hdy' hdx' he => by
      obtain ⟨_, h2, _, _⟩ := hin dy dx hdy hdx
      obtain ⟨_, h2', _, _⟩ := hin dy' dx' hdy' hdx'
      obtain ⟨e1, e2⟩ := idx_inj _ _ _ _ w h2 h2' he
      omega)
  refine ⟨r, hr, by rw [hl, hlen], ?_⟩
  intro x y hx hy
  by_cases hblk : y / b = ky ∧ x / b = kx
  · obtain ⟨hyb, hxb⟩ := hblk
    obtain ⟨hx1, hx2⟩ := block_offset x b w hb hx
    obtain ⟨hy1, hy2⟩ := block_offset y b h hb hy
    rw [hxb] at hx1 hx2
    rw [hyb] at hy1 hy2
    have hv : specBlockMean b g w h x y = meanPixel
        (∑ dy ∈ Finset.range (min b (h - ky * b)), ∑ dx ∈ Finset.range (min b (w - kx * b)),
          (pixelAt g ((ky * b + dy) * w + (kx * b + dx))).Red.val)
        (∑ dy ∈ Finset.range (min b (h - ky * b)), ∑ dx ∈ Finset.range (min b (w - kx * b)),
          (pixelAt g ((ky * b + dy) * w + (kx * b + dx))).Green.val)
        (∑ dy ∈ Finset.range (min b (h - ky * b)), ∑ dx ∈ Finset.range (min b (w - kx * b)),
          (pixelAt g ((ky * b + dy) * w + (kx * b + dx))).Blue.val)
        (∑ _dy ∈ Finset.range (min b (h - ky * b)),
          ∑ _dx ∈ Finset.range (min b (w - kx * b)), 1) := by
      unfold specBlockMean
      rw [specBlockSum_eq, specBlockSum_eq, specBlockSum_eq, specBlockCount_eq, hyb, hxb]
    rw [if_pos (Or.inr ⟨hyb, by omega⟩), hv]
    have hs := hset (y % b) (x % b) hy2 hx2
    rw [← hy1, ← hx1] at hs
    exact hs
  · have hk := hkeep (y * w + x) (by
      intro dy dx hdy hdx he
      obtain ⟨_, h2, h3, h4⟩ := hin dy dx hdy hdx
      obtain ⟨e1, e2⟩ := idx_inj _ _ _ _ w h2 hx he
      apply hblk
      rw [← e1, ← e2]
      exact ⟨h3, h4⟩)
    rw [hk, hp x y hx hy]
    by_cases hc : y / b < ky ∨ (y / b = ky ∧ x / b < kx)
    · rw [if_pos hc, if_pos (by omega)]
    · rw [if_neg hc, if_neg (by omega)]

/-- The invariant rule for `forUp` with a consequence of the final
invariant. -/
theorem forUp_inv_post {σ : Type} (n : Nat) (body : Nat → σ → Result σ)
    (P : Nat → σ → Prop) (Q : σ → Prop) (s : σ) (h0 : P 0 s)
    (hstep : ∀ i s, i < n → P i s → ∃ s', body i s = .ok s' ∧ P (i + 1) s')
    (hpost : ∀ s', P n s' → Q s') :
    ∃ s', forUp n body s = .ok s' ∧ Q s' := by
  obtain ⟨s', hs', hP⟩ := forUp_inv n body P s h0 hstep
  exact ⟨s', hs', hpost s' hP⟩

/-- `applyPixelation` with a positive block size on a grid of length `w * h`
succeeds and replaces every pixel by the mean pixel of its block in the original
grid. -/
theorem applyPixelation_spec (g : List Pixel) (w h b : Nat) (hb : 0 < b)
    (hlen : g.length = w * h) :
    ∃ r, applyPixelation g w h b = .ok r ∧
      (r.length = w * h ∧
        ∀ x y, x < w → y < h → r[y * w + x]? = some (specBlockMean b g w h x y)) := by
  unfold applyPixelation
  refine forUp_inv_post _ _
    (fun ky p => p.length = w * h ∧
      ∀ x y, x < w → y < h → p[y * w + x]? =
        some (if y / b < ky then specBlockMean b g w h x y else pixelAt g (y * w + x)))
    _ _ ?_ ?_ ?_
  · refine ⟨hlen, ?_⟩
    intro x y hx hy
    rw [if_neg (Nat.not_lt_zero _)]
    apply getElem?_pixelAt
    rw [hlen]
    exact idx_lt' x y w h hx hy
  · intro ky p hky ⟨hl, hp⟩
    refine forUp_inv_post _ _
      (fun kx p => p.length = w * h ∧
        ∀ x y, x < w → y < h → p[y * w + x]? =
          some (if y / b < ky ∨ (y / b = ky ∧ x / b < kx) then specBlockMean b g w h x y
            else pixelAt g (y * w + x)))
      _ _ ?_ ?_ ?_
    · refine ⟨hl, ?_⟩
      intro x y hx hy
      rw [hp x y hx hy]
      by_cases hc : y / b < ky
      · rw [if_pos hc, if_pos (Or.inl hc)]
      · rw [if_neg hc, if_neg (fun hor => hor.elim hc (fun hand => Nat.not_lt_zero _ hand.2))]
    · intro kx p' hkx ⟨hl', hp'⟩
      exact pixelate_block g p' w h b kx ky hb hl' hky hkx hp'
    · intro p' ⟨hl', hp'⟩
      refine ⟨hl', ?_⟩
      intro x y hx hy
      rw [hp' x y hx hy]
      have hxb := block_index_lt x b w hb hx
      by_cases hc : y / b < ky + 1
      · rw [if_pos hc, if_pos (by omega)]
      · rw [if_neg hc, if_neg (by omega)]
  · intro r ⟨hl, hp⟩
    refine ⟨hl, ?_⟩
    intro x y hx hy
    rw [hp x y hx hy, if_pos (block_index_lt y b h hb hy)]

/-- C13: for every grid `g` of length `w * h`, "pixelate" succeeds with a grid of
length `w * h`, and each channel of its pixel `(x, y)` is `S / n` (integer
division), where `S` is the sum of that channel in the original `g` over the
block `20 * (x / 20) <= x' < min (20 * (x / 20) + 20) w`,
`20 * (y / 20) <= y' < min (20 * (y / 20) + 20) h` and `n >= 1` is the number of
pixels of that block: the blocks updated earlier do not enter the mean of a later
block. -/
theorem ApplyFilter_pixelate_mean (luma : Byte → Byte → Byte → Byte) (g : List Pixel)
    (w h : Nat) (hlen : g.length = w * h) :
    ∃ r, ApplyFilter luma g w h "pixelate" = .ok r ∧ r.length = w * h ∧
      ∀ x y, x < w → y < h →
        ∃ q : Pixel, r[y * w + x]? = some q ∧ 0 < specBlockCount 20 w h x y ∧
          q.Red.val = specBlockSum 20 Pixel.Red g w h x y / specBlockCount 20 w h x y ∧
          q.Green.val = specBlockSum 20 Pixel.Green g w h x y / specBlockCount 20 w h x y ∧
          q.Blue.val = specBlockSum 20 Pixel.Blue g w h x y / specBlockCount 20 w h x y := by
  obtain ⟨r, hr, hl, hset⟩ := applyPixelation_spec g w h 20 (by decide) hlen
  refine ⟨r, ?_, hl, ?_⟩
  · unfold ApplyFilter
    rw [if_pos (by decide)]
    exact hr
  · intro x y hx hy
    refine ⟨_, hset x y hx hy, specBlockCount_pos 20 w h x y (by decide) hx hy, ?_, ?_, ?_⟩
    · exact mean_byte _ _ (specBlockSum_le 20 Pixel.Red g w h x y)
    · exact mean_byte _ _ (specBlockSum_le 20 Pixel.Green g w h x y)
    · exact mean_byte _ _ (specBlockSum_le 20 Pixel.Blue g w h x y)

/-- Witness for C13: the 3 x 2 sample grid, which is a single block. -/
theorem ApplyFilter_pixelate_mean_witness :
    sampleGrid.length = 3 * 2 ∧
    ∃ r, ApplyFilter (luma64 Fusion.none) sampleGrid 3 2 "pixelate" = .ok r ∧
      r.length = 3 * 2 ∧
      ∀ x y, x < 3 → y < 2 →
        ∃ q : Pixel, r[y * 3 + x]? = some q ∧ 0 < specBlockCount 20 3 2 x y ∧
          q.Red.val = specBlockSum 20 Pixel.Red sampleGrid 3 2 x y / specBlockCount 20 3 2 x y ∧
          q.Green.val =
            specBlockSum 20 Pixel.Green sampleGrid 3 2 x y / specBlockCount 20 3 2 x y ∧
          q.Blue.val =
            specBlockSum 20 Pixel.Blue sampleGrid 3 2 x y / specBlockCount 20 3 2 x y :=
  ⟨rfl, ApplyFilter_pixelate_mean (luma64 Fusion.none) sampleGrid 3 2 rfl⟩

/-! ## Theorems: the declared image size, mirror modes, rotation values -/

/-- C21: for every header pair, the four bytes that `writeHeaders` emits at the
offsets 34 to 37 are the little-endian bytes of 0 when `DibHeaderSize = 40` and
`Compression = 0`, and of the header's `ImageSize` in every other case. The
header is a parameter passed by value: `writeHeaders` yields bytes only, and the
caller's header is the argument `d` before and after. -/
theorem writeHeaders_imageSize (h : BMPHeader) (d : DIBHeader) :
    ((writeHeaders h d).drop 34).take 4 =
      putU32 (if d.DibHeaderSize = 40 ∧ d.Compression = 0 then 0 else d.ImageSize) ∧
    (d.DibHeaderSize = 40 ∧ d.Compression = 0 →
      ((writeHeaders h d).drop 34).take 4 = [0, 0, 0, 0]) ∧
    (¬ (d.DibHeaderSize = 40 ∧ d.Compression = 0) →
      ((writeHeaders h d).drop 34).take 4 =
        [toByte d.ImageSize, toByte (d.ImageSize / 256), toByte (d.ImageSize / 65536),
          toByte (d.ImageSize / 16777216)]) := by
  have key : ((writeHeaders h d).drop 34).take 4 =
      putU32 (if d.DibHeaderSize = 40 ∧ d.Compression = 0 then 0 else d.ImageSize) := by
    rw [writeHeaders_eq]
    simp only [v3Bytes, putU32, putI32, putU16, List.cons_append, List.nil_append,
      List.drop_succ_cons, List.drop_zero, List.take_succ_cons, List.take_zero]
  refine ⟨key, ?_, ?_⟩
  · intro hc
    rw [key, if_pos hc]
    rfl
  · intro hc
    rw [key, if_neg hc]
    rfl

/-- A loop whose body never returns an `error` value (only results and panics)
never returns one. -/
theorem forUp_no_err {σ : Type} (n : Nat) (body : Nat → σ → Result σ)
    (hbody : ∀ i s msg, body i s ≠ .error (.err msg)) (s : σ) (msg : String) :
    forUp n body s ≠ .error (.err msg) := by
  induction n with
  | zero => intro h; cases h
  | succ n ih =>
    rw [forUp_succ]
    cases hn : forUp n body s with
    | error e =>
      rw [error_bind]
      rw [hn] at ih
      exact ih
    | ok s' =>
      rw [ok_bind]
      exact hbody n s' msg

theorem scatter_no_err (height width : Nat) (f g : Nat → Nat → Nat) (src dst : List Pixel)
    (msg : String) : scatter height width f g src dst ≠ .error (.err msg) := by
  unfold scatter
  apply forUp_no_err
  intro y d m
  apply forUp_no_err
  intro x d' m'
  unfold index
  cases src[g y x]? with
  | none => intro h; cases h
  | some p =>
    rw [ok_bind]
    unfold assign
    split
    · intro h; cases h
    · intro h; cases h

/-- `ApplyMirror` returns the error for an invalid mode exactly when the mode is
not one of the eight accepted spellings. -/
theorem ApplyMirror_error_iff (g : List Pixel) (w h : Nat) (mode : String) :
    (∃ msg, ApplyMirror g w h mode = .error (.err msg)) ↔
      ¬ (mode = "horizontal" ∨ mode = "h" ∨ mode = "horizontally" ∨ mode = "hor" ∨
        mode = "vertical" ∨ mode = "v" ∨ mode = "vertically" ∨ mode = "ver") := by
  unfold ApplyMirror
  by_cases h1 : mode = "horizontal" ∨ mode = "h" ∨ mode = "horizontally" ∨ mode = "hor"
  · simp only [if_pos h1]
    constructor
    · rintro ⟨msg, hm⟩
      exact absurd hm (scatter_no_err h w _ _ g _ msg)
    · intro hn
      exact absurd (by tauto) hn
  · by_cases h2 : mode = "vertical" ∨ mode = "v" ∨ mode = "vertically" ∨ mode = "ver"
    · simp only [if_neg h1, if_pos h2]
      constructor
      · rintro ⟨msg, hm⟩
        exact absurd hm (scatter_no_err h w _ _ g _ msg)
      · intro hn
        exact absurd (by tauto) hn
    · simp only [if_neg h1, if_neg h2]
      constructor
      · intro _
        tauto
      · intro _
        exact ⟨_, rfl⟩

/-- C22 (as stated) fails: `ApplyMirror` compares the mode with the eight
lower-case spellings exactly. "Horizontal" equals "horizontal" up to letter case
and is rejected. -/
theorem ApplyMirror_not_case_insensitive :
    ¬ ∀ (g : List Pixel) (w h : Nat) (mode : String),
        mode.toList.map Char.toLower = "horizontal".toList →
        ∃ r, ApplyMirror g w h mode = .ok r := by
  intro hall
  obtain ⟨r, hr⟩ := hall sampleGrid 3 2 "Horizontal" (by decide)
  have he : ApplyMirror sampleGrid 3 2 "Horizontal" = .error (.err "invalid mirror mode") := by
    decide
  rw [he] at hr
  cases hr

/-- C22 (amended): for every grid and all dimensions, `ApplyMirror` returns the
error "invalid mirror mode" exactly when the mode is not one of "horizontal",
"h", "horizontally", "hor", "vertical", "v", "vertically", "ver" in this exact
(lower-case) spelling; "Horizontal" and "VERTICAL" are rejected. On a grid of
length `w * h` it succeeds for each of the eight spellings, the aliases giving
the same grid as "horizontal" or "vertical". -/
theorem ApplyMirror_mode_exact (g : List Pixel) (w h : Nat) (mode : String) :
    (ApplyMirror g w h mode = .error (.err "invalid mirror mode") ↔
      ¬ (mode = "horizontal" ∨ mode = "h" ∨ mode = "horizontally" ∨ mode = "hor" ∨
        mode = "vertical" ∨ mode = "v" ∨ mode = "vertically" ∨ mode = "ver")) ∧
    ApplyMirror g w h "Horizontal" = .error (.err "invalid mirror mode") ∧
    ApplyMirror g w h "VERTICAL" = .error (.err "invalid mirror mode") ∧
    ((mode = "horizontal" ∨ mode = "h" ∨ mode = "horizontally" ∨ mode = "hor") →
      ApplyMirror g w h mode = ApplyMirror g w h "horizontal") ∧
    ((mode = "vertical" ∨ mode = "v" ∨ mode = "vertically" ∨ mode = "ver") →
      ApplyMirror g w h mode = ApplyMirror g w h "vertical") ∧
    (g.length = w * h →
      (∃ r, ApplyMirror g w h "horizontal" = .ok r) ∧
      (∃ r, ApplyMirror g w h "vertical" = .ok r)) := by
  refine ⟨?_, ?_, ?_, ?_, ?_, ?_⟩
  · constructor
    · intro he
      exact (ApplyMirror_error_iff g w h mode).mp ⟨_, he⟩
    · intro hn
      unfold ApplyMirror
      rw [if_neg (by tauto), if_neg (by tauto)]
  · unfold ApplyMirror
    rw [if_neg (by decide), if_neg (by decide)]
  · unfold ApplyMirror
    rw [if_neg (by decide), if_neg (by decide)]
  · intro hm
    unfold ApplyMirror
    rw [if_pos hm, if_pos (by decide)]
  · intro hm
    have hn : ¬ (mode = "horizontal" ∨ mode = "h" ∨ mode = "horizontally" ∨ mode = "hor") := by
      rcases hm with rfl | rfl | rfl | rfl <;> decide
    unfold ApplyMirror
    rw [if_neg hn, if_pos hm, if_neg (by decide), if_pos (by decide)]
  · intro hlen
    obtain ⟨r1, hr1, -⟩ := mirror_horizontal_spec g w h hlen
    obtain ⟨r2, hr2, -⟩ := mirror_vertical_spec g w h hlen
    exact ⟨⟨r1, hr1⟩, ⟨r2, hr2⟩⟩

theorem bind_no_err {α β : Type} (x : Result α) (f : α → Result β) (msg : String)
    (hx : x ≠ .error (.err msg)) (hf : ∀ a, f a ≠ .error (.err msg)) :
    (x >>= f) ≠ .error (.err msg) := by
  cases x with
  | error e =>
    rw [error_bind]
    intro hc
    apply hx
    injection hc with hc
    rw [hc]
  | ok a => rw [ok_bind]; exact hf a

theorem ApplyRotate_no_err (g : List Pixel) (w h : Nat) (angle : Int)
    (ha : angle = 90 ∨ angle = 180 ∨ angle = 270) (msg : String) :
    ApplyRotate g w h angle ≠ .error (.err msg) := by
  rcases ha with rfl | rfl | rfl
  · rw [ApplyRotate_90_eq]
    exact bind_no_err _ _ msg (scatter_no_err _ _ _ _ _ _ msg) (fun _ hc => by cases hc)
  · rw [ApplyRotate_180_eq]
    exact bind_no_err _ _ msg (scatter_no_err _ _ _ _ _ _ msg) (fun _ hc => by cases hc)
  · rw [ApplyRotate_270_eq]
    exact bind_no_err _ _ msg (scatter_no_err _ _ _ _ _ _ msg) (fun _ hc => by cases hc)

theorem ParseRotationValue_ok (s : String) (a : Int) (h : ParseRotationValue s = .ok a) :
    a = 90 ∨ a = 180 ∨ a = 270 := by
  unfold ParseRotationValue at h
  split at h
  · injection h with h; exact Or.inl h.symm
  · split at h
    · injection h with h; exact Or.inr (Or.inr h.symm)
    · split at h
      · injection h with h; exact Or.inr (Or.inl h.symm)
      · cases h

/-- C23: `ParseRotationValue` returns 90 exactly for "right", "90", "-270", 270
exactly for "left", "270", "-90", 180 exactly for "180", "-180", and the error
for every other string; every value it returns is 90, 180 or 270. `ApplyRotate`
returns an error exactly for the angles other than 90, 180 and 270, so it never
returns an error for a parsed angle. -/
theorem ParseRotationValue_ApplyRotate (s : String) (g : List Pixel) (w h : Nat)
    (angle : Int) :
    (ParseRotationValue s = .ok 90 ↔ (s = "right" ∨ s = "90" ∨ s = "-270")) ∧
    (ParseRotationValue s = .ok 270 ↔ (s = "left" ∨ s = "270" ∨ s = "-90")) ∧
    (ParseRotationValue s = .ok 180 ↔ (s = "180" ∨ s = "-180")) ∧
    (ParseRotationValue s = .error (.err "not a valid angle value") ↔
      ¬ (s = "right" ∨ s = "90" ∨ s = "-270" ∨ s = "left" ∨ s = "270" ∨ s = "-90" ∨
        s = "180" ∨ s = "-180")) ∧
    (∀ a, ParseRotationValue s = .ok a → a = 90 ∨ a = 180 ∨ a = 270) ∧
    ((∃ msg, ApplyRotate g w h angle = .error (.err msg)) ↔
      ¬ (angle = 90 ∨ angle = 180 ∨ angle = 270)) ∧
    (∀ a, ParseRotationValue s = .ok a → ∀ msg, ApplyRotate g w h a ≠ .error (.err msg)) := by
  have h12 : (s = "right" ∨ s = "90" ∨ s = "-270") → ¬ (s = "left" ∨ s = "270" ∨ s = "-90") := by
    rintro (rfl | rfl | rfl) <;> decide
  have h13 : (s = "right" ∨ s = "90" ∨ s = "-270") → ¬ (s = "180" ∨ s = "-180") := by
    rintro (rfl | rfl | rfl) <;> decide
  have h23 : (s = "left" ∨ s = "270" ∨ s = "-90") → ¬ (s = "180" ∨ s = "-180") := by
    rintro (rfl | rfl | rfl) <;> decide
  refine ⟨?_, ?_, ?_, ?_, ParseRotationValue_ok s, ?_,
    fun a ha msg => ApplyRotate_no_err g w h a (ParseRotationValue_ok s a ha) msg⟩
  · unfold ParseRotationValue
    by_cases c1 : s = "right" ∨ s = "90" ∨ s = "-270"
    · rw [if_pos c1]; exact ⟨fun _ => c1, fun _ => rfl⟩
    · rw [if_neg c1]
      refine ⟨fun hv => ?_, fun hc => absurd hc c1⟩
      split at hv
      · injection hv with hv; exact absurd hv (by decide)
      · split at hv
        · injection hv with hv; exact absurd hv (by decide)
        · cases hv
  · unfold ParseRotationValue
    by_cases c1 : s = "right" ∨ s = "90" ∨ s = "-270"
    · rw [if_pos c1]
      refine ⟨fun hv => ?_, fun hc => absurd hc (h12 c1)⟩
      injection hv with hv; exact absurd hv (by decide)
    · rw [if_neg c1]
      by_cases c2 : s = "left" ∨ s = "270" ∨ s = "-90"
      · rw [if_pos c2]; exact ⟨fun _ => c2, fun _ => rfl⟩
      · rw [if_neg c2]
        refine ⟨fun hv => ?_, fun hc => absurd hc c2⟩
        split at hv
        · injection hv with hv; exact absurd hv (by decide)
        · cases hv
  · unfold ParseRotationValue
    by_cases c1 : s = "right" ∨ s = "90" ∨ s = "-270"
    · rw [if_pos c1]
      refine ⟨fun hv => ?_, fun hc => absurd hc (h13 c1)⟩
      injection hv with hv; exact absurd hv (by decide)
    · rw [if_neg c1]
      by_cases c2 : s = "left" ∨ s = "270" ∨ s = "-90"
      · rw [if_pos c2]
        refine ⟨fun hv => ?_, fun hc => absurd hc (h23 c2)⟩
        injection hv with hv; exact absurd hv (by decide)
      · rw [if_neg c2]
        by_cases c3 : s = "180" ∨ s = "-180"
        · rw [if_pos c3]; exact ⟨fun _ => c3, fun _ => rfl⟩
        · rw [if_neg c3]
          exact ⟨fun hv => (by cases hv), fun hc => absurd hc c3⟩
  · unfold ParseRotationValue
    by_cases c1 : s = "right" ∨ s = "90" ∨ s = "-270"
    · rw [if_pos c1]
      exact ⟨fun hv => (by cases hv), fun hn => absurd (by tauto) hn⟩
    · rw [if_neg c1]
      by_cases c2 : s = "left" ∨ s = "270" ∨ s = "-90"
      · rw [if_pos c2]
        exact ⟨fun hv => (by cases hv), fun hn => absurd (by tauto) hn⟩
      · rw [if_neg c2]
        by_cases c3 : s = "180" ∨ s = "-180"
        · rw [if_pos c3]
          exact ⟨fun hv => (by cases hv), fun hn => absurd (by tauto) hn⟩
        · rw [if_neg c3]
          exact ⟨fun _ => by tauto, fun _ => rfl⟩
  · constructor
    · rintro ⟨msg, hm⟩ ha
      exact ApplyRotate_no_err g w h angle ha msg hm
    · intro hn
      refine ⟨"not a valid angle value", ?_⟩
      unfold ApplyRotate
      rw [if_neg (fun hc => hn (Or.inl hc)), if_neg (fun hc => hn (Or.inr (Or.inl hc))),
        if_neg (fun hc => hn (Or.inr (Or.inr hc)))]

/-! ## Theorems: malformed crop values -/

theorem Atoi_error (t : List Char) (e : Fault) (h : Atoi t = .error e) : ∃ msg, e = .err msg := by
  unfold Atoi at h
  generalize signAndDigits t = sd at h
  obtain ⟨neg, digits⟩ := sd
  simp only at h
  split at h
  · injection h with h; exact ⟨_, h.symm⟩
  · split at h
    · injection h with h; exact ⟨_, h.symm⟩
    · split at h
      · split at h
        · injection h with h; exact ⟨_, h.symm⟩
        · cases h
      · split at h
        · injection h with h; exact ⟨_, h.symm⟩
        · cases h

theorem mapM_error_of {α β : Type} (f : α → Result β) (P : Fault → Prop)
    (hf : ∀ a e, f a = .error e → P e) :
    ∀ (l : List α) (e : Fault), l.mapM f = .error e → P e := by
  intro l
  induction l with
  | nil =>
    intro e h
    rw [List.mapM_nil] at h
    cases h
  | cons a l ih =>
    intro e h
    rw [List.mapM_cons] at h
    cases hfa : f a with
    | error e' =>
      rw [hfa, error_bind] at h
      injection h with h
      subst h
      exact hf a e' hfa
    | ok b =>
      rw [hfa, ok_bind] at h
      cases hl : l.mapM f with
      | error e' =>
        rw [hl, error_bind] at h
        injection h with h
        subst h
        exact ih e' hl
      | ok bs =>
        rw [hl, ok_bind] at h
        cases h

theorem ApplyCrop_of_parse_error (g : List Pixel) (w h : Int) (s : String) (e : Fault)
    (hp : parseOptions s = .error e) : ApplyCrop g w h s = .error e := by
  unfold ApplyCrop
  rw [hp]
  rfl

theorem ApplyCrop_of_count (g : List Pixel) (w h : Int) (s : String) (opts : List Int)
    (hp : parseOptions s = .ok opts) (hn : ¬ (opts.length = 2 ∨ opts.length = 4)) :
    ApplyCrop g w h s = .error (.err "invalid number of options") := by
  unfold ApplyCrop
  rw [hp, ok_bind]
  unfold parseAndValidateOptions
  rw [if_pos ⟨fun hc => hn (Or.inl hc), fun hc => hn (Or.inr hc)⟩]
  rfl

/-- C24: for every crop value, when the value does not split on "-" into exactly
2 or exactly 4 tokens that `Atoi` accepts, `ApplyCrop` returns an error and no
grid. The integers of an accepted value are the values of the tokens, one for
each token, and every one is non-negative; "-1-0" splits into the tokens "",
"1", "0" and is rejected as not an integer. -/
theorem ApplyCrop_malformed (g : List Pixel) (w h : Int) (s : String) :
    ((¬ ∃ opts, parseOptions s = .ok opts ∧ (opts.length = 2 ∨ opts.length = 4)) →
      ∃ msg, ApplyCrop g w h s = .error (.err msg)) ∧
    (∀ opts, parseOptions s = .ok opts →
      opts.length = (splitOn '-' s.toList).length ∧
      (∀ o ∈ opts, ∃ t ∈ splitOn '-' s.toList, Atoi t = .ok o) ∧
      ∀ o ∈ opts, 0 ≤ o) ∧
    (∀ r, ApplyCrop g w h s = .ok r →
      ∃ opts, parseOptions s = .ok opts ∧ (opts.length = 2 ∨ opts.length = 4) ∧
        ∀ o ∈ opts, 0 ≤ o) ∧
    splitOn '-' "-1-0".toList = [[], ['1'], ['0']] ∧
    ApplyCrop g w h "-1-0" = .error (.err "strconv.Atoi: invalid syntax") := by
  have hshape : ∀ opts, parseOptions s = .ok opts →
      opts.length = (splitOn '-' s.toList).length ∧
      (∀ o ∈ opts, ∃ t ∈ splitOn '-' s.toList, Atoi t = .ok o) ∧
      ∀ o ∈ opts, 0 ≤ o := by
    intro opts hp
    obtain ⟨h1, h2⟩ := mapM_ok_mem Atoi _ _ hp
    exact ⟨h1, h2, fun o ho => (parseOptions_nonneg s opts hp o ho).1⟩
  have hrej : (¬ ∃ opts, parseOptions s = .ok opts ∧ (opts.length = 2 ∨ opts.length = 4)) →
      ∃ msg, ApplyCrop g w h s = .error (.err msg) := by
    intro hn
    cases hp : parseOptions s with
    | error e =>
      obtain ⟨msg, rfl⟩ := mapM_error_of Atoi (fun e => ∃ msg, e = .err msg) Atoi_error _ e hp
      exact ⟨msg, ApplyCrop_of_parse_error g w h s _ hp⟩
    | ok opts =>
      exact ⟨_, ApplyCrop_of_count g w h s opts hp (fun hc => hn ⟨opts, hp, hc⟩)⟩
  refine ⟨hrej, hshape, ?_, by decide, ?_⟩
  · intro r hr
    by_contra hn
    have hn' : ¬ ∃ opts, parseOptions s = .ok opts ∧ (opts.length = 2 ∨ opts.length = 4) := by
      rintro ⟨opts, hp, hc⟩
      exact hn ⟨opts, hp, hc, (hshape opts hp).2.2⟩
    obtain ⟨msg, hm⟩ := hrej hn'
    rw [hm] at hr
    cases hr
  · exact ApplyCrop_of_parse_error g w h "-1-0" _ (by decide)

/-! ## Theorems: the averaging divisions -/

/-- C27: for every `w`, `h` and grid of length `w * h`, `applyPixelation` (block
size 20) and `applyBlur` (kernel size 25) succeed, so no division panics; at every
position the divisor, the number of pixels of the block or of the window inside
the image, is at least 1, every quotient `sum / count` of a channel is at most
255, and the result pixel holds these quotients unchanged by the conversion to
8 bits. -/
theorem averaging_divisions_safe (g : List Pixel) (w h : Nat) (hlen : g.length = w * h) :
    ∃ rp rb, applyPixelation g w h 20 = .ok rp ∧ applyBlur g w h 25 = .ok rb ∧
      ∀ x y, x < w → y < h →
        1 ≤ specBlockCount 20 w h x y ∧ 1 ≤ specWindowCount 12 w h x y ∧
        (∀ chan : Pixel → Byte,
          specBlockSum 20 chan g w h x y / specBlockCount 20 w h x y ≤ 255 ∧
          specWindowSum 12 chan g w h x y / specWindowCount 12 w h x y ≤ 255) ∧
        (∃ p b : Pixel, rp[y * w + x]? = some p ∧ rb[y * w + x]? = some b ∧
          p.Red.val = specBlockSum 20 Pixel.Red g w h x y / specBlockCount 20 w h x y ∧
          p.Green.val = specBlockSum 20 Pixel.Green g w h x y / specBlockCount 20 w h x y ∧
          p.Blue.val = specBlockSum 20 Pixel.Blue g w h x y / specBlockCount 20 w h x y ∧
          b.Red.val = specWindowSum 12 Pixel.Red g w h x y / specWindowCount 12 w h x y ∧
          b.Green.val = specWindowSum 12 Pixel.Green g w h x y / specWindowCount 12 w h x y ∧
          b.Blue.val = specWindowSum 12 Pixel.Blue g w h x y / specWindowCount 12 w h x y) := by
  obtain ⟨rp, hrp, -, hp⟩ := applyPixelation_spec g w h 20 (by decide) hlen
  obtain ⟨rb, hrb, -, hb, -⟩ := applyBlur_fill g w h 25 hlen
  refine ⟨rp, rb, hrp, hrb, ?_⟩
  intro x y hx hy
  have hq : ∀ s n : Nat, s ≤ 255 * n → s / n ≤ 255 := by
    intro s n hs
    rcases Nat.eq_zero_or_pos n with h0 | h0
    · rw [h0, Nat.div_zero]; omega
    · exact Nat.div_le_of_le_mul (by rw [Nat.mul_comm]; exact hs)
  refine ⟨specBlockCount_pos 20 w h x y (by decide) hx hy, specWindowCount_pos 12 w h x y hx hy,
    fun chan => ⟨hq _ _ (specBlockSum_le 20 chan g w h x y),
      hq _ _ (specWindowSum_le 12 chan g w h x y)⟩,
    _, _, hp x y hx hy, hb y x hy hx, ?_, ?_, ?_, ?_, ?_, ?_⟩
  · exact mean_byte _ _ (specBlockSum_le 20 Pixel.Red g w h x y)
  · exact mean_byte _ _ (specBlockSum_le 20 Pixel.Green g w h x y)
  · exact mean_byte _ _ (specBlockSum_le 20 Pixel.Blue g w h x y)
  · exact mean_byte _ _ (specWindowSum_le 12 Pixel.Red g w h x y)
  · exact mean_byte _ _ (specWindowSum_le 12 Pixel.Green g w h x y)
  · exact mean_byte _ _ (specWindowSum_le 12 Pixel.Blue g w h x y)

/-- Witness for C27: the 3 x 2 sample grid. -/
theorem averaging_divisions_safe_witness :
    sampleGrid.length = 3 * 2 ∧
    ∃ rp rb, applyPixelation sampleGrid 3 2 20 = .ok rp ∧ applyBlur sampleGrid 3 2 25 = .ok rb :=
  ⟨rfl,
    match averaging_divisions_safe sampleGrid 3 2 rfl with
    | ⟨rp, rb, h1, h2, _⟩ => ⟨rp, rb, h1, h2⟩⟩

/-! ## Theorems: the headers that reach the pixel reader -/

theorem bind_ok_inv {α β : Type} (x : Result α) (f : α → Result β) (b : β)
    (h : (x >>= f) = .ok b) : ∃ a, x = .ok a ∧ f a = .ok b := by
  cases x with
  | error e => rw [error_bind] at h; cases h
  | ok a => exact ⟨a, rfl, h⟩

theorem readV3Fields_size (d d' : DIBHeader) (buf buf' : List Byte)
    (h : readV3Fields d buf = .ok (d', buf')) : d'.DibHeaderSize = d.DibHeaderSize := by
  unfold readV3Fields at h
  obtain ⟨⟨v1, b1⟩, -, h⟩ := bind_ok_inv _ _ _ h
  obtain ⟨⟨v2, b2⟩, -, h⟩ := bind_ok_inv _ _ _ h
  obtain ⟨⟨v3, b3⟩, -, h⟩ := bind_ok_inv _ _ _ h
  obtain ⟨⟨v4, b4⟩, -, h⟩ := bind_ok_inv _ _ _ h
  obtain ⟨⟨v5, b5⟩, -, h⟩ := bind_ok_inv _ _ _ h
  obtain ⟨⟨v6, b6⟩, -, h⟩ := bind_ok_inv _ _ _ h
  obtain ⟨⟨v7, b7⟩, -, h⟩ := bind_ok_inv _ _ _ h
  obtain ⟨⟨v8, b8⟩, -, h⟩ := bind_ok_inv _ _ _ h
  obtain ⟨⟨v9, b9⟩, -, h⟩ := bind_ok_inv _ _ _ h
  obtain ⟨⟨v10, b10⟩, -, h⟩ := bind_ok_inv _ _ _ h
  cases h
  rfl

theorem readV4Fields_size (d d' : DIBHeader) (buf buf' : List Byte)
    (h : readV4Fields d buf = .ok (d', buf')) : d'.DibHeaderSize = d.DibHeaderSize := by
  unfold readV4Fields at h
  obtain ⟨⟨v1, b1⟩, -, h⟩ := bind_ok_inv _ _ _ h
  obtain ⟨⟨v2, b2⟩, -, h⟩ := bind_ok_inv _ _ _ h
  obtain ⟨⟨v3, b3⟩, -, h⟩ := bind_ok_inv _ _ _ h
  obtain ⟨⟨v4, b4⟩, -, h⟩ := bind_ok_inv _ _ _ h
  obtain ⟨⟨v5, b5⟩, -, h⟩ := bind_ok_inv _ _ _ h
  obtain ⟨⟨v6, b6⟩, -, h⟩ := bind_ok_inv _ _ _ h
  obtain ⟨⟨v7, b7⟩, -, h⟩ := bind_ok_inv _ _ _ h
  obtain ⟨⟨v8, b8⟩, -, h⟩ := bind_ok_inv _ _ _ h
  obtain ⟨⟨v9, b9⟩, -, h⟩ := bind_ok_inv _ _ _ h
  cases h
  rfl

theorem readV5Fields_size (d d' : DIBHeader) (buf buf' : List Byte)
    (h : readV5Fields d buf = .ok (d', buf')) : d'.DibHeaderSize = d.DibHeaderSize := by
  unfold readV5Fields at h
  obtain ⟨⟨v1, b1⟩, -, h⟩ := bind_ok_inv _ _ _ h
  obtain ⟨⟨v2, b2⟩, -, h⟩ := bind_ok_inv _ _ _ h
  obtain ⟨⟨v3, b3⟩, -, h⟩ := bind_ok_inv _ _ _ h
  obtain ⟨⟨v4, b4⟩, -, h⟩ := bind_ok_inv _ _ _ h
  cases h
  rfl

/-- A header pair returned by `readHeaders` declares one of the three supported
sizes. -/
theorem readHeaders_size (file : List Byte) (hdr : BMPHeader) (d : DIBHeader)
    (h : readHeaders file = .ok (hdr, d)) :
    d.DibHeaderSize = 40 ∨ d.DibHeaderSize = 108 ∨ d.DibHeaderSize = 124 := by
  unfold readHeaders at h
  obtain ⟨⟨hdr0, f1⟩, -, h⟩ := bind_ok_inv _ _ _ h
  obtain ⟨⟨size, f2⟩, -, h⟩ := bind_ok_inv _ _ _ h
  dsimp only at h
  split at h
  · cases h
  · rename_i hsz
    obtain ⟨⟨bytes, f3⟩, -, h⟩ := bind_ok_inv _ _ _ h
    obtain ⟨⟨d1, b1⟩, h1, h⟩ := bind_ok_inv _ _ _ h
    have e1 : d1.DibHeaderSize = size := readV3Fields_size _ _ _ _ h1
    have hsize : size = 40 ∨ size = 108 ∨ size = 124 := by omega
    dsimp only at h
    split at h
    · cases h
      rw [e1]; exact hsize
    · rename_i h40
      split at h
      · obtain ⟨⟨d2, b2⟩, h2, h⟩ := bind_ok_inv _ _ _ h
        have e2 : d2.DibHeaderSize = size := by
          rw [readV4Fields_size _ _ _ _ h2, e1]
        dsimp only at h
        split at h
        · cases h
          rw [e2]; exact hsize
        · split at h
          · obtain ⟨⟨d3, b3⟩, h3, h⟩ := bind_ok_inv _ _ _ h
            cases h
            rw [readV5Fields_size _ _ _ _ h3, e2]; exact hsize
          · omega
      · omega

theorem validateFile_ok_inv (bmpHeader : BMPHeader) (dibHeader : DIBHeader) (n : Int)
    (hv : validateFile bmpHeader dibHeader n = .ok ()) :
    bmpHeader.Signature = (66, 77) ∧ dibHeader.BitCount = 24 ∧ dibHeader.Compression = 0 ∧
    bmpHeader.DataOffset = (14 + dibHeader.DibHeaderSize) % 4294967296 := by
  unfold validateFile at hv
  by_cases h1 : bmpHeader.Signature ≠ (66, 77)
  · rw [if_pos h1] at hv; cases hv
  rw [if_neg h1] at hv
  by_cases h2 : dibHeader.BitCount ≠ 24
  · rw [if_pos h2] at hv; cases hv
  rw [if_neg h2] at hv
  by_cases h3 : dibHeader.Compression ≠ 0
  · rw [if_pos h3] at hv; cases hv
  rw [if_neg h3] at hv
  dsimp only at hv
  by_cases h4 : (bmpHeader.DataOffset : Int) ≠
      (((14 + dibHeader.DibHeaderSize) % 4294967296 : Nat) : Int)
  · rw [if_pos h4] at hv; cases hv
  exact ⟨not_not.mp h1, not_not.mp h2, not_not.mp h3, Int.ofNat_inj.mp (not_not.mp h4)⟩

theorem ReadHeaders_ok_inv (file : List Byte) (hdr : BMPHeader) (d : DIBHeader)
    (h : ReadHeaders file = .ok (hdr, d)) :
    readHeaders file = .ok (hdr, d) ∧ validateFile hdr d (file.length : Int) = .ok () := by
  unfold ReadHeaders at h
  split at h
  · cases h
  · obtain ⟨⟨hdr', d'⟩, h1, h⟩ := bind_ok_inv _ _ _ h
    dsimp only at h
    obtain ⟨u, h2, h⟩ := bind_ok_inv _ _ _ h
    cases h
    exact ⟨h1, h2⟩

/-- C25 fails on the code: neither `validateFile` nor the size check of
`ReadPixels` looks at the sign of the width and the height. The 54-byte file
`negativeFile` declares the width -1 and the height 1; `ReadHeaders` accepts it
(the expected size is `54 + (-1) * 1 * 3 = 51`), the size check passes, and
`ReadPixels` panics in `make([]Pixel, width*height)`. What does hold for every
header that `ReadHeaders` accepts and that passes the size check: the upper
bounds, `BitCount = 24`, `Compression = 0`, the signature and
`DataOffset = 14 + DibHeaderSize`. -/
theorem ReadPixels_negative_width_accepted :
    ReadHeaders negativeFile = .ok (negativeBMP, negativeDIB) ∧
    ¬ (negativeDIB.Width > 65536 ∨ negativeDIB.Height > 65536) ∧
    negativeDIB.Width = -1 ∧
    ReadPixels negativeFile negativeBMP negativeDIB =
      .error (.panic "makeslice: len out of range") ∧
    ∀ (file : List Byte) (hdr : BMPHeader) (d : DIBHeader),
      ReadHeaders file = .ok (hdr, d) → ¬ (d.Width > 65536 ∨ d.Height > 65536) →
      d.Width ≤ 65536 ∧ d.Height ≤ 65536 ∧ d.BitCount = 24 ∧ d.Compression = 0 ∧
      hdr.Signature = (66, 77) ∧ hdr.DataOffset = 14 + d.DibHeaderSize ∧
      (d.DibHeaderSize = 40 ∨ d.DibHeaderSize = 108 ∨ d.DibHeaderSize = 124) := by
  refine ⟨by decide, by decide, rfl, by decide, ?_⟩
  intro file hdr d h hsz
  obtain ⟨hr, hv⟩ := ReadHeaders_ok_inv file hdr d h
  have hs := readHeaders_size file hdr d hr
  obtain ⟨h1, h2, h3, h4⟩ := validateFile_ok_inv hdr d _ hv
  refine ⟨by omega, by omega, h2, h3, h1, ?_, hs⟩
  rw [h4]
  omega

/-! ## Theorems: the option loop of `main` -/

/-- A property that every successful iteration keeps holds after a successful
loop. -/
theorem forUp_preserves {σ : Type} (n : Nat) (body : Nat → σ → Result σ) (Q : σ → Prop)
    (hbody : ∀ i s s', Q s → body i s = .ok s' → Q s') (s : σ) (hs : Q s) :
    ∀ r, forUp n body s = .ok r → Q r := by
  induction n with
  | zero =>
    intro r h
    rw [forUp_zero] at h
    cases h
    exact hs
  | succ n ih =>
    intro r h
    rw [forUp_succ] at h
    obtain ⟨s1, h1, h2⟩ := bind_ok_inv _ _ _ h
    exact hbody n s1 r (ih s1 h1) h2

theorem assign_length {α : Type} (xs : List α) (i : Nat) (a : α) (r : List α)
    (h : assign xs i a = .ok r) : r.length = xs.length := by
  unfold assign at h
  split at h
  · cases h
    exact List.length_set _ _ _
  · cases h

theorem scatter_length (height width : Nat) (f g : Nat → Nat → Nat) (src dst r : List Pixel)
    (h : scatter height width f g src dst = .ok r) : r.length = dst.length := by
  unfold scatter at h
  refine forUp_preserves height _ (fun d => d.length = dst.length) ?_ dst rfl r h
  intro y d d' hd hy
  refine forUp_preserves width _ (fun d => d.length = dst.length) ?_ d hd d' hy
  intro x e e' he hx
  obtain ⟨p, -, hx⟩ := bind_ok_inv _ _ _ hx
  rw [assign_length _ _ _ _ hx, he]

theorem ApplyMirror_length (g : List Pixel) (w h : Nat) (mode : String) (r : List Pixel)
    (hr : ApplyMirror g w h mode = .ok r) : r.length = g.length := by
  unfold ApplyMirror at hr
  dsimp only at hr
  split at hr
  · rw [scatter_length h w (fun y x => y * w + (w - 1 - x)) (fun y x => y * w + x) g
      (List.replicate g.length Pixel.zero) r hr, List.length_replicate]
  · split at hr
    · rw [scatter_length h w (fun y x => (h - 1 - y) * w + x) (fun y x => y * w + x) g
        (List.replicate g.length Pixel.zero) r hr, List.length_replicate]
    · cases hr

theorem applyPixelation_length (g : List Pixel) (w h b : Nat) (r : List Pixel)
    (hr : applyPixelation g w h b = .ok r) : r.length = g.length := by
  unfold applyPixelation at hr
  refine forUp_preserves _ _ (fun d => d.length = g.length) ?_ g rfl r hr
  intro ky d d' hd hy
  refine forUp_preserves _ _ (fun d => d.length = g.length) ?_ d hd d' hy
  intro kx e e' he hx
  obtain ⟨⟨sumR, sumG, sumB, count⟩, -, hx⟩ := bind_ok_inv _ _ _ hx
  dsimp only at hx
  split at hx
  · cases hx
  · refine forUp_preserves _ _ (fun d => d.length = g.length) ?_ e he e' hx
    intro dy a a' ha hdy
    refine forUp_preserves _ _ (fun d => d.length = g.length) ?_ a ha a' hdy
    intro dx c c' hc hdx
    rw [assign_length _ _ _ _ hdx, hc]

theorem applyBlur_length (g : List Pixel) (w h k : Nat) (r : List Pixel)
    (hr : applyBlur g w h k = .ok r) : r.length = g.length := by
  unfold applyBlur at hr
  refine forUp_preserves _ _ (fun d => d.length = g.length) ?_ _
    (List.length_replicate _ _) r hr
  intro y d d' hd hy
  refine forUp_preserves _ _ (fun d => d.length = g.length) ?_ d hd d' hy
  intro x e e' he hx
  obtain ⟨⟨sumR, sumG, sumB, count⟩, -, hx⟩ := bind_ok_inv _ _ _ hx
  dsimp only at hx
  split at hx
  · cases hx
  · rw [assign_length _ _ _ _ hx, he]

theorem ApplyFilter_length (luma : Byte → Byte → Byte → Byte) (g : List Pixel) (w h : Nat)
    (filterType : String) (r : List Pixel) (hr : ApplyFilter luma g w h filterType = .ok r) :
    r.length = g.length := by
  unfold ApplyFilter at hr
  split at hr
  · exact applyPixelation_length g w h 20 r hr
  · split at hr
    · exact applyBlur_length g w h 25 r hr
    · split at hr
      · cases hr; exact List.length_map _ _
      · split at hr
        · cases hr; exact List.length_map _ _
        · split at hr
          · cases hr; exact List.length_map _ _
          · split at hr
            · cases hr; exact List.length_map _ _
            · split at hr
              · cases hr; exact List.length_map _ _
              · cases hr

theorem toI32_of_isI32 (x : Int) (h : isI32 x) : toI32 x = x := by
  unfold isI32 at h
  unfold toI32 asI32
  split <;> omega

theorem toI32_isI32 (x : Int) : isI32 (toI32 x) := by
  unfold isI32 toI32 asI32
  split <;> omega

theorem i32_mul_bounds (W H : Int) (hW : isI32 W) (hH : isI32 H) :
    -4611686018427387904 ≤ W * H ∧ W * H ≤ 4611686018427387904 := by
  obtain ⟨w1, w2⟩ := hW
  obtain ⟨h1, h2⟩ := hH
  constructor
  · nlinarith [mul_nonneg (sub_nonneg.mpr w1) (sub_nonneg.mpr h1),
      mul_nonneg (sub_nonneg.mpr (le_of_lt w2)) (sub_nonneg.mpr (le_of_lt h2))]
  · nlinarith [mul_nonneg (sub_nonneg.mpr w1) (sub_nonneg.mpr (le_of_lt h2)),
      mul_nonneg (sub_nonneg.mpr (le_of_lt w2)) (sub_nonneg.mpr h1)]

/-- The call of `ApplyRotate` in `main` on a grid of length `Width * Height`, for
an angle of 90, 180 or 270: it never returns an error, and when it returns, the
grid has the length of the product of the returned dimensions, which are the
old ones (for 180) or the old ones exchanged. -/
theorem ApplyRotateInt_ok (g : List Pixel) (W H angle : Int) (hW : isI32 W) (hH : isI32 H)
    (hlen : (g.length : Int) = W * H) (ha : angle = 90 ∨ angle = 180 ∨ angle = 270) :
    (∀ msg, ApplyRotateInt g W H angle ≠ .error (.err msg)) ∧
    ∀ r nw nh, ApplyRotateInt g W H angle = .ok (r, nw, nh) →
      (r.length : Int) = nw * nh ∧ isI32 nw ∧ isI32 nh ∧
      (nw, nh) = (if angle = 180 then (W, H) else (H, W)) := by
  obtain ⟨hb1, hb2⟩ := i32_mul_bounds W H hW hH
  have hwrap : wrapInt (W * H) = W * H := wrapInt_of_range _ (by omega) (by omega)
  have hnn : ¬ W * H < 0 := by omega
  unfold ApplyRotateInt
  rw [if_pos ha]
  dsimp only
  rw [hwrap, if_neg hnn]
  by_cases hz : W ≤ 0 ∨ H ≤ 0
  · rw [if_pos hz]
    refine ⟨fun msg hc => (by cases hc), ?_⟩
    intro r nw nh hr
    injection hr with hr
    simp only [Prod.mk.injEq] at hr
    obtain ⟨rfl, hd⟩ := hr
    have hl : ((List.replicate (W * H).toNat Pixel.zero).length : Int) = W * H := by
      rw [List.length_replicate]
      omega
    by_cases h180 : angle = 180
    · rw [if_pos h180, Prod.mk.injEq] at hd
      obtain ⟨rfl, rfl⟩ := hd
      exact ⟨hl, hW, hH, (by rw [if_pos h180])⟩
    · rw [if_neg h180, Prod.mk.injEq] at hd
      obtain ⟨rfl, rfl⟩ := hd
      exact ⟨(by rw [hl, Int.mul_comm]), hH, hW, (by rw [if_neg h180])⟩
  · rw [if_neg hz]
    obtain ⟨w, rfl⟩ := Int.eq_ofNat_of_zero_le (show 0 ≤ W by omega)
    obtain ⟨h, rfl⟩ := Int.eq_ofNat_of_zero_le (show 0 ≤ H by omega)
    have hlen' : g.length = w * h := by exact_mod_cast hlen
    rw [Int.toNat_ofNat, Int.toNat_ofNat]
    rcases ha with rfl | rfl | rfl
    · obtain ⟨r1, hr1, hl1, -⟩ := rotate90_spec g w h hlen'
      rw [hr1]
      refine ⟨fun msg hc => (by cases hc), ?_⟩
      intro r nw nh hr
      injection hr with hr
      simp only [Prod.mk.injEq] at hr
      obtain ⟨rfl, rfl, rfl⟩ := hr
      exact ⟨(by rw [hl1]; push_cast; rfl), hH, hW, by rw [if_neg (by decide)]⟩
    · obtain ⟨r1, hr1, hl1, -⟩ := rotate180_spec g w h hlen'
      rw [hr1]
      refine ⟨fun msg hc => (by cases hc), ?_⟩
      intro r nw nh hr
      injection hr with hr
      simp only [Prod.mk.injEq] at hr
      obtain ⟨rfl, rfl, rfl⟩ := hr
      exact ⟨(by rw [hl1]; push_cast; rfl), hW, hH, by rw [if_pos rfl]⟩
    · obtain ⟨r1, hr1, hl1, -⟩ := rotate270_spec g w h hlen'
      rw [hr1]
      refine ⟨fun msg hc => (by cases hc), ?_⟩
      intro r nw nh hr
      injection hr with hr
      simp only [Prod.mk.injEq] at hr
      obtain ⟨rfl, rfl, rfl⟩ := hr
      exact ⟨(by rw [hl1]; push_cast; rfl), hH, hW, by rw [if_neg (by decide)]⟩

theorem lt_length_of_getElem? {α : Type} (l : List α) (i : Nat) (a : α) (h : l[i]? = some a) :
    i < l.length := by
  by_contra hc
  rw [List.getElem?_eq_none (by omega)] at h
  cases h

/-- A crop that `ApplyCrop` accepts on a grid of length `Width * Height` returns
non-negative dimensions whose product is the length of the returned grid, and
both dimensions are below `2^31` unless one of them is 0. -/
theorem ApplyCrop_ok_dims (g : List Pixel) (W H : Int) (hW : isI32 W) (hH : isI32 H)
    (hlen : (g.length : Int) = W * H) (s : String) (r : List Pixel) (cw ch : Int)
    (hacc : ApplyCrop g W H s = .ok (r, cw, ch)) :
    ∃ cwn chn : Nat, cw = (cwn : Int) ∧ ch = (chn : Int) ∧ r.length = cwn * chn ∧
      (cwn = 0 ∨ chn = 0 ∨ (cwn < 2147483648 ∧ chn < 2147483648)) := by
  unfold ApplyCrop at hacc
  obtain ⟨opts, hp, hacc⟩ := bind_ok_inv _ _ _ hacc
  obtain ⟨⟨ox, oy, cw', ch'⟩, hv, hacc⟩ := bind_ok_inv _ _ _ hacc
  dsimp only at hacc
  split at hacc
  · cases hacc
  · obtain ⟨r', hloop, hacc⟩ := bind_ok_inv _ _ _ hacc
    injection hacc with hacc
    simp only [Prod.mk.injEq] at hacc
    obtain ⟨rfl, rfl, rfl⟩ := hacc
    have hnn := parseOptions_nonneg s opts hp
    obtain ⟨hshape, hox0, hoy0, hoxw, hoyh, hvx, hvy⟩ :=
      parseAndValidateOptions_ok opts _ _ _ _ _ _ hv
    obtain ⟨w, rfl⟩ := Int.eq_ofNat_of_zero_le (show 0 ≤ W by omega)
    obtain ⟨h, rfl⟩ := Int.eq_ofNat_of_zero_le (show 0 ≤ H by omega)
    have hw : w < 2147483648 := by unfold isI32 at hW; omega
    have hh : h < 2147483648 := by unfold isI32 at hH; omega
    have hlen' : g.length = w * h := by exact_mod_cast hlen
    obtain ⟨oxn, rfl⟩ := Int.eq_ofNat_of_zero_le hox0
    obtain ⟨oyn, rfl⟩ := Int.eq_ofNat_of_zero_le hoy0
    have hoxw' : oxn < w := Int.ofNat_lt.mp hoxw
    have hoyh' : oyn < h := Int.ofNat_lt.mp hoyh
    have hcore : ∃ cwn chn : Nat, cw' = (cwn : Int) ∧ ch' = (chn : Int) ∧
        cwn < 9223372036854775808 ∧ r'.length = cwn * chn ∧
        ∀ x y, x < cwn → y < chn → ∃ p, g[(oyn + y) * w + oxn + x]? = some p := by
      rcases hshape with ⟨hopts, hcw, hch⟩ | hopts
      · rw [wrapInt_sub_cast w oxn hw hoxw'] at hcw
        rw [wrapInt_sub_cast h oyn hh hoyh'] at hch
        subst hcw hch
        obtain ⟨hl, hpix⟩ := crop_core g w h oxn oyn (w - oxn) (h - oyn) hw hh hlen'
          hoxw' hoyh' (by omega) (by omega) hvx hvy r' hloop
        exact ⟨w - oxn, h - oyn, rfl, rfl, by omega, hl, fun x y hx hy =>
          (hpix x y hx hy).imp fun p hp => hp.1⟩
      · have hcw := hnn cw' (by rw [hopts]; simp)
        have hch := hnn ch' (by rw [hopts]; simp)
        obtain ⟨cwn, rfl⟩ := Int.eq_ofNat_of_zero_le hcw.1
        obtain ⟨chn, rfl⟩ := Int.eq_ofNat_of_zero_le hch.1
        obtain ⟨hl, hpix⟩ := crop_core g w h oxn oyn cwn chn hw hh hlen'
          hoxw' hoyh' (Int.ofNat_lt.mp hcw.2) (Int.ofNat_lt.mp hch.2) hvx hvy r' hloop
        exact ⟨cwn, chn, rfl, rfl, Int.ofNat_lt.mp hcw.2, hl, fun x y hx hy =>
          (hpix x y hx hy).imp fun p hp => hp.1⟩
    obtain ⟨cwn, chn, rfl, rfl, hcwb, hl, hpix⟩ := hcore
    refine ⟨cwn, chn, rfl, rfl, hl, ?_⟩
    by_cases hc0 : cwn = 0
    · exact Or.inl hc0
    by_cases hh0 : chn = 0
    · exact Or.inr (Or.inl hh0)
    refine Or.inr (Or.inr ?_)
    obtain ⟨p, hp⟩ := hpix (cwn - 1) (chn - 1) (by omega) (by omega)
    have hi := lt_length_of_getElem? g _ p hp
    rw [hlen'] at hi
    have hmul := dims_mul_lt w h hw hh
    have hrow : oyn + (chn - 1) < h := by
      by_contra hc
      have := Nat.mul_le_mul_right w (Nat.le_of_not_lt hc)
      rw [Nat.mul_comm h w] at this
      omega
    have hsum : oxn + cwn ≤ w := by
      have hno : wrapInt (((oxn + cwn : Nat) : Int)) = ((oxn + cwn : Nat) : Int) :=
        wrapInt_cast _ (by omega)
      rw [← Nat.cast_add, hno] at hvx
      exact_mod_cast hvx
    exact ⟨by omega, by omega⟩

/-- One option of the loop of `main` on a grid of length `Width * Height` with
`int32` dimensions: when it is applied successfully, the new grid has the length
`Width * Height` of the new header, only `Width`, `Height` and `ImageSize` of
the header can differ, mirror and filter keep the header and the length, rotate
sets `Width` and `Height` to the dimensions `ApplyRotate` returns, and crop sets
them to the `int32` conversions of the dimensions `ApplyCrop` returns, which are
these dimensions whenever they are below `2^31`. -/
theorem applyOption_step (luma : Byte → Byte → Byte → Byte) (pixels : List Pixel)
    (d : DIBHeader) (opt : CliOption) (pixels' : List Pixel) (d' : DIBHeader)
    (hlen : (pixels.length : Int) = d.Width * d.Height) (hW : isI32 d.Width)
    (hH : isI32 d.Height)
    (hstep : applyOption luma (pixels, d) opt = .ok (pixels', d')) :
    ((pixels'.length : Int) = d'.Width * d'.Height ∧ isI32 d'.Width ∧ isI32 d'.Height) ∧
    d' = { d with Width := d'.Width, Height := d'.Height, ImageSize := d'.ImageSize } ∧
    ((opt.Name = "--mirror" ∨ opt.Name = "--filter") →
      d' = d ∧ pixels'.length = pixels.length) ∧
    (opt.Name = "--rotate" → d'.ImageSize = d.ImageSize ∧
      ∃ angle, ParseRotationValue opt.Value = .ok angle ∧
        ApplyRotateInt pixels d.Width d.Height angle = .ok (pixels', d'.Width, d'.Height)) ∧
    (opt.Name = "--crop" →
      ∃ cw ch, ApplyCrop pixels d.Width d.Height opt.Value = .ok (pixels', cw, ch) ∧
        0 ≤ cw ∧ 0 ≤ ch ∧ d'.Width = toI32 cw ∧ d'.Height = toI32 ch ∧
        d'.ImageSize = (wrapInt (wrapInt (cw * ch) * 3) % 4294967296).toNat ∧
        (cw < 2147483648 → d'.Width = cw) ∧ (ch < 2147483648 → d'.Height = ch) ∧
        (cw ≠ 0 → ch ≠ 0 → cw < 2147483648 ∧ ch < 2147483648)) := by
  unfold applyOption at hstep
  dsimp only at hstep
  by_cases n1 : opt.Name = "--mirror"
  · rw [if_pos n1] at hstep
    obtain ⟨r, hr, hstep⟩ := bind_ok_inv _ _ _ hstep
    cases hstep
    have hl := ApplyMirror_length _ _ _ _ _ hr
    refine ⟨⟨by rw [hl]; exact hlen, hW, hH⟩, rfl, fun _ => ⟨rfl, hl⟩, ?_, ?_⟩
    · intro hc; rw [n1] at hc; exact absurd hc (by decide)
    · intro hc; rw [n1] at hc; exact absurd hc (by decide)
  rw [if_neg n1] at hstep
  by_cases n2 : opt.Name = "--filter"
  · rw [if_pos n2] at hstep
    obtain ⟨r, hr, hstep⟩ := bind_ok_inv _ _ _ hstep
    cases hstep
    have hl := ApplyFilter_length _ _ _ _ _ _ hr
    refine ⟨⟨by rw [hl]; exact hlen, hW, hH⟩, rfl, fun _ => ⟨rfl, hl⟩, ?_, ?_⟩
    · intro hc; rw [n2] at hc; exact absurd hc (by decide)
    · intro hc; rw [n2] at hc; exact absurd hc (by decide)
  rw [if_neg n2] at hstep
  by_cases n3 : opt.Name = "--rotate"
  · rw [if_pos n3] at hstep
    obtain ⟨angle, hang, hstep⟩ := bind_ok_inv _ _ _ hstep
    have ha := ParseRotationValue_ok _ _ hang
    obtain ⟨hnoerr, hok⟩ := ApplyRotateInt_ok pixels d.Width d.Height angle hW hH hlen ha
    cases hrot : ApplyRotateInt pixels d.Width d.Height angle with
    | error e =>
      cases e with
      | err msg => exact absurd hrot (hnoerr msg)
      | panic msg =>
        rw [hrot] at hstep
        cases hstep
    | ok t =>
      obtain ⟨r, nw, nh⟩ := t
      obtain ⟨hl, hnw, hnh, -⟩ := hok r nw nh hrot
      rw [hrot] at hstep
      dsimp only at hstep
      rw [pure_eq_ok, ok_bind] at hstep
      dsimp only at hstep
      rw [toI32_of_isI32 nw hnw, toI32_of_isI32 nh hnh] at hstep
      cases hstep
      refine ⟨⟨hl, hnw, hnh⟩, rfl, ?_, fun _ => ⟨rfl, angle, hang, hrot⟩, ?_⟩
      · rintro (hc | hc)
        · exact absurd hc n1
        · exact absurd hc n2
      · intro hc; rw [n3] at hc; exact absurd hc (by decide)
  rw [if_neg n3] at hstep
  by_cases n4 : opt.Name = "--crop"
  · rw [if_pos n4] at hstep
    obtain ⟨⟨r, cw, ch⟩, hcrop, hstep⟩ := bind_ok_inv _ _ _ hstep
    dsimp only at hstep
    obtain ⟨cwn, chn, rfl, rfl, hl, hb⟩ :=
      ApplyCrop_ok_dims pixels d.Width d.Height hW hH hlen opt.Value r cw ch hcrop
    have hcwi : (cwn : Int) < 2147483648 → toI32 (cwn : Int) = (cwn : Int) := fun hc =>
      toI32_of_isI32 _ ⟨by omega, hc⟩
    have hchi : (chn : Int) < 2147483648 → toI32 (chn : Int) = (chn : Int) := fun hc =>
      toI32_of_isI32 _ ⟨by omega, hc⟩
    have h0 : toI32 0 = 0 := toI32_of_isI32 0 (by unfold isI32; omega)
    have hprod : (r.length : Int) = toI32 (cwn : Int) * toI32 (chn : Int) := by
      rw [hl]
      rcases hb with hb | hb | ⟨hb1, hb2⟩
      · subst hb
        rw [Nat.cast_zero, h0, Nat.zero_mul, Int.zero_mul, Nat.cast_zero]
      · subst hb
        rw [Nat.cast_zero, h0, Nat.mul_zero, Int.mul_zero, Nat.cast_zero]
      · rw [hcwi (by omega), hchi (by omega), Nat.cast_mul]
    have hi1 := toI32_isI32 (cwn : Int)
    have hi2 := toI32_isI32 (chn : Int)
    generalize ea : toI32 (cwn : Int) = a at hstep hprod hcwi hi1
    generalize eb : toI32 (chn : Int) = b at hstep hprod hchi hi2
    generalize ec : (wrapInt (wrapInt ((cwn : Int) * (chn : Int)) * 3) % 4294967296).toNat = c
      at hstep
    cases hstep
    refine ⟨⟨hprod, hi1, hi2⟩, rfl, ?_, ?_,
      fun _ => ⟨_, _, hcrop, (by omega), (by omega), ea.symm, eb.symm, ec.symm, hcwi, hchi, ?_⟩⟩
    · rintro (hc | hc)
      · exact absurd hc n1
      · exact absurd hc n2
    · intro hc; exact absurd hc n3
    · intro hc1 hc2
      rcases hb with hb | hb | ⟨hb1, hb2⟩
      · subst hb; exact absurd rfl hc1
      · subst hb; exact absurd rfl hc2
      · omega
  · rw [if_neg n4] at hstep
    cases hstep

/-- The option loop of `main` keeps the invariant of `applyOption_step`, and only
`Width`, `Height` and `ImageSize` of the header can differ at the end. -/
theorem processOptions_inv (luma : Byte → Byte → Byte → Byte) :
    ∀ (opts : List CliOption) (pixels : List Pixel) (d : DIBHeader) (pixels' : List Pixel)
      (d' : DIBHeader),
      (pixels.length : Int) = d.Width * d.Height → isI32 d.Width → isI32 d.Height →
      processOptions luma opts (pixels, d) = .ok (pixels', d') →
      ((pixels'.length : Int) = d'.Width * d'.Height ∧ isI32 d'.Width ∧ isI32 d'.Height) ∧
      d' = { d with Width := d'.Width, Height := d'.Height, ImageSize := d'.ImageSize } := by
  intro opts
  induction opts with
  | nil =>
    intro pixels d pixels' d' hlen hW hH hrun
    unfold processOptions at hrun
    rw [List.foldlM_nil] at hrun
    cases hrun
    exact ⟨⟨hlen, hW, hH⟩, rfl⟩
  | cons opt opts ih =>
    intro pixels d pixels' d' hlen hW hH hrun
    unfold processOptions at hrun
    rw [List.foldlM_cons] at hrun
    obtain ⟨⟨p1, d1⟩, hstep, hrest⟩ := bind_ok_inv _ _ _ hrun
    obtain ⟨⟨hl1, hW1, hH1⟩, hd1, -⟩ := applyOption_step luma pixels d opt p1 d1 hlen hW hH hstep
    obtain ⟨hinv', hd'⟩ := ih p1 d1 pixels' d' hl1 hW1 hH1 hrest
    refine ⟨hinv', ?_⟩
    rw [hd1] at hd'
    exact hd'

/-- The option loop of `main` as a left fold of `applyOption`, started on a grid
of length `Width * Height` (with `int32` dimensions). When the loop succeeds on a
list of options, the final grid has the length `Width * Height` of the final
header and no header field other than `Width`, `Height` and `ImageSize` has
changed; the same holds after every prefix of the list, that is, after every
applied option. An applied "--rotate" sets `Width` and `Height` to the dimensions
`ApplyRotate` returned; an applied "--crop" sets them to the `int32` conversions
of the dimensions `ApplyCrop` returned, which are these dimensions whenever they
are below `2^31`, and they are unless one of them is 0. -/
theorem processOptions_steps (luma : Byte → Byte → Byte → Byte) (opts : List CliOption)
    (pixels : List Pixel) (d : DIBHeader) (pixels' : List Pixel) (d' : DIBHeader)
    (hlen : (pixels.length : Int) = d.Width * d.Height) (hW : isI32 d.Width)
    (hH : isI32 d.Height)
    (hrun : processOptions luma opts (pixels, d) = .ok (pixels', d')) :
    ((pixels'.length : Int) = d'.Width * d'.Height ∧ isI32 d'.Width ∧ isI32 d'.Height) ∧
    d' = { d with Width := d'.Width, Height := d'.Height, ImageSize := d'.ImageSize } ∧
    (∀ pre post, opts = pre ++ post →
      ∃ p1 d1, processOptions luma pre (pixels, d) = .ok (p1, d1) ∧
        processOptions luma post (p1, d1) = .ok (pixels', d') ∧
        (p1.length : Int) = d1.Width * d1.Height ∧
        d1 = { d with Width := d1.Width, Height := d1.Height, ImageSize := d1.ImageSize }) ∧
    (∀ (p1 : List Pixel) (d1 : DIBHeader) (opt : CliOption) (p2 : List Pixel) (d2 : DIBHeader),
      (p1.length : Int) = d1.Width * d1.Height → isI32 d1.Width → isI32 d1.Height →
      applyOption luma (p1, d1) opt = .ok (p2, d2) →
      ((opt.Name = "--mirror" ∨ opt.Name = "--filter") →
        d2 = d1 ∧ p2.length = p1.length) ∧
      (opt.Name = "--rotate" → d2.ImageSize = d1.ImageSize ∧
        ∃ angle, ParseRotationValue opt.Value = .ok angle ∧
          ApplyRotateInt p1 d1.Width d1.Height angle = .ok (p2, d2.Width, d2.Height)) ∧
      (opt.Name = "--crop" →
        ∃ cw ch, ApplyCrop p1 d1.Width d1.Height opt.Value = .ok (p2, cw, ch) ∧
          0 ≤ cw ∧ 0 ≤ ch ∧ d2.Width = toI32 cw ∧ d2.Height = toI32 ch ∧
          d2.ImageSize = (wrapInt (wrapInt (cw * ch) * 3) % 4294967296).toNat ∧
          (cw < 2147483648 → d2.Width = cw) ∧ (ch < 2147483648 → d2.Height = ch) ∧
          (cw ≠ 0 → ch ≠ 0 → cw < 2147483648 ∧ ch < 2147483648))) := by
  obtain ⟨hinv', hd'⟩ := processOptions_inv luma opts pixels d pixels' d' hlen hW hH hrun
  refine ⟨hinv', hd', ?_, ?_⟩
  · intro pre post hsplit
    subst hsplit
    unfold processOptions at hrun
    rw [List.foldlM_append] at hrun
    obtain ⟨⟨p1, d1⟩, hpre, hpost⟩ := bind_ok_inv _ _ _ hrun
    obtain ⟨⟨hl1, -, -⟩, hd1⟩ := processOptions_inv luma pre pixels d p1 d1 hlen hW hH hpre
    exact ⟨p1, d1, hpre, hpost, hl1, hd1⟩
  · intro p1 d1 opt p2 d2 hl1 hW1 hH1 hstep
    exact (applyOption_step luma p1 d1 opt p2 d2 hl1 hW1 hH1 hstep).2.2

theorem toI32_maxInt : toI32 9223372036854775807 = -1 := by
  decide!

theorem toI32_zero : toI32 0 = 0 := by
  decide!

theorem imageSize_zero :
    (wrapInt (wrapInt (9223372036854775807 * 0) * 3) % 4294967296).toNat = 0 := by
  decide!

/-- C26 (the code departs from the claim): `main` stores `int32(croppedWidth)`
and `int32(croppedHeight)`. On a 100 x 100 image the option
`--crop=1-0-9223372036854775807-0` is accepted (the sum `1 + 9223372036854775807`
wraps in the bounds check), `ApplyCrop` returns the dimensions
`(9223372036854775807, 0)` with an empty grid, and the loop sets `Width` to -1,
not to the returned width. What does hold for every successful run of the loop
from a grid of length `Width * Height` with `int32` dimensions: after every
applied option the grid length is `Width * Height` of the header, only `Width`,
`Height` and `ImageSize` of the header can differ, rotate sets `Width` and
`Height` to the returned dimensions, and crop sets them to the returned
dimensions whenever these are below `2^31`, which they are unless one of them
is 0. -/
theorem processOptions_crop_width_truncated (luma : Byte → Byte → Byte → Byte) :
    (∀ (g : List Pixel) (d : DIBHeader), d.Width = 100 → d.Height = 100 →
      ApplyCrop g d.Width d.Height "1-0-9223372036854775807-0" =
        .ok ([], 9223372036854775807, 0) ∧
      processOptions luma [{ Name := "--crop", Value := "1-0-9223372036854775807-0" }] (g, d) =
        .ok ([], { d with Width := -1, Height := 0, ImageSize := 0 })) ∧
    processOptions luma sampleOptions (sampleGrid, sampleDIB32) =
      .ok ([{ Blue := 250, Green := 150, Red := 50 }, { Blue := 251, Green := 151, Red := 51 },
        { Blue := 252, Green := 152, Red := 52 }],
        { sampleDIB32 with Width := 1, Height := 3, ImageSize := 9 }) ∧
    ∀ (opts : List CliOption) (pixels : List Pixel) (d : DIBHeader) (pixels' : List Pixel)
      (d' : DIBHeader),
      (pixels.length : Int) = d.Width * d.Height → isI32 d.Width → isI32 d.Height →
      processOptions luma opts (pixels, d) = .ok (pixels', d') →
      ((pixels'.length : Int) = d'.Width * d'.Height ∧ isI32 d'.Width ∧ isI32 d'.Height) ∧
      d' = { d with Width := d'.Width, Height := d'.Height, ImageSize := d'.ImageSize } ∧
      (∀ pre post, opts = pre ++ post →
        ∃ p1 d1, processOptions luma pre (pixels, d) = .ok (p1, d1) ∧
          processOptions luma post (p1, d1) = .ok (pixels', d') ∧
          (p1.length : Int) = d1.Width * d1.Height ∧
          d1 = { d with Width := d1.Width, Height := d1.Height, ImageSize := d1.ImageSize }) ∧
      (∀ (p1 : List Pixel) (d1 : DIBHeader) (opt : CliOption) (p2 : List Pixel) (d2 : DIBHeader),
        (p1.length : Int) = d1.Width * d1.Height → isI32 d1.Width → isI32 d1.Height →
        applyOption luma (p1, d1) opt = .ok (p2, d2) →
        ((opt.Name = "--mirror" ∨ opt.Name = "--filter") →
          d2 = d1 ∧ p2.length = p1.length) ∧
        (opt.Name = "--rotate" → d2.ImageSize = d1.ImageSize ∧
          ∃ angle, ParseRotationValue opt.Value = .ok angle ∧
            ApplyRotateInt p1 d1.Width d1.Height angle = .ok (p2, d2.Width, d2.Height)) ∧
        (opt.Name = "--crop" →
          ∃ cw ch, ApplyCrop p1 d1.Width d1.Height opt.Value = .ok (p2, cw, ch) ∧
            0 ≤ cw ∧ 0 ≤ ch ∧ d2.Width = toI32 cw ∧ d2.Height = toI32 ch ∧
            d2.ImageSize = (wrapInt (wrapInt (cw * ch) * 3) % 4294967296).toNat ∧
            (cw < 2147483648 → d2.Width = cw) ∧ (ch < 2147483648 → d2.Height = ch) ∧
            (cw ≠ 0 → ch ≠ 0 → cw < 2147483648 ∧ ch < 2147483648))) := by
  refine ⟨?_, ?_, ?_⟩
  · intro g d hw hh
    have hc : ApplyCrop g 100 100 "1-0-9223372036854775807-0" =
        .ok ([], 9223372036854775807, 0) := rfl
    rw [hw, hh]
    refine ⟨hc, ?_⟩
    have hstep : applyOption luma (g, d)
        { Name := "--crop", Value := "1-0-9223372036854775807-0" } =
        .ok ([], { d with Width := -1, Height := 0, ImageSize := 0 }) := by
      unfold applyOption
      dsimp only
      rw [if_neg (by decide), if_neg (by decide), if_neg (by decide), if_pos (by decide),
        hw, hh, hc, ok_bind]
      dsimp only
      rw [toI32_maxInt, toI32_zero, imageSize_zero]
      rfl
    unfold processOptions
    rw [List.foldlM_cons, hstep, ok_bind, List.foldlM_nil]
    rfl
  · rfl
  · intro opts pixels d pixels' d' hlen hW hH hrun
    exact processOptions_steps luma opts pixels d pixels' d' hlen hW hH hrun

end Bitmap
